import Mathlib

/-!
Verification development for the HHC data-consolidation pipeline.

The pipeline code (data_transform.py, specialty_roll_up_transformation.py,
cloud_function_rollup.py, app.py) is built on pandas DataFrames.  We embed
the fragment of pandas that the pipeline uses:

* a DataFrame is a column-name list together with rows, each row an
  association list from column name to cell value;
* cell values are JSON-ish scalars (`Prim`), scalars-or-lists (`PV`, the
  cells of enriched child frames), and the subject-table values (`Value`,
  which additionally contains lists of records produced by the
  group-and-dict strategies);
* `pd.merge(l, r, on=key, how="left")` keeps the left row order, emits one
  output row per match (with the standard `_x`/`_y` suffixing of
  overlapping non-key columns), and fills missing matches with null
  (pandas NaN; NaN keys match NaN keys in pandas merges);
* `df.groupby(key)` drops rows whose key is null, groups the remaining
  rows by key preserving the within-group row order, and sorts the groups
  by key (pandas default sort=True);
* operations that raise in Python (`KeyError` on a missing dict or column
  key, `ValueError` from guard clauses) return `Except PyError`.
-/

namespace HHC

/-- Scalar cell values as loaded from the JSON relation extracts.
`null` stands for both Python None and pandas NaN. -/
inductive Prim where
  | null : Prim
  | str : String → Prim
  | int : Int → Prim
  | bool : Bool → Prim
deriving DecidableEq, Repr

/-- Cell values of enriched child/dimension frames: a scalar, or a list of
scalars produced by a groupby-apply(list) aggregation. -/
inductive PV where
  | p : Prim → PV
  | plist : List Prim → PV
deriving DecidableEq, Repr

/-- One record of a to_dict(orient=records) projection. -/
abbrev Rec := List (String × PV)

/-- Cell values of the subject (physician) table: a scalar-or-list, or the
list of records produced by a group-and-dict style aggregation. -/
inductive Value where
  | pv : PV → Value
  | recs : List Rec → Value
deriving DecidableEq, Repr

/-- A DataFrame row: association list from column name to cell. -/
abbrev DRow (α : Type) := List (String × α)

/-- A DataFrame: schema (column list) plus rows.  Rows are intended to
carry exactly the schema columns in schema order. -/
structure DF (α : Type) where
  cols : List String
  rows : List (DRow α)
deriving DecidableEq, Repr

/-- Errors raised by the Python code we model. -/
inductive PyError where
  | valueError : String → PyError
  | keyError : String → PyError
deriving DecidableEq, Repr

instance instDecEqExcept {e a : Type} [DecidableEq e] [DecidableEq a] :
    DecidableEq (Except e a) := fun x y =>
  match x, y with
  | .error e1, .error e2 =>
    match decEq e1 e2 with
    | isTrue h => isTrue (by rw [h])
    | isFalse h => isFalse (by intro hc; cases hc; exact h rfl)
  | .ok v1, .ok v2 =>
    match decEq v1 v2 with
    | isTrue h => isTrue (by rw [h])
    | isFalse h => isFalse (by intro hc; cases hc; exact h rfl)
  | .error _, .ok _ => isFalse (by intro hc; cases hc)
  | .ok _, .error _ => isFalse (by intro hc; cases hc)

/-- The null cell of each cell type (pandas NaN / Python None). -/
class NullVal (α : Type) where
  nullv : α

instance : NullVal Prim := ⟨Prim.null⟩

instance : NullVal PV := ⟨PV.p Prim.null⟩

instance : NullVal Value := ⟨Value.pv (PV.p Prim.null)⟩

/-- Cell of a row at a column name (first occurrence). -/
def rowGet {α : Type} : DRow α → String → Option α
  | [], _ => none
  | (c, v) :: t, d => if c = d then some v else rowGet t d

/-- The well-formedness invariant a real DataFrame maintains: every row
carries exactly the schema columns, in schema order. -/
def WF {α : Type} (df : DF α) : Prop :=
  ∀ r ∈ df.rows, r.map Prod.fst = df.cols

instance {α : Type} [DecidableEq α] (df : DF α) : Decidable (WF df) := by
  unfold WF; infer_instance

/-- Total order used when pandas sorts group keys (on homogeneous key
columns it agrees with the pandas ascending sort; mixed-type keys would
raise in Python, here they get an arbitrary fixed rank order). -/
def Prim.rank : Prim → Nat
  | .null => 0
  | .bool _ => 1
  | .int _ => 2
  | .str _ => 3

def strLeB (a b : String) : Bool :=
  compare a b ≠ Ordering.gt

def Prim.leB : Prim → Prim → Bool
  | .null, .null => true
  | .bool a, .bool b => !a || b
  | .int a, .int b => decide (a ≤ b)
  | .str a, .str b => strLeB a b
  | a, b => decide (a.rank ≤ b.rank)

def primListLeB : List Prim → List Prim → Bool
  | [], _ => true
  | _ :: _, [] => false
  | a :: as, b :: bs => if a = b then primListLeB as bs else Prim.leB a b

def PV.leB : PV → PV → Bool
  | .p a, .p b => Prim.leB a b
  | .plist a, .plist b => primListLeB a b
  | .p _, .plist _ => true
  | .plist _, .p _ => false

/-- Stable insertion used by the group-key sort. -/
def insertLe {α : Type} (le : α → α → Bool) (x : α) : List α → List α
  | [] => [x]
  | y :: ys => if le x y then x :: y :: ys else y :: insertLe le x ys

/-- Stable insertion sort by a boolean comparator. -/
def sortLe {α : Type} (le : α → α → Bool) (l : List α) : List α :=
  l.foldr (insertLe le) []

/-- Append a row to the group of key `k`, creating the group at the end if
it does not exist yet (pandas groupby keeps within-group row order). -/
def insertGrouped {α : Type} [DecidableEq α] (k : α) (r : DRow α) :
    List (α × List (DRow α)) → List (α × List (DRow α))
  | [] => [(k, [r])]
  | (k0, rs) :: t =>
    if k = k0 then (k0, rs ++ [r]) :: t else (k0, rs) :: insertGrouped k r t

/-- Group rows by the value of column `key`, dropping rows whose key cell
is null (pandas groupby dropna) or absent; groups appear in order of first
occurrence, rows within a group in original order. -/
def groupRows {α : Type} [DecidableEq α] [NullVal α]
    (rows : List (DRow α)) (key : String) : List (α × List (DRow α)) :=
  rows.foldl (fun acc r =>
    match rowGet r key with
    | none => acc
    | some k => if k = NullVal.nullv then acc else insertGrouped k r acc) []

/-- Groups sorted by key, i.e. pandas `df.groupby(key)` with the default
sort=True. -/
def sortedGroups {α : Type} [DecidableEq α] [NullVal α] (le : α → α → Bool)
    (rows : List (DRow α)) (key : String) : List (α × List (DRow α)) :=
  sortLe (fun a b => le a.1 b.1) (groupRows rows key)

/-- Rename the overlapping columns of one side of a merge by appending the
pandas suffix. -/
def suffixRow {α : Type} (overlap : List String) (sfx : String) (r : DRow α) :
    DRow α :=
  r.map (fun cv => if cv.1 ∈ overlap then (cv.1 ++ sfx, cv.2) else cv)

/-- Drop the merge-key cell from a right-side row. -/
def dropKey {α : Type} (key : String) (r : DRow α) : DRow α :=
  r.filter (fun cv => cv.1 ≠ key)

/-- `pd.merge(l, r, on=key, how="left")`: left row order is preserved, one
output row per right match (right rows in order), null fill when there is
no match, overlapping non-key columns get suffixes `_x`/`_y`.  Raises
KeyError when the key column is missing on either side. -/
def mergeLeft {α : Type} [DecidableEq α] [NullVal α] (l r : DF α)
    (key : String) : Except PyError (DF α) :=
  if key ∈ l.cols ∧ key ∈ r.cols then
    let overlap := l.cols.filter (fun c => c ≠ key ∧ c ∈ r.cols)
    let lcols := l.cols.map (fun c => if c ∈ overlap then c ++ "_x" else c)
    let rcols := (r.cols.filter (fun c => c ≠ key)).map
      (fun c => if c ∈ overlap then c ++ "_y" else c)
    let rows := l.rows.flatMap (fun lrow =>
      let lrow' := suffixRow overlap "_x" lrow
      let ms := r.rows.filter (fun rr => rowGet rr key = rowGet lrow key)
      if ms.isEmpty then
        [lrow' ++ rcols.map (fun c => (c, (NullVal.nullv : α)))]
      else
        ms.map (fun rr => lrow' ++ suffixRow overlap "_y" (dropKey key rr)))
    Except.ok ⟨lcols ++ rcols, rows⟩
  else Except.error (.keyError key)

/-- pandas `df.rename(columns=dict(subs))`. -/
def renameCols {α : Type} (subs : List (String × String)) (df : DF α) :
    DF α :=
  ⟨df.cols.map (fun c => ((subs.lookup c).getD c)),
   df.rows.map (List.map (fun cv => (((subs.lookup cv.1).getD cv.1), cv.2)))⟩

/-- pandas `df[cs]` column projection; KeyError when a column is absent
from the schema. -/
def selectCols {α : Type} (cs : List String) (df : DF α) :
    Except PyError (DF α) :=
  if cs.all (fun c => c ∈ df.cols) then
    Except.ok ⟨cs, df.rows.map (fun r =>
      cs.filterMap (fun c => (rowGet r c).map (fun v => (c, v))))⟩
  else Except.error (.keyError "columns")

/-- pandas `df.drop(columns=[c])`. -/
def dropCol {α : Type} (c : String) (df : DF α) : DF α :=
  ⟨df.cols.filter (fun d => d ≠ c),
   df.rows.map (fun r => r.filter (fun cv => cv.1 ≠ c))⟩

/-- Map a function over the cells of one column (pandas
`df[c] = df[c].apply(f)` and `fillna` on a column); KeyError when the
column is absent. -/
def mapCol {α : Type} (c : String) (f : α → α) (df : DF α) :
    Except PyError (DF α) :=
  if c ∈ df.cols then
    Except.ok ⟨df.cols, df.rows.map
      (List.map (fun cv => if cv.1 = c then (cv.1, f cv.2) else cv))⟩
  else Except.error (.keyError c)

/-- Values of column `agg` over a list of rows (absent cell read as NaN). -/
def colVals {α : Type} [NullVal α] (agg : String) (rs : List (DRow α)) :
    List α :=
  rs.map (fun r => (rowGet r agg).getD NullVal.nullv)

/-- `df.groupby(key)[agg].apply(list).reset_index()` on a scalar frame,
with the aggregated column named `outName`: one row per group key (sorted),
cells `(key, k)` and `(outName, list of the agg values in row order)`. -/
def groupListPrim (df : DF Prim) (key agg outName : String) :
    Except PyError (DF PV) :=
  if key ∈ df.cols then
    if agg ∈ df.cols then
      Except.ok ⟨[key, outName],
        (sortedGroups Prim.leB df.rows key).map (fun g =>
          [(key, PV.p g.1), (outName, PV.plist (colVals agg g.2))])⟩
    else Except.error (.keyError agg)
  else Except.error (.keyError key)

/-- Effectful map that stops at the first raised error (the behavior of a
Python loop or comprehension over fallible element operations). -/
def mapE {α β : Type} (f : α → Except PyError β) :
    List α → Except PyError (List β)
  | [] => Except.ok []
  | a :: t =>
    match f a with
    | Except.error e => Except.error e
    | Except.ok b =>
      match mapE f t with
      | Except.error e => Except.error e
      | Except.ok bs => Except.ok (b :: bs)

/-- Project a row onto the columns `cs` in order, as one record of
`x[cs].to_dict(orient=records)`; KeyError on a missing column. -/
def projectRow {α : Type} (cs : List String) (r : DRow α) :
    Except PyError (DRow α) :=
  mapE (fun c => match rowGet r c with
    | some v => Except.ok (c, v)
    | none => Except.error (.keyError c)) cs

/-- `df.groupby(key).apply(lambda x: x[cs].to_dict(records))
.reset_index(name=outName)`: one row per group key (sorted), cells
`(key, k)` and `(outName, records of the group rows)`. -/
def groupRecsPV (df : DF PV) (key : String) (cs : List String)
    (outName : String) : Except PyError (DF Value) :=
  if key ∈ df.cols then
    match mapE (fun g =>
      (mapE (projectRow cs) g.2).map (fun recs =>
        [(key, Value.pv g.1), (outName, Value.recs recs)]))
      (sortedGroups PV.leB df.rows key) with
    | Except.ok rows => Except.ok ⟨[key, outName], rows⟩
    | Except.error e => Except.error e
  else Except.error (.keyError key)

/-- Promote a scalar frame to an enriched child frame. -/
def dfPrimToPV (df : DF Prim) : DF PV :=
  ⟨df.cols, df.rows.map (List.map (fun cv => (cv.1, PV.p cv.2)))⟩

/-- Promote an enriched child frame to a subject-table frame. -/
def dfPVToValue (df : DF PV) : DF Value :=
  ⟨df.cols, df.rows.map (List.map (fun cv => (cv.1, Value.pv cv.2)))⟩

/-- Promote a scalar frame to a subject-table frame. -/
def dfPrimToValue (df : DF Prim) : DF Value :=
  dfPVToValue (dfPrimToPV df)

/-! ### The relation map and the merge-directive table (data_transform.py) -/

/-- The Python `Dict[str, pd.DataFrame]` of loaded relations, as an
association list with distinct keys. -/
abbrev RelMap := List (String × DF Prim)

def lookupRel : RelMap → String → Option (DF Prim)
  | [], _ => none
  | (k, df) :: t, d => if k = d then some df else lookupRel t d

/-- `dfs.pop(k)`: the map with the entry for `k` removed. -/
def eraseRel : RelMap → String → RelMap
  | [], _ => []
  | (k, df) :: t, d => if k = d then t else (k, df) :: eraseRel t d

/-- One entry of `get_merge_config()`.  Optional fields model keys that may
be absent from the Python dict; reading an absent key raises KeyError. -/
structure MergeConfig where
  name : String
  primary_df_key : Option String := none
  secondary_df_key : Option String := none
  mtype : String := ""
  left_on : Option String := none
  right_on : Option String := none
  group_by : Option String := none
  agg_col : Option String := none
  dict_cols : Option (List String) := none
  rename_to : Option String := none
deriving DecidableEq, Repr

/-- Read a Python dict key that may be absent: `config[k]`. -/
def getKey {β : Type} (o : Option β) (k : String) : Except PyError β :=
  match o with
  | some v => Except.ok v
  | none => Except.error (.keyError k)

/-- `get_merge_config()` from data_transform.py, verbatim. -/
def getMergeConfig : List MergeConfig :=
  [ { name := "Languages", primary_df_key := some "PhysicianLanguage",
      mtype := "group_and_list", group_by := some "PhysicianId",
      agg_col := some "Language", rename_to := some "languages" },
    { name := "Practices", primary_df_key := some "PhysicianPractice",
      mtype := "group_and_list", group_by := some "PhysicianId",
      agg_col := some "PracticeId" },
    { name := "Team Keywords", primary_df_key := some "PhysicianTeamKeyword",
      mtype := "group_and_list", group_by := some "PhysicianId",
      agg_col := some "TeamKeyword" },
    { name := "Faculty Appointments",
      primary_df_key := some "PhysicianFacultyAppointment",
      mtype := "group_and_list", group_by := some "PhysicianId",
      agg_col := some "Position",
      rename_to := some "Position_faculty_appointments" },
    { name := "Insurance", primary_df_key := some "PhysicianInsurance",
      secondary_df_key := some "Insurance", mtype := "group_and_dict",
      left_on := some "InsuranceId", right_on := some "Id",
      group_by := some "PhysicianId",
      dict_cols := some ["InsuranceId", "Name"], rename_to := some "insurance" },
    { name := "Locations", primary_df_key := some "PhysicianLocation",
      secondary_df_key := some "Location", mtype := "group_and_dict",
      left_on := some "LocationId", right_on := some "Id",
      group_by := some "PhysicianId", rename_to := some "location" },
    { name := "Area of Expertise",
      primary_df_key := some "PhysicianAreaOfExpertise",
      secondary_df_key := some "AreaOfExpertise", mtype := "group_and_dict",
      left_on := some "AreaOfExpertiseId", right_on := some "Id",
      group_by := some "PhysicianId", rename_to := some "area_of_expertise" },
    { name := "Education", primary_df_key := some "PhysicianEducation",
      mtype := "group_and_dict", group_by := some "PhysicianId",
      dict_cols := some ["School", "SchoolType", "Degree", "AreaOfStudy"],
      rename_to := some "education" },
    { name := "Credentials", primary_df_key := some "PhysicianCredential",
      mtype := "group_and_dict", group_by := some "PhysicianId",
      dict_cols := some ["Facility", "ShowOnWeb"], rename_to := some "facility" },
    { name := "Specialties", primary_df_key := some "PhysicianSpecialty",
      mtype := "special_specialty_merge" } ]

/-! ### The three merge strategies (data_transform.py) -/

/-- The grouped frame built inside `_merge_group_and_list`: group the
primary relation and aggregate the `agg_col` values into a list per key,
renaming the aggregated column when `rename_to` is configured. -/
def mergeGroupAndListGrouped (dfToMerge : DF Prim) (config : MergeConfig) :
    Except PyError (DF PV) := do
  let gb ← getKey config.group_by "group_by"
  let agg ← getKey config.agg_col "agg_col"
  let grouped ← groupListPrim dfToMerge gb agg agg
  match config.rename_to with
  | some rn => Except.ok (renameCols [(agg, rn)] grouped)
  | none => Except.ok grouped

/-- `_merge_group_and_list(physician_df, df_to_merge, config)`. -/
def mergeGroupAndList (physicianDf : DF Value) (dfToMerge : DF Prim)
    (config : MergeConfig) : Except PyError (DF Value) := do
  let gb ← getKey config.group_by "group_by"
  let grouped ← mergeGroupAndListGrouped dfToMerge config
  mergeLeft physicianDf (dfPVToValue grouped) gb

/-- The grouped frame built inside `_merge_group_and_dict`: when a
secondary relation is configured and present, left-join it onto the
primary (renaming its key to the primary foreign-key column) and take the
record columns from the renamed secondary schema; otherwise take them from
`config["dict_cols"]` (KeyError when that key is absent). -/
def mergeGroupAndDictGrouped (dfToMerge : DF Prim) (dfs : RelMap)
    (config : MergeConfig) : Except PyError (DF Value) := do
  match config.secondary_df_key.bind (fun s => lookupRel dfs s) with
  | some sec => do
      let lo ← getKey config.left_on "left_on"
      let ro ← getKey config.right_on "right_on"
      let secondaryDf := renameCols [(ro, lo)] sec
      let merged ← mergeLeft dfToMerge secondaryDf lo
      let gb ← getKey config.group_by "group_by"
      let rn ← getKey config.rename_to "rename_to"
      groupRecsPV (dfPrimToPV merged) gb secondaryDf.cols rn
  | none => do
      let dictCols ← getKey config.dict_cols "dict_cols"
      let gb ← getKey config.group_by "group_by"
      let rn ← getKey config.rename_to "rename_to"
      groupRecsPV (dfPrimToPV dfToMerge) gb dictCols rn

/-- `_merge_group_and_dict(physician_df, df_to_merge, dfs, config)`. -/
def mergeGroupAndDict (physicianDf : DF Value) (dfToMerge : DF Prim)
    (dfs : RelMap) (config : MergeConfig) : Except PyError (DF Value) := do
  let grouped ← mergeGroupAndDictGrouped dfToMerge dfs config
  let gb ← getKey config.group_by "group_by"
  mergeLeft physicianDf grouped gb

/-- The column list `cols_to_group` of `_merge_specialties`. -/
def colsToGroup : List String :=
  ["SpecialtyId", "BoardCertification", "AcceptingNewPatients", "Primary",
   "Name", "SynonymTexts", "SymptomTexts"]

/-- `_merge_specialties(physician_df, dfs)`. -/
def mergeSpecialties (physicianDf : DF Value) (dfs : RelMap) :
    Except PyError (DF Value) := do
  let specialtyDf ← getKey (lookupRel dfs "PhysicianSpecialty")
    "PhysicianSpecialty"
  match lookupRel dfs "Specialty" with
  | none => Except.ok physicianDf
  | some spec => do
      let details0 := dfPrimToPV (renameCols [("Id", "SpecialtyId")] spec)
      let details1 ← match lookupRel dfs "Synonym" with
        | some syn => do
            let synonyms ← groupListPrim syn "SpecialtyId" "SynonymText"
              "SynonymTexts"
            mergeLeft details0 synonyms "SpecialtyId"
        | none => Except.ok details0
      let details2 ← match lookupRel dfs "Symptom" with
        | some sym => do
            let symptoms ← groupListPrim sym "SpecialtyId" "SymptomText"
              "SymptomTexts"
            mergeLeft details1 symptoms "SpecialtyId"
        | none => Except.ok details1
      let mergedSpecialties ← mergeLeft (dfPrimToPV specialtyDf) details2
        "SpecialtyId"
      let validCols := colsToGroup.filter (fun c => c ∈ mergedSpecialties.cols)
      let specGrouped ← groupRecsPV mergedSpecialties "PhysicianId" validCols
        "specialties"
      mergeLeft physicianDf specGrouped "PhysicianId"

/-! ### The pipeline driver (process_and_merge_data) -/

/-- The warning logged when a directive is skipped. -/
def skipWarning (config : MergeConfig) : String :=
  "Skipping " ++ config.name ++
    ": primary dataframe not found or is empty."

/-- One iteration of the directive loop of `process_and_merge_data`: skip
(with a warning) when the primary relation key is falsy, absent from the
map, or maps to an empty frame; otherwise dispatch on the strategy name.
An error state is final (a raised exception aborts the Python loop). -/
def stepConfig (dfs : RelMap) (st : Except PyError (DF Value) × List String)
    (config : MergeConfig) : Except PyError (DF Value) × List String :=
  match st.1 with
  | .error e => (.error e, st.2)
  | .ok pdf =>
    match config.primary_df_key with
    | none => (.ok pdf, st.2 ++ [skipWarning config])
    | some pk =>
      match lookupRel dfs pk with
      | none => (.ok pdf, st.2 ++ [skipWarning config])
      | some prim =>
        if prim.rows.isEmpty then (.ok pdf, st.2 ++ [skipWarning config])
        else if config.mtype = "group_and_list" then
          (mergeGroupAndList pdf prim config, st.2)
        else if config.mtype = "group_and_dict" then
          (mergeGroupAndDict pdf prim dfs config, st.2)
        else if config.mtype = "special_specialty_merge" then
          (mergeSpecialties pdf dfs, st.2)
        else (.ok pdf, st.2)

/-- The diagnostic of the fatal missing-subject error. -/
def primaryMissingMsg : String :=
  "Primary Physician dataframe not found. Cannot proceed."

/-- `process_and_merge_data(dfs)`.  Returns the result (or the raised
exception), the final state of the caller-owned relation map (the function
pops the Physician entry before iterating), and the recorded warnings. -/
def processAndMergeData (dfs : RelMap) :
    Except PyError (DF Value) × RelMap × List String :=
  match lookupRel dfs "Physician" with
  | none => (.error (.valueError primaryMissingMsg), dfs, [])
  | some phys =>
    let dfs' := eraseRel dfs "Physician"
    let st := getMergeConfig.foldl (stepConfig dfs')
      (.ok (dfPrimToValue phys), [])
    (st.1, dfs', st.2)

/-! ### Serialization (save_and_finalize, pandas to_json lines=True) -/

/-- The double-quote character. -/
def dq : Char := Char.ofNat 34

/-- The single-quote character (Python repr string delimiter). -/
def sq : Char := Char.ofNat 39

/-- The backslash character. -/
def bs : Char := Char.ofNat 92

/-- JSON string escaping as performed by pandas to_json (which also
escapes the forward slash). -/
def jsonEscape (s : String) : String :=
  s.data.foldl (fun acc ch =>
    if ch = dq then acc ++ String.singleton bs ++ String.singleton dq
    else if ch = bs then acc ++ String.singleton bs ++ String.singleton bs
    else if ch = Char.ofNat 47 then
      acc ++ String.singleton bs ++ String.singleton (Char.ofNat 47)
    else if ch = Char.ofNat 10 then acc ++ String.singleton bs ++ "n"
    else acc ++ String.singleton ch) ""

/-- A JSON string literal. -/
def jsonStr (s : String) : String :=
  String.singleton dq ++ jsonEscape s ++ String.singleton dq

def jsonPrim : Prim → String
  | .null => "null"
  | .str s => jsonStr s
  | .int n => toString n
  | .bool b => if b then "true" else "false"

def jsonPV : PV → String
  | .p v => jsonPrim v
  | .plist l => "[" ++ String.intercalate "," (l.map jsonPrim) ++ "]"

def jsonRec (r : Rec) : String :=
  "\x7b" ++ String.intercalate ","
    (r.map (fun cv => jsonStr cv.1 ++ ":" ++ jsonPV cv.2)) ++ "\x7d"

def jsonValue : Value → String
  | .pv v => jsonPV v
  | .recs l => "[" ++ String.intercalate "," (l.map jsonRec) ++ "]"

/-- One output line of `df.to_json(orient=records, lines=True)`. -/
def jsonRowLine (r : DRow Value) : String :=
  "\x7b" ++ String.intercalate ","
    (r.map (fun cv => jsonStr cv.1 ++ ":" ++ jsonValue cv.2)) ++ "\x7d"

/-- `df.to_json(path, orient=records, lines=True)`: the file content, one
JSON object per row, newline separated, empty for an empty frame. -/
def toJsonLines (df : DF Value) : String :=
  String.intercalate "\n" (df.rows.map jsonRowLine)

/-- `save_and_finalize(df, ...)`: drop the AcceptingNewPatients column when
present and serialize to JSON lines; we model the produced file content. -/
def saveAndFinalize (df : DF Value) : String :=
  toJsonLines
    (if "AcceptingNewPatients" ∈ df.cols then
      dropCol "AcceptingNewPatients" df
    else df)

/-! ### The specialty rollup
(specialty_roll_up_transformation.py / cloud_function_rollup.py, the
pandas block shared verbatim with app.py transform_data_to_jsonl) -/

/-- The pandas transformation block of the rollup
`process_and_merge_data`: specialty roll-up (canonical-name join, parent
self-join with empty-string fill) followed by symptom and synonym
aggregation with empty-list fill. -/
def rollupProcess (dfRollup dfSpecialties dfSymptoms dfSynonyms : DF Prim) :
    Except PyError (DF PV) := do
  let specialtiesR := renameCols
    [("Id", "SpecialtyId"), ("Name", "CanonicalSpecialtyName")] dfSpecialties
  let dfMerged ← mergeLeft dfRollup specialtiesR "SpecialtyId"
  let parentSel ← selectCols ["Id", "Specialty"] dfRollup
  let parentLookup := renameCols
    [("Id", "ParentSpecialty"), ("Specialty", "ParentSpecialtyName")] parentSel
  let dfRolledUp0 ← mergeLeft dfMerged parentLookup "ParentSpecialty"
  let dfRolledUp ← mapCol "ParentSpecialtyName"
    (fun v => if v = Prim.null then Prim.str "" else v) dfRolledUp0
  let symptomsAgg ← groupListPrim dfSymptoms "SpecialtyId" "SymptomText"
    "SymptomText"
  let synonymsAgg ← groupListPrim dfSynonyms "SpecialtyId" "SynonymText"
    "SynonymText"
  let dfFinal0 ← mergeLeft (dfPrimToPV dfRolledUp) symptomsAgg "SpecialtyId"
  let dfFinal1 ← mergeLeft dfFinal0 synonymsAgg "SpecialtyId"
  let dfFinal2 ← mapCol "SymptomText"
    (fun v => match v with | PV.plist l => PV.plist l | _ => PV.plist [])
    dfFinal1
  mapCol "SynonymText"
    (fun v => match v with | PV.plist l => PV.plist l | _ => PV.plist [])
    dfFinal2

/-! ### The document assembler of app.py (transform_data_to_jsonl) -/

/-- Python `repr` of a scalar (single-quoted strings, None, True/False). -/
def pyReprPrim : Prim → String
  | .null => "None"
  | .str s => String.singleton sq ++ s ++ String.singleton sq
  | .int n => toString n
  | .bool b => if b then "True" else "False"

def pyReprPV : PV → String
  | .p v => pyReprPrim v
  | .plist l => "[" ++ String.intercalate ", " (l.map pyReprPrim) ++ "]"

/-- Python `str(rec)` for a record dict: single-quoted keys, `, ` and
`: ` separators.  This is what app.py appends as an output "JSON" line. -/
def pyReprRec (r : Rec) : String :=
  "\x7b" ++ String.intercalate ", "
    (r.map (fun cv =>
      String.singleton sq ++ cv.1 ++ String.singleton sq ++ ": " ++
        pyReprPV cv.2)) ++ "\x7d"

/-- `json.dumps(rec)` for a record dict (the serializer the rollup cloud
function uses), for contrast with `pyReprRec`. -/
def jsonDumpsRec (r : Rec) : String :=
  "\x7b" ++ String.intercalate ", "
    (r.map (fun cv => jsonStr cv.1 ++ ": " ++ jsonPV cv.2)) ++ "\x7d"

/-- A necessary condition of the JSON grammar for object texts: after
optional spaces the text starts with a brace, and the first thing inside
the object is either a double-quoted member name or the closing brace.
Python repr of a nonempty dict fails this (its keys are single-quoted). -/
def looksLikeJsonObject (s : String) : Bool :=
  match s.data.dropWhile (fun c => c = ' ') with
  | c :: rest =>
    c = Char.ofNat 123 &&
      (match rest.dropWhile (fun c => c = ' ') with
       | d :: _ => d = dq || d = Char.ofNat 125
       | [] => false)
  | [] => false

/-- The ValueError pandas raises for `df.fillna(None)` (neither a fill
value nor a method was specified). -/
def fillnaNoneError : PyError :=
  PyError.valueError "Must specify a fill value or method."

/-- `transform_data_to_jsonl(raw_data)` from app.py.  Builds the five
frames from the request payload, runs the shared rollup block, then calls
`df_final.fillna(None, inplace=True)` — which raises ValueError in pandas
(fillna requires a value or a method), so the function never reaches its
serialization loop.  The loop itself (modelled after the raise, with `ids`
standing for the generated uuid4 stream) would emit `str(rec)` per line,
i.e. Python repr, not JSON. -/
def transformDataToJsonl (rawData : RelMap) (ids : List String) :
    Except PyError String := do
  let dfRollup ← getKey (lookupRel rawData "PhysicianRollupSpecialties")
    "PhysicianRollupSpecialties"
  let dfSpecialties ← getKey (lookupRel rawData "Specialty") "Specialty"
  let dfSymptoms ← getKey (lookupRel rawData "Symptom") "Symptom"
  let dfSynonyms ← getKey (lookupRel rawData "Synonym") "Synonym"
  let dfAoe0 ← getKey (lookupRel rawData "AreaOfExpertise") "AreaOfExpertise"
  let dfFinal ← rollupProcess dfRollup dfSpecialties dfSymptoms dfSynonyms
  let _ ← (Except.error fillnaNoneError : Except PyError Unit)
  let recs := dfFinal.rows ++ (dfPrimToPV dfAoe0).rows
  Except.ok (String.intercalate "\n" ((recs.zip ids).map (fun ri =>
    pyReprRec (ri.1 ++ [("_id", PV.p (Prim.str ri.2))]))))

/-! ## Basic lemmas about rows and lookups -/

/-! ## Grouping internals, merge-row abbreviations, directive
predicates and the concrete fixtures used by the theorems below -/

/-- Generic association lookup with decidable equality. -/
def alookup {α β : Type} [DecidableEq α] (k : α) : List (α × β) → Option β
  | [] => none
  | (k0, v) :: t => if k0 = k then some v else alookup k t

/-- Rows of `rows` whose `key` cell equals `k`. -/
def matchRows {α : Type} [DecidableEq α] (rows : List (DRow α))
    (key : String) (k : α) : List (DRow α) :=
  rows.filter (fun r => rowGet r key = some k)

/-- Combine the groups already accumulated for a key with newly matched
rows. -/
def combineG {α : Type} (o : Option (List (DRow α))) (ms : List (DRow α)) :
    Option (List (DRow α)) :=
  match o, ms with
  | none, [] => none
  | none, ms => some ms
  | some rs, ms => some (rs ++ ms)

/-- The key-column cells of a frame, in row order. -/
def rKeys {α : Type} (r : DF α) (key : String) : List (Option α) :=
  r.rows.map (fun rr => rowGet rr key)

/-- No non-key column of the left frame also occurs in the right frame, so
the pandas suffixing is inactive. -/
def noColOverlap {α : Type} (l r : DF α) (key : String) : Prop :=
  ∀ c ∈ l.cols, c = key ∨ c ∉ r.cols

/-- The single output row a left row produces in a suffix-free left merge
against a right frame with pairwise distinct keys. -/
def mergeRowNoOv {α : Type} [DecidableEq α] [NullVal α] (r : DF α)
    (key : String) (lrow : DRow α) : DRow α :=
  match r.rows.filter (fun rr => rowGet rr key = rowGet lrow key) with
  | [] => lrow ++ (r.cols.filter (fun c => c ≠ key)).map
      (fun c => (c, (NullVal.nullv : α)))
  | m :: _ => lrow ++ dropKey key m

/-- The name of the single column a directive adds to the subject table. -/
def outNameOf (cfg : MergeConfig) : String :=
  if cfg.mtype = "group_and_list" then
    cfg.rename_to.getD (cfg.agg_col.getD "")
  else if cfg.mtype = "group_and_dict" then cfg.rename_to.getD ""
  else "specialties"

/-- Sanity conditions on a directive (the aggregated column is not the
group key, and the output column is not the group key); they hold for
every entry of `get_merge_config()`. -/
def CfgSpec (cfg : MergeConfig) : Prop :=
  (cfg.mtype = "group_and_list" → cfg.group_by ≠ cfg.agg_col) ∧
  cfg.group_by ≠ some (outNameOf cfg)

instance (cfg : MergeConfig) : Decidable (CfgSpec cfg) := by
  unfold CfgSpec; infer_instance

/-- `mid` extends `cur` row-wise: same row count, and every cell of row
`i` of `cur` is still present (same column, same value) in row `i` of
`mid`. -/
def RowsExtend (cur mid : DF Value) : Prop :=
  mid.rows.length = cur.rows.length ∧
  ∀ i c v, (cur.rows.get? i).bind (fun r => rowGet r c) = some v →
    (mid.rows.get? i).bind (fun r => rowGet r c) = some v

/-- The skip condition of the directive loop: the primary relation key is
falsy, absent from the relation map, or maps to a frame with zero rows. -/
def skipCond (dfs : RelMap) (cfg : MergeConfig) : Prop :=
  match cfg.primary_df_key with
  | none => True
  | some pk =>
    match lookupRel dfs pk with
    | none => True
    | some prim => prim.rows = []

instance (dfs : RelMap) (cfg : MergeConfig) : Decidable (skipCond dfs cfg) := by
  unfold skipCond
  cases cfg.primary_df_key with
  | none => dsimp only; exact inferInstance
  | some pk =>
    dsimp only
    cases lookupRel dfs pk with
    | none => dsimp only; exact inferInstance
    | some prim => dsimp only; exact inferInstance

/-- Sufficient conditions for one directive of the loop to execute
without raising when it is not skipped: its primary relation is loaded
and well formed, the configured group/aggregation/record columns exist
where the strategy reads them, the group key is a subject column, and
(for a dictionary merge with a present dimension relation) the
foreign-key join is well formed and collision-free.  For the specialty
directive the Specialty dimension is absent, in which case the code
returns the subject table unchanged. -/
def RunnableEmpty (dfs : RelMap) (physCols : List String)
    (cfg : MergeConfig) : Prop :=
  ∃ pk prim, cfg.primary_df_key = some pk ∧ lookupRel dfs pk = some prim ∧
    WF prim ∧
    ((cfg.mtype = "group_and_list" ∧ ∃ gb agg,
        cfg.group_by = some gb ∧ cfg.agg_col = some agg ∧
        gb ∈ prim.cols ∧ agg ∈ prim.cols ∧ agg ≠ gb ∧ gb ∈ physCols) ∨
     (cfg.mtype = "group_and_dict" ∧ ∃ gb rn,
        cfg.group_by = some gb ∧ cfg.rename_to = some rn ∧
        gb ∈ physCols ∧ gb ∈ prim.cols ∧
        ((cfg.secondary_df_key.bind (fun s => lookupRel dfs s) = none ∧
          ∃ dc, cfg.dict_cols = some dc ∧ ∀ c ∈ dc, c ∈ prim.cols) ∨
         (∃ s sec lo ro, cfg.secondary_df_key = some s ∧
           lookupRel dfs s = some sec ∧ WF sec ∧
           cfg.left_on = some lo ∧ cfg.right_on = some ro ∧
           lo ∈ prim.cols ∧ lo ∈ (renameCols [(ro, lo)] sec).cols ∧
           noColOverlap prim (renameCols [(ro, lo)] sec) lo))) ∨
     (cfg.mtype = "special_specialty_merge" ∧
        (∃ ps, lookupRel dfs "PhysicianSpecialty" = some ps) ∧
        lookupRel dfs "Specialty" = none))

/-- A two-row subject relation. -/
def physW : DF Prim :=
  ⟨["PhysicianId", "FirstName"],
   [[("PhysicianId", Prim.int 1), ("FirstName", Prim.str "A")],
    [("PhysicianId", Prim.int 2), ("FirstName", Prim.str "B")]]⟩

/-- A language child relation with rows only for subject 1. -/
def langW : DF Prim :=
  ⟨["PhysicianId", "Language"],
   [[("PhysicianId", Prim.int 1), ("Language", Prim.str "en")],
    [("PhysicianId", Prim.int 1), ("Language", Prim.str "es")]]⟩

/-- The relation map of the main worked example: a subject relation and a
language relation that matches only the first subject row. -/
def dfsW : RelMap := [("Physician", physW), ("PhysicianLanguage", langW)]

/-- A non-empty PhysicianLocation relation for the C9 witness. -/
def locW : DF Prim :=
  ⟨["PhysicianId", "LocationId"],
   [[("PhysicianId", Prim.int 1), ("LocationId", Prim.int 3)]]⟩

/-- The full output frame of the worked example. -/
def outW0 : DF Value :=
  ⟨["PhysicianId", "FirstName", "languages"],
   [[("PhysicianId", Value.pv (PV.p (Prim.int 1))),
     ("FirstName", Value.pv (PV.p (Prim.str "A"))),
     ("languages", Value.pv (PV.plist [Prim.str "en", Prim.str "es"]))],
    [("PhysicianId", Value.pv (PV.p (Prim.int 2))),
     ("FirstName", Value.pv (PV.p (Prim.str "B"))),
     ("languages", Value.pv (PV.p Prim.null))]]⟩

/-- The primary and secondary relations of the C6 witness (the Insurance
directive with its dimension, and the Education directive without
one). -/
def physInsW : DF Prim :=
  ⟨["PhysicianId", "InsuranceId"],
   [[("PhysicianId", Prim.int 1), ("InsuranceId", Prim.int 7)]]⟩

def insW : DF Prim :=
  ⟨["Id", "Name"], [[("Id", Prim.int 7), ("Name", Prim.str "Acme")]]⟩

def eduW : DF Prim :=
  ⟨["PhysicianId", "School", "SchoolType", "Degree", "AreaOfStudy"],
   [[("PhysicianId", Prim.int 1), ("School", Prim.str "Yale"),
     ("SchoolType", Prim.str "U"), ("Degree", Prim.str "MD"),
     ("AreaOfStudy", Prim.str "Medicine")]]⟩

/-- An empty subject relation that still carries its schema columns
(what an empty extract with a header row loads as). -/
def physEmptyW : DF Prim := ⟨["PhysicianId", "FirstName"], []⟩

/-- Empty-subject worked example: zero subject rows but populated child
relations for one group-and-list directive (Languages), one
group-and-dict directive without a dimension (Education) and one with
its dimension loaded (Insurance). -/
def dfsEmptyW : RelMap :=
  [("Physician", physEmptyW), ("PhysicianLanguage", langW),
   ("PhysicianEducation", eduW), ("PhysicianInsurance", physInsW),
   ("Insurance", insW)]

/-- A schema-less empty subject relation (what `pd.read_json("[]")`
produces: no rows and no columns) next to a populated child relation. -/
def dfsNoSchemaW : RelMap :=
  [("Physician", (⟨[], []⟩ : DF Prim)), ("PhysicianLanguage", langW)]

/-- A non-empty PhysicianAreaOfExpertise relation for the C9 witness. -/
def aoeRelW : DF Prim :=
  ⟨["PhysicianId", "AreaOfExpertiseId"],
   [[("PhysicianId", Prim.int 1), ("AreaOfExpertiseId", Prim.int 3)]]⟩

/-- A flat already-joined insurance frame for the C7 record-order
witness. -/
def insFlatW : DF Prim :=
  ⟨["PhysicianId", "InsuranceId", "Name"],
   [[("PhysicianId", Prim.int 1), ("InsuranceId", Prim.int 7),
     ("Name", Prim.str "Aetna")],
    [("PhysicianId", Prim.int 1), ("InsuranceId", Prim.int 8),
     ("Name", Prim.str "Cigna")]]⟩

/-- Scenario C rollup relation: a root specialty and one child. -/
def rollupC : DF Prim :=
  ⟨["Id", "Specialty", "ParentSpecialty", "SpecialtyId"],
   [[("Id", Prim.int 10), ("Specialty", Prim.str "Cardiology"),
     ("ParentSpecialty", Prim.null), ("SpecialtyId", Prim.int 100)],
    [("Id", Prim.int 11),
     ("Specialty", Prim.str "Interventional Cardiology"),
     ("ParentSpecialty", Prim.int 10), ("SpecialtyId", Prim.int 101)]]⟩

/-- Scenario C specialty dimension relation. -/
def specC : DF Prim :=
  ⟨["Id", "Name"],
   [[("Id", Prim.int 100), ("Name", Prim.str "Cardiology")],
    [("Id", Prim.int 101),
     ("Name", Prim.str "Interventional Cardiology")]]⟩

/-- Scenario C symptom relation. -/
def sympC : DF Prim :=
  ⟨["SpecialtyId", "SymptomText"],
   [[("SpecialtyId", Prim.int 100),
     ("SymptomText", Prim.str "chest pain")]]⟩

/-- Scenario C synonym relation (empty). -/
def synC : DF Prim := ⟨["SpecialtyId", "SynonymText"], []⟩

/-- The frame the rollup pipeline produces on the Scenario C input. -/
def outC : DF PV :=
  ⟨["Id", "Specialty", "ParentSpecialty", "SpecialtyId",
    "CanonicalSpecialtyName", "ParentSpecialtyName", "SymptomText",
    "SynonymText"],
   [[("Id", PV.p (Prim.int 10)),
     ("Specialty", PV.p (Prim.str "Cardiology")),
     ("ParentSpecialty", PV.p Prim.null),
     ("SpecialtyId", PV.p (Prim.int 100)),
     ("CanonicalSpecialtyName", PV.p (Prim.str "Cardiology")),
     ("ParentSpecialtyName", PV.p (Prim.str "")),
     ("SymptomText", PV.plist [Prim.str "chest pain"]),
     ("SynonymText", PV.plist [])],
    [("Id", PV.p (Prim.int 11)),
     ("Specialty", PV.p (Prim.str "Interventional Cardiology")),
     ("ParentSpecialty", PV.p (Prim.int 10)),
     ("SpecialtyId", PV.p (Prim.int 101)),
     ("CanonicalSpecialtyName",
      PV.p (Prim.str "Interventional Cardiology")),
     ("ParentSpecialtyName", PV.p (Prim.str "Cardiology")),
     ("SymptomText", PV.plist []),
     ("SynonymText", PV.plist [])]]⟩

theorem rowGet_append {α : Type} (a b : DRow α) (c : String) :
    rowGet (a ++ b) c =
      match rowGet a c with
      | some v => some v
      | none => rowGet b c := by
  induction a with
  | nil => simp [rowGet]
  | cons hd t ih =>
    by_cases h : hd.1 = c
    · simp [rowGet, h]
    · simpa [rowGet, h] using ih

theorem rowGet_append_left {α : Type} {a : DRow α} {c : String} {v : α}
    (b : DRow α) (h : rowGet a c = some v) :
    rowGet (a ++ b) c = some v := by
  rw [rowGet_append, h]

theorem rowGet_eq_none_of_not_mem {α : Type} {r : DRow α} {c : String}
    (h : c ∉ r.map Prod.fst) : rowGet r c = none := by
  induction r with
  | nil => rfl
  | cons hd t ih =>
    simp only [List.map_cons, List.mem_cons] at h
    push_neg at h
    have h1 : hd.1 ≠ c := fun he => h.1 he.symm
    simp [rowGet, h1, ih h.2]

theorem mem_of_rowGet_some {α : Type} {r : DRow α} {c : String} {v : α}
    (h : rowGet r c = some v) : c ∈ r.map Prod.fst := by
  induction r with
  | nil => simp [rowGet] at h
  | cons hd t ih =>
    by_cases hc : hd.1 = c
    · simp [hc]
    · simp only [rowGet, hc, if_false] at h
      simp [ih h]

theorem rowGet_append_none {α : Type} {a b : DRow α} {c : String}
    (ha : rowGet a c = none) (hb : rowGet b c = none) :
    rowGet (a ++ b) c = none := by
  rw [rowGet_append, ha, hb]

theorem rowGet_map_snd {α β : Type} (f : α → β) (r : DRow α) (c : String) :
    rowGet (r.map (fun cv => (cv.1, f cv.2))) c = (rowGet r c).map f := by
  induction r with
  | nil => rfl
  | cons hd t ih =>
    by_cases h : hd.1 = c
    · simp [rowGet, h]
    · simpa [rowGet, h] using ih

theorem rowGet_dropKey {α : Type} {key c : String} (r : DRow α)
    (h : c ≠ key) : rowGet (dropKey key r) c = rowGet r c := by
  induction r with
  | nil => rfl
  | cons hd t ih =>
    simp only [dropKey, ne_eq, decide_not] at ih ⊢
    rw [List.filter_cons]
    by_cases hk : hd.1 = key
    · have hkc : key ≠ c := fun he => h he.symm
      simp [hk, rowGet, hkc, ih]
    · by_cases hc : hd.1 = c
      · simp [hk, rowGet, hc, h]
      · simp [hk, rowGet, hc, ih]

theorem rowGet_constRow {α : Type} (cs : List String) (v : α) (c : String) :
    rowGet (cs.map (fun d => (d, v))) c =
      if c ∈ cs then some v else none := by
  induction cs with
  | nil => simp [rowGet]
  | cons hd t ih =>
    by_cases h : hd = c
    · simp [rowGet, h]
    · have h2 : c ≠ hd := fun he => h he.symm
      simp [rowGet, h, h2, ih]

/-! ## Lemmas about the stable sort used for group keys -/

theorem insertLe_perm {α : Type} (le : α → α → Bool) (x : α) (l : List α) :
    (insertLe le x l).Perm (x :: l) := by
  induction l with
  | nil => simp [insertLe]
  | cons y ys ih =>
    by_cases h : le x y
    · simp [insertLe, h]
    · simp only [insertLe, h, Bool.false_eq_true, if_false]
      exact (ih.cons y).trans (List.Perm.swap x y ys)

theorem sortLe_perm {α : Type} (le : α → α → Bool) (l : List α) :
    (sortLe le l).Perm l := by
  induction l with
  | nil => simp [sortLe]
  | cons y ys ih =>
    simpa [sortLe] using (insertLe_perm le y (sortLe le ys)).trans (ih.cons y)

theorem mem_sortLe {α : Type} (le : α → α → Bool) (l : List α) (a : α) :
    a ∈ sortLe le l ↔ a ∈ l :=
  (sortLe_perm le l).mem_iff

/-! ## Lemmas about grouping -/

theorem alookup_insertGrouped {α : Type} [DecidableEq α]
    (k k0 : α) (r : DRow α) (acc : List (α × List (DRow α))) :
    alookup k (insertGrouped k0 r acc) =
      if k0 = k then some ((alookup k acc).getD [] ++ [r])
      else alookup k acc := by
  induction acc with
  | nil =>
    by_cases h : k0 = k <;> simp [insertGrouped, alookup, h]
  | cons hd t ih =>
    obtain ⟨k1, rs⟩ := hd
    by_cases h1 : k0 = k1
    · subst h1
      by_cases h2 : k0 = k <;> simp [insertGrouped, alookup, h2]
    · by_cases h2 : k1 = k
      · subst h2
        have h0 : ¬ k0 = k1 := h1
        simp [insertGrouped, h0, alookup]
      · simp only [insertGrouped, h1, if_neg, alookup, h2, if_false]
        split
        · next h3 => simp [alookup, h2, h3] at ih ⊢; exact ih
        · next h3 => simp [alookup, h2, h3] at ih ⊢; exact ih

theorem combineG_single {α : Type} (o : Option (List (DRow α)))
    (r : DRow α) : combineG o [r] = some (o.getD [] ++ [r]) := by
  cases o <;> simp [combineG]

theorem combineG_snoc {α : Type} (o : Option (List (DRow α)))
    (r : DRow α) (ms : List (DRow α)) :
    combineG (combineG o [r]) ms = combineG o (r :: ms) := by
  cases o <;> cases ms <;> simp [combineG]

theorem groupRows_alookup_aux {α : Type} [DecidableEq α] [NullVal α]
    (key : String) (rows : List (DRow α)) :
    ∀ (acc : List (α × List (DRow α))) (k : α), k ≠ NullVal.nullv →
      alookup k (rows.foldl (fun acc r =>
        match rowGet r key with
        | none => acc
        | some kk => if kk = NullVal.nullv then acc
          else insertGrouped kk r acc) acc) =
      combineG (alookup k acc) (matchRows rows key k) := by
  induction rows with
  | nil =>
    intro acc k _
    simp only [List.foldl_nil, matchRows, List.filter_nil]
    cases alookup k acc <;> simp [combineG]
  | cons r t ih =>
    intro acc k hk
    simp only [List.foldl_cons]
    cases hget : rowGet r key with
    | none =>
      have hm : matchRows (r :: t) key k = matchRows t key k := by
        simp [matchRows, List.filter_cons, hget]
      rw [hm]
      exact ih acc k hk
    | some kk =>
      dsimp only
      by_cases hnull : kk = NullVal.nullv
      · have hkkk : kk ≠ k := by
          rw [hnull]; exact fun he => hk he.symm
        have hm : matchRows (r :: t) key k = matchRows t key k := by
          simp [matchRows, List.filter_cons, hget, hkkk]
        rw [hm, if_pos hnull]
        exact ih acc k hk
      · rw [if_neg hnull]
        by_cases hkk : kk = k
        · subst hkk
          have hm : matchRows (r :: t) key kk = r :: matchRows t key kk := by
            simp [matchRows, List.filter_cons, hget]
          rw [hm, ih (insertGrouped kk r acc) kk hk,
            alookup_insertGrouped, if_pos rfl, ← combineG_single,
            combineG_snoc]
        · have hm : matchRows (r :: t) key k = matchRows t key k := by
            simp [matchRows, List.filter_cons, hget, hkk]
          rw [hm, ih (insertGrouped kk r acc) k hk,
            alookup_insertGrouped, if_neg hkk]

theorem groupRows_alookup {α : Type} [DecidableEq α] [NullVal α]
    (rows : List (DRow α)) (key : String) (k : α) (hk : k ≠ NullVal.nullv) :
    alookup k (groupRows rows key) = combineG none (matchRows rows key k) := by
  unfold groupRows
  exact groupRows_alookup_aux key rows [] k hk

theorem insertGrouped_keys {α : Type} [DecidableEq α] (k : α) (r : DRow α)
    (acc : List (α × List (DRow α))) :
    (insertGrouped k r acc).map Prod.fst =
      if k ∈ acc.map Prod.fst then acc.map Prod.fst
      else acc.map Prod.fst ++ [k] := by
  induction acc with
  | nil => simp [insertGrouped]
  | cons hd t ih =>
    obtain ⟨k1, rs⟩ := hd
    by_cases h : k = k1
    · subst h
      simp [insertGrouped]
    · have h2 : k1 ≠ k := fun he => h he.symm
      simp only [insertGrouped, h, if_false, List.map_cons, List.mem_cons, ih]
      by_cases hm : k ∈ t.map Prod.fst
      · simp [hm, h2]
      · simp [hm, h2, h]

theorem insertGrouped_keys_nodup {α : Type} [DecidableEq α] (k : α)
    (r : DRow α) (acc : List (α × List (DRow α)))
    (h : (acc.map Prod.fst).Nodup) :
    ((insertGrouped k r acc).map Prod.fst).Nodup := by
  rw [insertGrouped_keys]
  by_cases hm : k ∈ acc.map Prod.fst
  · simpa [hm] using h
  · simp [hm, List.nodup_append, h]

theorem groupRows_keys_nodup_aux {α : Type} [DecidableEq α] [NullVal α]
    (key : String) (rows : List (DRow α)) :
    ∀ (acc : List (α × List (DRow α))), (acc.map Prod.fst).Nodup →
      ((rows.foldl (fun acc r =>
        match rowGet r key with
        | none => acc
        | some kk => if kk = NullVal.nullv then acc
          else insertGrouped kk r acc) acc).map Prod.fst).Nodup := by
  induction rows with
  | nil => intro acc h; simpa using h
  | cons r t ih =>
    intro acc h
    simp only [List.foldl_cons]
    cases hget : rowGet r key with
    | none => exact ih acc h
    | some kk =>
      dsimp only
      by_cases hnull : kk = NullVal.nullv
      · rw [if_pos hnull]; exact ih acc h
      · rw [if_neg hnull]
        exact ih (insertGrouped kk r acc) (insertGrouped_keys_nodup kk r acc h)

theorem groupRows_keys_nodup {α : Type} [DecidableEq α] [NullVal α]
    (rows : List (DRow α)) (key : String) :
    ((groupRows rows key).map Prod.fst).Nodup := by
  unfold groupRows
  exact groupRows_keys_nodup_aux key rows [] (by simp)

theorem groupRows_key_ne_null_aux {α : Type} [DecidableEq α] [NullVal α]
    (key : String) (rows : List (DRow α)) :
    ∀ (acc : List (α × List (DRow α))),
      (∀ p ∈ acc, p.1 ≠ NullVal.nullv) →
      ∀ p ∈ rows.foldl (fun acc r =>
        match rowGet r key with
        | none => acc
        | some kk => if kk = NullVal.nullv then acc
          else insertGrouped kk r acc) acc, p.1 ≠ NullVal.nullv := by
  induction rows with
  | nil => intro acc h; simpa using h
  | cons r t ih =>
    intro acc h
    simp only [List.foldl_cons]
    cases hget : rowGet r key with
    | none => exact ih acc h
    | some kk =>
      dsimp only
      by_cases hnull : kk = NullVal.nullv
      · rw [if_pos hnull]; exact ih acc h
      · rw [if_neg hnull]
        refine ih (insertGrouped kk r acc) ?_
        intro p hp
        have : p ∈ acc ∨ p.1 = kk := by
          clear h ih
          induction acc with
          | nil =>
            simp only [insertGrouped, List.mem_singleton] at hp
            right; rw [hp]
          | cons hd tl ihacc =>
            by_cases he : kk = hd.1
            · rw [show hd = (hd.1, hd.2) from rfl] at hp
              simp only [insertGrouped, if_pos he, List.mem_cons] at hp
              rcases hp with hp | hp
              · right; rw [hp]; exact he.symm
              · left; exact List.mem_cons_of_mem _ hp
            · rw [show hd = (hd.1, hd.2) from rfl] at hp
              simp only [insertGrouped, if_neg he, List.mem_cons] at hp
              rcases hp with hp | hp
              · left; rw [hp]; exact List.mem_cons_self _ _
              · rcases ihacc hp with h1 | h1
                · left; exact List.mem_cons_of_mem _ h1
                · right; exact h1
        rcases this with h1 | h1
        · exact h p h1
        · rw [h1]; exact hnull

theorem alookup_mem {α β : Type} [DecidableEq α] {k : α} {v : β}
    {l : List (α × β)} (h : alookup k l = some v) : (k, v) ∈ l := by
  induction l with
  | nil => simp [alookup] at h
  | cons hd t ih =>
    obtain ⟨k0, v0⟩ := hd
    by_cases he : k0 = k
    · subst he
      have h' : v0 = v := by simpa [alookup] using h
      subst h'
      exact List.mem_cons_self _ _
    · simp only [alookup, if_neg he] at h
      exact List.mem_cons_of_mem _ (ih h)

theorem mem_alookup {α β : Type} [DecidableEq α] {k : α} {v : β}
    {l : List (α × β)} (hnd : (l.map Prod.fst).Nodup)
    (h : (k, v) ∈ l) : alookup k l = some v := by
  induction l with
  | nil => simp at h
  | cons hd t ih =>
    obtain ⟨k0, v0⟩ := hd
    simp only [List.map_cons, List.nodup_cons] at hnd
    rcases List.mem_cons.mp h with h1 | h1
    · rw [Prod.mk.injEq] at h1
      simp [alookup, h1.1, h1.2]
    · by_cases he : k0 = k
      · subst he
        exfalso
        exact hnd.1 (by simpa using List.mem_map_of_mem Prod.fst h1)
      · simp only [alookup, if_neg he]
        exact ih hnd.2 h1

theorem mem_groupRows {α : Type} [DecidableEq α] [NullVal α]
    {rows : List (DRow α)} {key : String} {k : α} {rs : List (DRow α)}
    (h : (k, rs) ∈ groupRows rows key) :
    k ≠ NullVal.nullv ∧ rs = matchRows rows key k ∧ rs ≠ [] := by
  have hk : k ≠ NullVal.nullv := by
    have := groupRows_key_ne_null_aux key rows []
      (by intro p hp; simp at hp) (k, rs) (by exact h)
    simpa using this
  have halk : alookup k (groupRows rows key) = some rs :=
    mem_alookup (groupRows_keys_nodup rows key) h
  rw [groupRows_alookup rows key k hk] at halk
  refine ⟨hk, ?_, ?_⟩
  · cases hm : matchRows rows key k with
    | nil => rw [hm] at halk; simp [combineG] at halk
    | cons m t =>
      rw [hm] at halk
      simp only [combineG, Option.some.injEq] at halk
      rw [← halk]
  · intro hrs
    subst hrs
    cases hm : matchRows rows key k with
    | nil => rw [hm] at halk; simp [combineG] at halk
    | cons m t => rw [hm] at halk; simp [combineG] at halk

theorem mem_sortedGroups {α : Type} [DecidableEq α] [NullVal α]
    (le : α → α → Bool) (rows : List (DRow α)) (key : String)
    (x : α × List (DRow α)) :
    x ∈ sortedGroups le rows key ↔ x ∈ groupRows rows key := by
  unfold sortedGroups
  exact (sortLe_perm _ _).mem_iff

theorem sortedGroups_perm {α : Type} [DecidableEq α] [NullVal α]
    (le : α → α → Bool) (rows : List (DRow α)) (key : String) :
    (sortedGroups le rows key).Perm (groupRows rows key) :=
  sortLe_perm _ _

theorem sortedGroups_keys_nodup {α : Type} [DecidableEq α] [NullVal α]
    (le : α → α → Bool) (rows : List (DRow α)) (key : String) :
    ((sortedGroups le rows key).map Prod.fst).Nodup :=
  (((sortedGroups_perm le rows key).map Prod.fst).nodup_iff).mpr
    (groupRows_keys_nodup rows key)

theorem mem_sortedGroups_eq {α : Type} [DecidableEq α] [NullVal α]
    {le : α → α → Bool} {rows : List (DRow α)} {key : String} {k : α}
    {rs : List (DRow α)} (h : (k, rs) ∈ sortedGroups le rows key) :
    k ≠ NullVal.nullv ∧ rs = matchRows rows key k ∧ rs ≠ [] :=
  mem_groupRows ((mem_sortedGroups le rows key _).mp h)

/-! ## Lemmas about the left merge -/

/-- At most one row matches a key value when the key column has pairwise
distinct values. -/
theorem filter_length_le_one {α β : Type} [DecidableEq β] (f : α → β)
    (l : List α) (hnd : (l.map f).Nodup) (v : β) :
    (l.filter (fun x => f x = v)).length ≤ 1 := by
  induction l with
  | nil => simp
  | cons x t ih =>
    simp only [List.map_cons, List.nodup_cons] at hnd
    rw [List.filter_cons]
    by_cases hx : f x = v
    · have ht : t.filter (fun y => f y = v) = [] := by
        rw [List.filter_eq_nil_iff]
        intro y hy
        simp only [decide_eq_true_eq]
        intro hyv
        exact hnd.1 (by
          rw [show f x = f y from hx.trans hyv.symm]
          exact List.mem_map_of_mem f hy)
      simp [hx, ht]
    · simpa [hx] using ih hnd.2

theorem flatMap_eq_map {α β : Type} (f : α → List β) (g : α → β)
    (l : List α) (h : ∀ x ∈ l, f x = [g x]) : l.flatMap f = l.map g := by
  induction l with
  | nil => rfl
  | cons x t ih =>
    simp only [List.flatMap_cons, List.map_cons,
      h x (List.mem_cons_self _ _)]
    rw [ih (fun y hy => h y (List.mem_cons_of_mem _ hy))]
    rfl

theorem suffixRow_nil {α : Type} (sfx : String) (r : DRow α) :
    suffixRow [] sfx r = r := by
  unfold suffixRow
  simp

theorem mergeLeft_eq_of_noOverlap {α : Type} [DecidableEq α] [NullVal α]
    (l r : DF α) (key : String) (h1 : key ∈ l.cols) (h2 : key ∈ r.cols)
    (hov : noColOverlap l r key) (hnd : (rKeys r key).Nodup) :
    mergeLeft l r key = Except.ok
      ⟨l.cols ++ r.cols.filter (fun c => c ≠ key),
       l.rows.map (mergeRowNoOv r key)⟩ := by
  unfold mergeLeft
  rw [if_pos ⟨h1, h2⟩]
  have hovnil : l.cols.filter (fun c => c ≠ key ∧ c ∈ r.cols) = [] := by
    rw [List.filter_eq_nil_iff]
    intro c hc
    simp only [decide_eq_true_eq, not_and]
    intro hck
    rcases hov c hc with h | h
    · exact absurd h hck
    · exact h
  rw [hovnil]
  refine congrArg Except.ok ?_
  dsimp only
  rw [DF.mk.injEq]
  refine ⟨by simp, ?_⟩
  refine flatMap_eq_map _ _ _ ?_
  intro lrow _
  rw [suffixRow_nil]
  have hle : (r.rows.filter
      (fun rr => rowGet rr key = rowGet lrow key)).length ≤ 1 :=
    filter_length_le_one (fun rr => rowGet rr key) r.rows hnd
      (rowGet lrow key)
  cases hms : r.rows.filter
      (fun rr => rowGet rr key = rowGet lrow key) with
  | nil =>
    unfold mergeRowNoOv
    rw [hms]
    simp [suffixRow_nil]
  | cons m t =>
    rw [hms] at hle
    have ht : t = [] := by
      cases t with
      | nil => rfl
      | cons a b => simp at hle
    subst ht
    unfold mergeRowNoOv
    rw [hms]
    simp [suffixRow_nil]

theorem mergeRowNoOv_preserves {α : Type} [DecidableEq α] [NullVal α]
    (r : DF α) (key : String) {lrow : DRow α} {c : String} {v : α}
    (h : rowGet lrow c = some v) :
    rowGet (mergeRowNoOv r key lrow) c = some v := by
  unfold mergeRowNoOv
  cases r.rows.filter (fun rr => rowGet rr key = rowGet lrow key) with
  | nil => exact rowGet_append_left _ h
  | cons m t => exact rowGet_append_left _ h

theorem mergeRowNoOv_none {α : Type} [DecidableEq α] [NullVal α]
    (r : DF α) (key : String) {lrow : DRow α} {c : String}
    (h : rowGet lrow c = none) (hc : c ∉ r.cols) (hk : c ≠ key)
    (hrows : ∀ m ∈ r.rows, rowGet m c = none) :
    rowGet (mergeRowNoOv r key lrow) c = none := by
  unfold mergeRowNoOv
  cases hms : r.rows.filter (fun rr => rowGet rr key = rowGet lrow key) with
  | nil =>
    refine rowGet_append_none h ?_
    rw [rowGet_constRow]
    have : c ∉ r.cols.filter (fun d => d ≠ key) :=
      fun hmem => hc (List.mem_of_mem_filter hmem)
    simp only [this, if_false]
  | cons m t =>
    refine rowGet_append_none h ?_
    rw [rowGet_dropKey _ hk]
    refine hrows m ?_
    have : m ∈ r.rows.filter
        (fun rr => rowGet rr key = rowGet lrow key) := by
      rw [hms]; exact List.mem_cons_self _ _
    exact List.mem_of_mem_filter this

theorem mergeRowNoOv_match {α : Type} [DecidableEq α] [NullVal α]
    (r : DF α) (key : String) {lrow m : DRow α} {t : List (DRow α)}
    {c : String}
    (hms : r.rows.filter (fun rr => rowGet rr key = rowGet lrow key)
      = m :: t)
    (h : rowGet lrow c = none) (hk : c ≠ key) :
    rowGet (mergeRowNoOv r key lrow) c = rowGet m c := by
  unfold mergeRowNoOv
  rw [hms, rowGet_append, h, rowGet_dropKey _ hk]

theorem mergeRowNoOv_nomatch {α : Type} [DecidableEq α] [NullVal α]
    (r : DF α) (key : String) {lrow : DRow α} {c : String}
    (hms : r.rows.filter (fun rr => rowGet rr key = rowGet lrow key) = [])
    (h : rowGet lrow c = none) (hc : c ∈ r.cols) (hk : c ≠ key) :
    rowGet (mergeRowNoOv r key lrow) c = some NullVal.nullv := by
  unfold mergeRowNoOv
  rw [hms, rowGet_append, h, rowGet_constRow]
  have : c ∈ r.cols.filter (fun d => d ≠ key) := by
    rw [List.mem_filter]
    refine ⟨hc, ?_⟩
    simpa using hk
  rw [if_pos this]

/-! ## Lemmas about the effectful map and the grouped-frame builders -/

theorem mapE_ok_forall₂ {α β : Type} {f : α → Except PyError β}
    {l : List α} {out : List β} (h : mapE f l = Except.ok out) :
    List.Forall₂ (fun a b => f a = Except.ok b) l out := by
  induction l generalizing out with
  | nil =>
    simp only [mapE] at h
    cases h
    exact List.Forall₂.nil
  | cons a t ih =>
    simp only [mapE] at h
    cases hfa : f a with
    | error e => rw [hfa] at h; cases h
    | ok b =>
      rw [hfa] at h
      cases hmt : mapE f t with
      | error e => rw [hmt] at h; cases h
      | ok bs =>
        rw [hmt] at h
        cases h
        exact List.Forall₂.cons hfa (ih hmt)

theorem forall₂_mem_right {α β : Type} {R : α → β → Prop} {l : List α}
    {out : List β} (h : List.Forall₂ R l out) {b : β} (hb : b ∈ out) :
    ∃ a ∈ l, R a b := by
  induction h with
  | nil => simp at hb
  | cons hr _ ih =>
    rcases List.mem_cons.mp hb with h1 | h1
    · subst h1
      exact ⟨_, List.mem_cons_self _ _, hr⟩
    · obtain ⟨a, ha, har⟩ := ih h1
      exact ⟨a, List.mem_cons_of_mem _ ha, har⟩

theorem forall₂_map_eq {α β γ : Type} {R : α → β → Prop} {l : List α}
    {out : List β} (h : List.Forall₂ R l out) (f : α → γ) (g : β → γ)
    (hfg : ∀ a b, R a b → f a = g b) : l.map f = out.map g := by
  induction h with
  | nil => rfl
  | cons hr _ ih =>
    simp only [List.map_cons, ih]
    rw [hfg _ _ hr]

theorem forall₂_length {α β : Type} {R : α → β → Prop} {l : List α}
    {out : List β} (h : List.Forall₂ R l out) : l.length = out.length := by
  induction h with
  | nil => rfl
  | cons _ _ ih => simpa using ih

theorem projectRow_keys {α : Type} {cs : List String} {r : DRow α}
    {rec : DRow α} (h : projectRow cs r = Except.ok rec) :
    rec.map Prod.fst = cs := by
  unfold projectRow at h
  have h2 := mapE_ok_forall₂ h
  have := forall₂_map_eq h2 id Prod.fst (fun c b hb => by
    cases hv : rowGet r c with
    | none => rw [hv] at hb; cases hb
    | some v => rw [hv] at hb; cases hb; rfl)
  simpa using this.symm

theorem rKeys_dfPVToValue (g : DF PV) (key : String) :
    rKeys (dfPVToValue g) key = (rKeys g key).map (Option.map Value.pv) := by
  unfold rKeys dfPVToValue
  simp only [List.map_map]
  refine List.map_congr_left ?_
  intro r _
  exact rowGet_map_snd Value.pv r key

theorem groupListPrim_ok_parts {df : DF Prim} {key agg out : String}
    {g : DF PV} (h : groupListPrim df key agg out = Except.ok g) :
    g.cols = [key, out] ∧
      g.rows = (sortedGroups Prim.leB df.rows key).map (fun gg =>
        [(key, PV.p gg.1), (out, PV.plist (colVals agg gg.2))]) := by
  unfold groupListPrim at h
  by_cases h1 : key ∈ df.cols
  · rw [if_pos h1] at h
    by_cases h2 : agg ∈ df.cols
    · rw [if_pos h2] at h
      cases h
      exact ⟨rfl, rfl⟩
    · rw [if_neg h2] at h; cases h
  · rw [if_neg h1] at h; cases h

theorem groupListPrim_rKeys {df : DF Prim} {key agg out : String}
    {g : DF PV} (h : groupListPrim df key agg out = Except.ok g) :
    rKeys g key = (sortedGroups Prim.leB df.rows key).map
      (fun gg => some (PV.p gg.1)) := by
  obtain ⟨-, hrows⟩ := groupListPrim_ok_parts h
  unfold rKeys
  rw [hrows, List.map_map]
  refine List.map_congr_left ?_
  intro gg _
  simp [rowGet]

theorem groupListPrim_rKeys_nodup {df : DF Prim} {key agg out : String}
    {g : DF PV} (h : groupListPrim df key agg out = Except.ok g) :
    (rKeys g key).Nodup := by
  rw [groupListPrim_rKeys h]
  have : (sortedGroups Prim.leB df.rows key).map
      (fun gg => some (PV.p gg.1)) =
      ((sortedGroups Prim.leB df.rows key).map Prod.fst).map
        (fun k => some (PV.p k)) := by
    rw [List.map_map]
    rfl
  rw [this]
  refine List.Nodup.map ?_ (sortedGroups_keys_nodup _ _ _)
  intro a b hab
  simpa using hab

theorem groupRecsPV_ok_parts {df : DF PV} {key : String} {cs : List String}
    {out : String} {g : DF Value}
    (h : groupRecsPV df key cs out = Except.ok g) :
    g.cols = [key, out] ∧
      List.Forall₂ (fun gg row => ∃ recs,
        mapE (projectRow cs) gg.2 = Except.ok recs ∧
        row = [(key, Value.pv gg.1), (out, Value.recs recs)])
        (sortedGroups PV.leB df.rows key) g.rows := by
  unfold groupRecsPV at h
  by_cases h1 : key ∈ df.cols
  · rw [if_pos h1] at h
    cases hm : mapE (fun g =>
        (mapE (projectRow cs) g.2).map (fun recs =>
          [(key, Value.pv g.1), (out, Value.recs recs)]))
        (sortedGroups PV.leB df.rows key) with
    | error e => rw [hm] at h; cases h
    | ok rows =>
      rw [hm] at h
      cases h
      refine ⟨rfl, ?_⟩
      have h2 := mapE_ok_forall₂ hm
      refine h2.imp ?_
      intro gg row hr
      cases hinner : mapE (projectRow cs) gg.2 with
      | error e => rw [hinner] at hr; cases hr
      | ok recs =>
        rw [hinner] at hr
        cases hr
        exact ⟨recs, rfl, rfl⟩
  · rw [if_neg h1] at h; cases h

theorem groupRecsPV_rKeys {df : DF PV} {key : String} {cs : List String}
    {out : String} {g : DF Value}
    (h : groupRecsPV df key cs out = Except.ok g) :
    rKeys g key = (sortedGroups PV.leB df.rows key).map
      (fun gg => some (Value.pv gg.1)) := by
  obtain ⟨-, h2⟩ := groupRecsPV_ok_parts h
  unfold rKeys
  refine (forall₂_map_eq h2 (fun gg => some (Value.pv gg.1))
    (fun rr => rowGet rr key) ?_).symm
  intro gg row hr
  obtain ⟨recs, -, hrow⟩ := hr
  rw [hrow]
  simp [rowGet]

theorem groupRecsPV_rKeys_nodup {df : DF PV} {key : String}
    {cs : List String} {out : String} {g : DF Value}
    (h : groupRecsPV df key cs out = Except.ok g) :
    (rKeys g key).Nodup := by
  rw [groupRecsPV_rKeys h]
  have : (sortedGroups PV.leB df.rows key).map
      (fun gg => some (Value.pv gg.1)) =
      ((sortedGroups PV.leB df.rows key).map Prod.fst).map
        (fun k => some (Value.pv k)) := by
    rw [List.map_map]
    rfl
  rw [this]
  refine List.Nodup.map ?_ (sortedGroups_keys_nodup _ _ _)
  intro a b hab
  simpa using hab

/-- The record keys of every group-and-dict record are exactly the
projected column list. -/
theorem groupRecsPV_rec_keys {df : DF PV} {key : String} {cs : List String}
    {out : String} {g : DF Value}
    (h : groupRecsPV df key cs out = Except.ok g) :
    ∀ row ∈ g.rows, ∀ c lrecs, rowGet row c = some (Value.recs lrecs) →
      ∀ rec ∈ lrecs, rec.map Prod.fst = cs := by
  obtain ⟨-, h2⟩ := groupRecsPV_ok_parts h
  intro row hrow c lrecs hget rec hrec
  obtain ⟨gg, -, recs, hinner, hroweq⟩ := forall₂_mem_right h2 hrow
  subst hroweq
  by_cases hkc : key = c
  · rw [show rowGet [(key, Value.pv gg.1), (out, Value.recs recs)] c
        = some (Value.pv gg.1) by simp [rowGet, hkc]] at hget
    cases hget
  · by_cases hoc : out = c
    · have : rowGet [(key, Value.pv gg.1), (out, Value.recs recs)] c
          = some (Value.recs recs) := by
        simp [rowGet, hkc, hoc]
      rw [this] at hget
      cases hget
      obtain ⟨r0, -, hpr⟩ := forall₂_mem_right (mapE_ok_forall₂ hinner) hrec
      exact projectRow_keys hpr
    · rw [show rowGet [(key, Value.pv gg.1), (out, Value.recs recs)] c
          = none by simp [rowGet, hkc, hoc]] at hget
      cases hget

/-! ## Per-directive facts used by the pipeline-level theorems -/

theorem mergeLeft_ok_inv {α : Type} [DecidableEq α] [NullVal α]
    {l r : DF α} {key : String} {out : DF α}
    (h : mergeLeft l r key = Except.ok out) :
    key ∈ l.cols ∧ key ∈ r.cols := by
  by_cases hc : key ∈ l.cols ∧ key ∈ r.cols
  · exact hc
  · unfold mergeLeft at h
    rw [if_neg hc] at h
    cases h

theorem rKeys_dfPVToValue_nodup {g : DF PV} {key : String}
    (h : (rKeys g key).Nodup) : (rKeys (dfPVToValue g) key).Nodup := by
  rw [rKeys_dfPVToValue]
  refine List.Nodup.map ?_ h
  exact Option.map_injective (fun a b hab => by cases hab; rfl)

theorem dfPVToValue_cols (g : DF PV) : (dfPVToValue g).cols = g.cols := rfl

theorem bind_ok_inv {α β : Type} {ma : Except PyError α}
    {f : α → Except PyError β} {b : β}
    (h : (ma >>= f) = Except.ok b) :
    ∃ a, ma = Except.ok a ∧ f a = Except.ok b := by
  cases ma with
  | error e => cases h
  | ok a => exact ⟨a, rfl, h⟩

theorem getKey_some_inv {β : Type} {o : Option β} {k : String} {v : β}
    (h : getKey o k = Except.ok v) : o = some v := by
  cases o with
  | none => cases h
  | some w => cases h; rfl

theorem mergeGroupAndListGrouped_facts {df : DF Prim} {cfg : MergeConfig}
    {g : DF PV} {gb : String}
    (h : mergeGroupAndListGrouped df cfg = Except.ok g)
    (hgb : cfg.group_by = some gb)
    (hlist : cfg.mtype = "group_and_list")
    (hspec : cfg.group_by ≠ cfg.agg_col) :
    g.cols = [gb, outNameOf cfg] ∧ (rKeys g gb).Nodup := by
  unfold mergeGroupAndListGrouped at h
  obtain ⟨gb0, h1, h⟩ := bind_ok_inv h
  have hgb0 : gb = gb0 := by
    have := getKey_some_inv h1
    rw [hgb] at this
    exact Option.some.inj this
  subst hgb0
  obtain ⟨agg, h2, h⟩ := bind_ok_inv h
  have hagg : cfg.agg_col = some agg := getKey_some_inv h2
  have hne : agg ≠ gb := by
    intro he
    exact hspec (by rw [hgb, hagg, he])
  obtain ⟨g0, hgl, h⟩ := bind_ok_inv h
  obtain ⟨hcols0, hrows0⟩ := groupListPrim_ok_parts hgl
  cases hrn : cfg.rename_to with
  | none =>
    rw [hrn] at h
    cases h
    refine ⟨?_, groupListPrim_rKeys_nodup hgl⟩
    rw [hcols0]
    unfold outNameOf
    rw [if_pos hlist, hrn, hagg]
    rfl
  | some rn =>
    rw [hrn] at h
    cases h
    have hbeq : (gb == agg) = false := by
      simp [hne.symm]
    have hlkgb : (List.lookup gb [(agg, rn)]).getD gb = gb := by
      simp [List.lookup, hbeq]
    have hlkagg : (List.lookup agg [(agg, rn)]).getD agg = rn := by
      simp [List.lookup]
    constructor
    · show (renameCols [(agg, rn)] g0).cols = _
      unfold renameCols
      rw [hcols0]
      unfold outNameOf
      rw [if_pos hlist, hrn]
      simp only [List.map_cons, List.map_nil, hlkgb, hlkagg]
      rfl
    · have hrk : rKeys (renameCols [(agg, rn)] g0) gb =
          (sortedGroups Prim.leB df.rows gb).map
            (fun gg => some (PV.p gg.1)) := by
        unfold rKeys renameCols
        rw [hrows0]
        simp only [List.map_map]
        refine List.map_congr_left ?_
        intro gg _
        simp only [Function.comp_apply, List.map_cons, List.map_nil]
        rw [show ((List.lookup gb [(agg, rn)]).getD gb) = gb from hlkgb]
        simp [rowGet]
      rw [hrk]
      have : (sortedGroups Prim.leB df.rows gb).map
          (fun gg => some (PV.p gg.1)) =
          ((sortedGroups Prim.leB df.rows gb).map Prod.fst).map
            (fun k => some (PV.p k)) := by
        rw [List.map_map]
        rfl
      rw [this]
      refine List.Nodup.map ?_ (sortedGroups_keys_nodup _ _ _)
      intro a b hab
      simpa using hab

theorem mergeGroupAndDictGrouped_facts {df : DF Prim} {dfs : RelMap}
    {cfg : MergeConfig} {g : DF Value} {gb rn : String}
    (h : mergeGroupAndDictGrouped df dfs cfg = Except.ok g)
    (hgb : cfg.group_by = some gb) (hrn : cfg.rename_to = some rn) :
    g.cols = [gb, rn] ∧ (rKeys g gb).Nodup := by
  unfold mergeGroupAndDictGrouped at h
  cases hsec : cfg.secondary_df_key.bind (fun s => lookupRel dfs s) with
  | some sec =>
    rw [hsec] at h
    obtain ⟨lo, h1, h⟩ := bind_ok_inv h
    obtain ⟨ro, h2, h⟩ := bind_ok_inv h
    obtain ⟨merged, hml, h⟩ := bind_ok_inv h
    obtain ⟨gb0, h3, h⟩ := bind_ok_inv h
    have hgb0 : gb = gb0 := by
      have := getKey_some_inv h3
      rw [hgb] at this
      exact Option.some.inj this
    subst hgb0
    obtain ⟨rn0, h4, h⟩ := bind_ok_inv h
    have hrn0 : rn = rn0 := by
      have := getKey_some_inv h4
      rw [hrn] at this
      exact Option.some.inj this
    subst hrn0
    obtain ⟨hc, -⟩ := groupRecsPV_ok_parts h
    exact ⟨hc, groupRecsPV_rKeys_nodup h⟩
  | none =>
    rw [hsec] at h
    obtain ⟨cs, h1, h⟩ := bind_ok_inv h
    obtain ⟨gb0, h3, h⟩ := bind_ok_inv h
    have hgb0 : gb = gb0 := by
      have := getKey_some_inv h3
      rw [hgb] at this
      exact Option.some.inj this
    subst hgb0
    obtain ⟨rn0, h4, h⟩ := bind_ok_inv h
    have hrn0 : rn = rn0 := by
      have := getKey_some_inv h4
      rw [hrn] at this
      exact Option.some.inj this
    subst hrn0
    obtain ⟨hc, -⟩ := groupRecsPV_ok_parts h
    exact ⟨hc, groupRecsPV_rKeys_nodup h⟩

theorem mergeSpecialties_result {cur : DF Value} {dfs : RelMap}
    {out : DF Value} (h : mergeSpecialties cur dfs = Except.ok out) :
    out = cur ∨ ∃ g : DF Value, g.cols = ["PhysicianId", "specialties"] ∧
      (rKeys g "PhysicianId").Nodup ∧
      mergeLeft cur g "PhysicianId" = Except.ok out := by
  unfold mergeSpecialties at h
  obtain ⟨specialtyDf, h1, h⟩ := bind_ok_inv h
  cases hsp : lookupRel dfs "Specialty" with
  | none =>
    rw [hsp] at h
    cases h
    exact Or.inl rfl
  | some spec =>
    rw [hsp] at h
    refine Or.inr ?_
    cases hd1 : lookupRel dfs "Synonym" with
    | none =>
      rw [hd1] at h
      try dsimp only at h
      obtain ⟨d1, -, h⟩ := bind_ok_inv h
      cases hd2 : lookupRel dfs "Symptom" with
      | none =>
        rw [hd2] at h
        try dsimp only at h
        obtain ⟨d2, -, h⟩ := bind_ok_inv h
        obtain ⟨merged, -, h⟩ := bind_ok_inv h
        obtain ⟨sg, hgr, h⟩ := bind_ok_inv h
        exact ⟨sg, (groupRecsPV_ok_parts hgr).1,
          groupRecsPV_rKeys_nodup hgr, h⟩
      | some sym =>
        rw [hd2] at h
        try dsimp only at h
        obtain ⟨sagg, -, h⟩ := bind_ok_inv h
        obtain ⟨d2, -, h⟩ := bind_ok_inv h
        obtain ⟨merged, -, h⟩ := bind_ok_inv h
        obtain ⟨sg, hgr, h⟩ := bind_ok_inv h
        exact ⟨sg, (groupRecsPV_ok_parts hgr).1,
          groupRecsPV_rKeys_nodup hgr, h⟩
    | some syn =>
      rw [hd1] at h
      try dsimp only at h
      obtain ⟨synagg, -, h⟩ := bind_ok_inv h
      obtain ⟨d1, -, h⟩ := bind_ok_inv h
      cases hd2 : lookupRel dfs "Symptom" with
      | none =>
        rw [hd2] at h
        try dsimp only at h
        obtain ⟨d2, -, h⟩ := bind_ok_inv h
        obtain ⟨merged, -, h⟩ := bind_ok_inv h
        obtain ⟨sg, hgr, h⟩ := bind_ok_inv h
        exact ⟨sg, (groupRecsPV_ok_parts hgr).1,
          groupRecsPV_rKeys_nodup hgr, h⟩
      | some sym =>
        rw [hd2] at h
        try dsimp only at h
        obtain ⟨sagg, -, h⟩ := bind_ok_inv h
        obtain ⟨d2, -, h⟩ := bind_ok_inv h
        obtain ⟨merged, -, h⟩ := bind_ok_inv h
        obtain ⟨sg, hgr, h⟩ := bind_ok_inv h
        exact ⟨sg, (groupRecsPV_ok_parts hgr).1,
          groupRecsPV_rKeys_nodup hgr, h⟩

/-! ## The pipeline fold preserves the subject rows -/

theorem rowsExtend_refl (cur : DF Value) : RowsExtend cur cur :=
  ⟨rfl, fun _ _ _ h => h⟩

theorem rowsExtend_trans {a b c : DF Value} (h1 : RowsExtend a b)
    (h2 : RowsExtend b c) : RowsExtend a c :=
  ⟨h2.1.trans h1.1, fun i co v h => h2.2 i co v (h1.2 i co v h)⟩

theorem pair_eq_inv {α β : Type} {a c : α} {b d : β}
    (h : (a, b) = (c, d)) : a = c ∧ b = d := by
  cases h; exact ⟨Eq.refl _, Eq.refl _⟩

theorem mergeLeft_extends {cur g mid : DF Value} {key oname : String}
    (hok : mergeLeft cur g key = Except.ok mid)
    (hcols : g.cols = [key, oname])
    (hnd : (rKeys g key).Nodup)
    (hfresh : oname ∉ cur.cols)
    (hne : oname ≠ key) :
    RowsExtend cur mid ∧ mid.cols = cur.cols ++ [oname] := by
  obtain ⟨h1, h2⟩ := mergeLeft_ok_inv hok
  have hov : noColOverlap cur g key := by
    intro c hc
    by_cases hck : c = key
    · exact Or.inl hck
    · right
      rw [hcols]
      intro hmem
      rcases List.mem_cons.mp hmem with hh | hh
      · exact hck hh
      · rw [List.mem_singleton] at hh
        rw [hh] at hc
        exact hfresh hc
  rw [mergeLeft_eq_of_noOverlap cur g key h1 h2 hov hnd] at hok
  have hmid : mid = ⟨cur.cols ++ g.cols.filter (fun c => c ≠ key),
      cur.rows.map (mergeRowNoOv g key)⟩ := by
    cases hok; rfl
  subst hmid
  refine ⟨⟨by simp, ?_⟩, ?_⟩
  · intro i c v hv
    cases hri : cur.rows.get? i with
    | none => rw [hri] at hv; cases hv
    | some r =>
      rw [hri] at hv
      simp only [Option.bind] at hv
      show (((cur.rows.map (mergeRowNoOv g key)).get? i).bind
        (fun r => rowGet r c)) = some v
      rw [List.get?_map, hri]
      simp only [Option.map, Option.bind]
      exact mergeRowNoOv_preserves g key hv
  · show cur.cols ++ g.cols.filter (fun c => c ≠ key) = cur.cols ++ [oname]
    rw [hcols]
    have : [key, oname].filter (fun c => c ≠ key) = [oname] := by
      simp [hne]
    rw [this]

theorem mergeGroupAndDictGrouped_rename_some {df : DF Prim} {dfs : RelMap}
    {cfg : MergeConfig} {g : DF Value}
    (h : mergeGroupAndDictGrouped df dfs cfg = Except.ok g) :
    ∃ rn, cfg.rename_to = some rn := by
  unfold mergeGroupAndDictGrouped at h
  cases hsec : cfg.secondary_df_key.bind (fun s => lookupRel dfs s) with
  | some sec =>
    rw [hsec] at h
    obtain ⟨lo, -, h⟩ := bind_ok_inv h
    obtain ⟨ro, -, h⟩ := bind_ok_inv h
    obtain ⟨merged, -, h⟩ := bind_ok_inv h
    obtain ⟨gb, -, h⟩ := bind_ok_inv h
    obtain ⟨rn, hrn, -⟩ := bind_ok_inv h
    exact ⟨rn, getKey_some_inv hrn⟩
  | none =>
    rw [hsec] at h
    obtain ⟨cs, -, h⟩ := bind_ok_inv h
    obtain ⟨gb, -, h⟩ := bind_ok_inv h
    obtain ⟨rn, hrn, -⟩ := bind_ok_inv h
    exact ⟨rn, getKey_some_inv hrn⟩

/-- One successful pipeline iteration either leaves the subject table
untouched (skip / unknown strategy / specialty with a missing dimension)
or adds exactly the directive output column, extending every subject row
in place. -/
theorem stepConfig_ok_extends (dfs : RelMap) (cur : DF Value)
    (ws : List String) (cfg : MergeConfig) (hspec : CfgSpec cfg)
    (hfresh : outNameOf cfg ∉ cur.cols) {mid : DF Value}
    {ws' : List String}
    (h : stepConfig dfs (Except.ok cur, ws) cfg = (Except.ok mid, ws')) :
    RowsExtend cur mid ∧
      (mid.cols = cur.cols ∨ mid.cols = cur.cols ++ [outNameOf cfg]) := by
  unfold stepConfig at h
  dsimp only at h
  cases hpk : cfg.primary_df_key with
  | none =>
    rw [hpk] at h
    obtain ⟨h1, -⟩ := pair_eq_inv h
    cases h1
    exact ⟨rowsExtend_refl cur, Or.inl rfl⟩
  | some pk =>
    rw [hpk] at h
    dsimp only at h
    cases hlk : lookupRel dfs pk with
    | none =>
      rw [hlk] at h
      obtain ⟨h1, -⟩ := pair_eq_inv h
      cases h1
      exact ⟨rowsExtend_refl cur, Or.inl rfl⟩
    | some prim =>
      rw [hlk] at h
      dsimp only at h
      by_cases hemp : prim.rows.isEmpty = true
      · rw [if_pos hemp] at h
        obtain ⟨h1, -⟩ := pair_eq_inv h
        cases h1
        exact ⟨rowsExtend_refl cur, Or.inl rfl⟩
      · rw [if_neg hemp] at h
        by_cases hml : cfg.mtype = "group_and_list"
        · rw [if_pos hml] at h
          obtain ⟨h1, -⟩ := pair_eq_inv h
          unfold mergeGroupAndList at h1
          obtain ⟨gb, hgb', h1⟩ := bind_ok_inv h1
          have hgb : cfg.group_by = some gb := getKey_some_inv hgb'
          obtain ⟨grouped, hgr, h1⟩ := bind_ok_inv h1
          obtain ⟨hgc, hgnd⟩ :=
            mergeGroupAndListGrouped_facts hgr hgb hml (hspec.1 hml)
          have hone : outNameOf cfg ≠ gb := by
            intro he
            exact hspec.2 (by rw [hgb, he])
          obtain ⟨hext, hcols⟩ := mergeLeft_extends h1
            (by rw [dfPVToValue_cols, hgc]) (rKeys_dfPVToValue_nodup hgnd)
            hfresh hone
          exact ⟨hext, Or.inr hcols⟩
        · rw [if_neg hml] at h
          by_cases hmd : cfg.mtype = "group_and_dict"
          · rw [if_pos hmd] at h
            obtain ⟨h1, -⟩ := pair_eq_inv h
            unfold mergeGroupAndDict at h1
            obtain ⟨grouped, hgr, h1⟩ := bind_ok_inv h1
            obtain ⟨gb, hgb', h1⟩ := bind_ok_inv h1
            have hgb : cfg.group_by = some gb := getKey_some_inv hgb'
            obtain ⟨rn, hrn⟩ := mergeGroupAndDictGrouped_rename_some hgr
            obtain ⟨hgc, hgnd⟩ := mergeGroupAndDictGrouped_facts hgr hgb hrn
            have hout : outNameOf cfg = rn := by
              unfold outNameOf
              rw [if_neg (by rw [hmd]; decide), if_pos hmd, hrn]
              rfl
            have hone : outNameOf cfg ≠ gb := by
              intro he
              exact hspec.2 (by rw [hgb, he])
            rw [hout] at hfresh hone ⊢
            obtain ⟨hext, hcols⟩ := mergeLeft_extends h1 hgc hgnd hfresh hone
            exact ⟨hext, Or.inr hcols⟩
          · rw [if_neg hmd] at h
            by_cases hms : cfg.mtype = "special_specialty_merge"
            · rw [if_pos hms] at h
              obtain ⟨h1, -⟩ := pair_eq_inv h
              rcases mergeSpecialties_result h1 with heq | ⟨g, hgc, hgnd, hmerge⟩
              · cases heq
                exact ⟨rowsExtend_refl cur, Or.inl rfl⟩
              · have hout : outNameOf cfg = "specialties" := by
                  unfold outNameOf
                  rw [if_neg (by rw [hms]; decide),
                    if_neg (by rw [hms]; decide)]
                rw [hout] at hfresh ⊢
                obtain ⟨hext, hcols⟩ := mergeLeft_extends hmerge hgc hgnd
                  hfresh (by decide)
                exact ⟨hext, Or.inr hcols⟩
            · rw [if_neg hms] at h
              obtain ⟨h1, -⟩ := pair_eq_inv h
              cases h1
              exact ⟨rowsExtend_refl cur, Or.inl rfl⟩

theorem foldl_stepConfig_error (dfs : RelMap) (e : PyError)
    (ws : List String) (configs : List MergeConfig) :
    configs.foldl (stepConfig dfs) (Except.error e, ws)
      = (Except.error e, ws) := by
  induction configs with
  | nil => rfl
  | cons cfg rest ih =>
    rw [List.foldl_cons]
    have hstep : stepConfig dfs (Except.error e, ws) cfg
        = (Except.error e, ws) := rfl
    rw [hstep, ih]

theorem fold_extends (dfs : RelMap) (configs : List MergeConfig) :
    ∀ (cur : DF Value) (ws : List String),
      (∀ cfg ∈ configs, CfgSpec cfg) →
      (configs.map outNameOf).Nodup →
      (∀ cfg ∈ configs, outNameOf cfg ∉ cur.cols) →
      ∀ out ws',
        configs.foldl (stepConfig dfs) (Except.ok cur, ws) = (out, ws') →
        ∀ o, out = Except.ok o →
          RowsExtend cur o ∧ o.cols ⊆ cur.cols ++ configs.map outNameOf := by
  induction configs with
  | nil =>
    intro cur ws _ _ _ out ws' hres o ho
    rw [List.foldl_nil] at hres
    obtain ⟨h1, -⟩ := pair_eq_inv hres
    rw [← h1] at ho
    cases ho
    exact ⟨rowsExtend_refl _, by simp⟩
  | cons cfg rest ih =>
    intro cur ws hcs hnd hfr out ws' hres o ho
    rw [List.foldl_cons] at hres
    cases hst : stepConfig dfs (Except.ok cur, ws) cfg with
    | mk r1 ws1 =>
      rw [hst] at hres
      cases r1 with
      | error e =>
        rw [foldl_stepConfig_error dfs e ws1 rest] at hres
        obtain ⟨h1, -⟩ := pair_eq_inv hres
        rw [← h1] at ho
        cases ho
      | ok mid =>
        obtain ⟨hext, hcols⟩ := stepConfig_ok_extends dfs cur ws cfg
          (hcs cfg (List.mem_cons_self _ _))
          (hfr cfg (List.mem_cons_self _ _)) hst
        simp only [List.map_cons, List.nodup_cons] at hnd
        have hcs' : ∀ c ∈ rest, CfgSpec c :=
          fun c hc => hcs c (List.mem_cons_of_mem _ hc)
        have hfr' : ∀ c ∈ rest, outNameOf c ∉ mid.cols := by
          intro c hc hmem
          rcases hcols with h1 | h1 <;> rw [h1] at hmem
          · exact hfr c (List.mem_cons_of_mem _ hc) hmem
          · rcases List.mem_append.mp hmem with hm | hm
            · exact hfr c (List.mem_cons_of_mem _ hc) hm
            · rw [List.mem_singleton] at hm
              exact hnd.1 (hm ▸ List.mem_map_of_mem outNameOf hc)
        obtain ⟨hext2, hsub⟩ := ih mid ws1 hcs' hnd.2 hfr' out ws' hres o ho
        refine ⟨rowsExtend_trans hext hext2, ?_⟩
        intro c hc
        have hcm := hsub hc
        rcases List.mem_append.mp hcm with hm | hm
        · rcases hcols with h1 | h1 <;> rw [h1] at hm
          · exact List.mem_append.mpr (Or.inl hm)
          · rcases List.mem_append.mp hm with h2 | h2
            · exact List.mem_append.mpr (Or.inl h2)
            · rw [List.mem_singleton] at h2
              refine List.mem_append.mpr (Or.inr ?_)
              rw [h2, List.map_cons]
              exact List.mem_cons_self _ _
        · refine List.mem_append.mpr (Or.inr ?_)
          rw [List.map_cons]
          exact List.mem_cons_of_mem _ hm

/-! ## Skipped directives -/

theorem stepConfig_skip (dfs : RelMap) (pdf : DF Value) (ws : List String)
    (cfg : MergeConfig) (h : skipCond dfs cfg) :
    stepConfig dfs (Except.ok pdf, ws) cfg
      = (Except.ok pdf, ws ++ [skipWarning cfg]) := by
  unfold stepConfig
  unfold skipCond at h
  dsimp only
  cases hpk : cfg.primary_df_key with
  | none => rfl
  | some pk =>
    rw [hpk] at h
    dsimp only at h ⊢
    cases hlk : lookupRel dfs pk with
    | none => rfl
    | some prim =>
      rw [hlk] at h
      dsimp only at h ⊢
      have hie : prim.rows.isEmpty = true := by rw [h]; rfl
      rw [if_pos hie]

theorem foldl_skip (dfs : RelMap) (configs : List MergeConfig) :
    ∀ (pdf : DF Value) (ws : List String),
      (∀ cfg ∈ configs, skipCond dfs cfg) →
      configs.foldl (stepConfig dfs) (Except.ok pdf, ws)
        = (Except.ok pdf, ws ++ configs.map skipWarning) := by
  induction configs with
  | nil => intro pdf ws _; simp
  | cons cfg rest ih =>
    intro pdf ws hsk
    rw [List.foldl_cons,
      stepConfig_skip dfs pdf ws cfg (hsk cfg (List.mem_cons_self _ _)),
      ih pdf (ws ++ [skipWarning cfg])
        (fun c hc => hsk c (List.mem_cons_of_mem _ hc))]
    simp

/-! ## The relation map as a Python dict -/

theorem lookupRel_eraseRel_self {dfs : RelMap} {k : String}
    (hnd : (dfs.map Prod.fst).Nodup) :
    lookupRel (eraseRel dfs k) k = none := by
  induction dfs with
  | nil => rfl
  | cons hd t ih =>
    obtain ⟨k0, df0⟩ := hd
    simp only [List.map_cons, List.nodup_cons] at hnd
    by_cases he : k0 = k
    · subst he
      rw [show eraseRel ((k0, df0) :: t) k0 = t by simp [eraseRel]]
      cases hlk : lookupRel t k0 with
      | none => rfl
      | some df =>
        exfalso
        refine hnd.1 ?_
        clear ih hnd
        induction t with
        | nil => cases hlk
        | cons hd2 t2 ih2 =>
          obtain ⟨k2, df2⟩ := hd2
          by_cases h2 : k2 = k0
          · subst h2; exact List.mem_cons_self _ _
          · simp only [lookupRel, if_neg h2] at hlk
            exact List.mem_cons_of_mem _ (ih2 hlk)
    · rw [show eraseRel ((k0, df0) :: t) k = (k0, df0) :: eraseRel t k by
        simp [eraseRel, he]]
      simp only [lookupRel, if_neg he]
      exact ih hnd.2

theorem lookupRel_eraseRel_ne (dfs : RelMap) {k k' : String}
    (h : k' ≠ k) : lookupRel (eraseRel dfs k) k' = lookupRel dfs k' := by
  induction dfs with
  | nil => rfl
  | cons hd t ih =>
    obtain ⟨k0, df0⟩ := hd
    by_cases he : k0 = k
    · subst he
      rw [show eraseRel ((k0, df0) :: t) k0 = t by simp [eraseRel]]
      have : k0 ≠ k' := fun hc => h hc.symm
      simp [lookupRel, this, ih]
    · rw [show eraseRel ((k0, df0) :: t) k = (k0, df0) :: eraseRel t k by
        simp [eraseRel, he]]
      by_cases h0 : k0 = k'
      · simp [lookupRel, h0]
      · simp only [lookupRel, if_neg h0]
        exact ih

/-! ## Facts about the whole pipeline entry point -/

theorem dfPrimToValue_cols (phys : DF Prim) :
    (dfPrimToValue phys).cols = phys.cols := rfl

theorem dfPrimToValue_length (phys : DF Prim) :
    (dfPrimToValue phys).rows.length = phys.rows.length := by
  unfold dfPrimToValue dfPVToValue dfPrimToPV
  simp

theorem processAndMergeData_eq {dfs : RelMap} {phys : DF Prim}
    (h : lookupRel dfs "Physician" = some phys) :
    processAndMergeData dfs =
      ((getMergeConfig.foldl (stepConfig (eraseRel dfs "Physician"))
        (Except.ok (dfPrimToValue phys), [])).1,
       eraseRel dfs "Physician",
       (getMergeConfig.foldl (stepConfig (eraseRel dfs "Physician"))
        (Except.ok (dfPrimToValue phys), [])).2) := by
  unfold processAndMergeData
  rw [h]

theorem processAndMergeData_missing {dfs : RelMap}
    (h : lookupRel dfs "Physician" = none) :
    processAndMergeData dfs
      = (Except.error (PyError.valueError primaryMissingMsg), dfs, []) := by
  unfold processAndMergeData
  rw [h]

theorem saveAndFinalize_empty {df : DF Value} (h : df.rows = []) :
    saveAndFinalize df = "" := by
  unfold saveAndFinalize toJsonLines dropCol
  by_cases hc : "AcceptingNewPatients" ∈ df.cols
  · rw [if_pos hc]
    simp [h]
    rfl
  · rw [if_neg hc]
    simp [h]
    rfl

/-- The content of every aggregated list: for each output row of a
group-and-list aggregation, the list holds exactly the aggregated-column
values of the matching primary rows, in the primary relation's row
order. -/
theorem groupListPrim_content {df : DF Prim} {key agg outn : String}
    {g : DF PV} (h : groupListPrim df key agg outn = Except.ok g)
    (hne : key ≠ outn) :
    ∀ row ∈ g.rows, ∃ k, rowGet row key = some (PV.p k) ∧
      rowGet row outn
        = some (PV.plist (colVals agg (matchRows df.rows key k))) := by
  obtain ⟨-, hrows⟩ := groupListPrim_ok_parts h
  intro row hrow
  rw [hrows] at hrow
  obtain ⟨gg, hgg, hroweq⟩ := List.mem_map.mp hrow
  obtain ⟨-, hmr, -⟩ := mem_sortedGroups_eq hgg
  refine ⟨gg.1, ?_, ?_⟩
  · rw [← hroweq]
    simp [rowGet]
  · rw [← hroweq, ← hmr]
    simp [rowGet, hne]

theorem dfPrimToValue_cell (phys : DF Prim) (i : Nat) (c : String) :
    ((dfPrimToValue phys).rows.get? i).bind (fun r => rowGet r c)
      = ((phys.rows.get? i).bind (fun r => rowGet r c)).map
          (fun v => Value.pv (PV.p v)) := by
  have hrows : (dfPrimToValue phys).rows = phys.rows.map
      (fun r => r.map (fun cv => (cv.1, Value.pv (PV.p cv.2)))) := by
    show ((phys.rows.map _).map _) = _
    rw [List.map_map]
    refine List.map_congr_left ?_
    intro r _
    show ((r.map _).map _) = _
    rw [List.map_map]
    rfl
  rw [hrows, List.get?_map]
  cases hr : phys.rows.get? i with
  | none => rfl
  | some r =>
    show rowGet (r.map (fun cv => (cv.1, Value.pv (PV.p cv.2)))) c = _
    exact rowGet_map_snd (fun v => Value.pv (PV.p v)) r c

/-! ## Further frame-operation lemmas (used by the rollup theorem) -/

theorem rowGet_isSome_of_mem {α : Type} {r : DRow α} {c : String}
    (h : c ∈ r.map Prod.fst) : ∃ v, rowGet r c = some v := by
  induction r with
  | nil => simp at h
  | cons hd t ih =>
    by_cases hc : hd.1 = c
    · exact ⟨hd.2, by simp [rowGet, hc]⟩
    · simp only [List.map_cons, List.mem_cons] at h
      rcases h with h | h
      · exact absurd h.symm hc
      · obtain ⟨v, hv⟩ := ih h
        exact ⟨v, by simp [rowGet, hc, hv]⟩

theorem renameCols_WF {α : Type} {df : DF α} (subs : List (String × String))
    (h : WF df) : WF (renameCols subs df) := by
  intro r hr
  unfold renameCols at hr ⊢
  simp only [List.mem_map] at hr
  obtain ⟨r0, hr0, hreq⟩ := hr
  rw [← hreq]
  have hwf := h r0 hr0
  show (r0.map _).map Prod.fst = _
  rw [List.map_map, ← hwf, List.map_map]
  rfl

/-- The rows a successful `mapCol` produces. -/
theorem mapCol_ok {α : Type} {c : String} {f : α → α} {df out : DF α}
    (h : mapCol c f df = Except.ok out) :
    out = ⟨df.cols, df.rows.map (List.map
      (fun cv => if cv.1 = c then (cv.1, f cv.2) else cv))⟩ := by
  unfold mapCol at h
  by_cases hc : c ∈ df.cols
  · rw [if_pos hc] at h
    cases h
    rfl
  · rw [if_neg hc] at h
    cases h

theorem rowGet_mapRow {α : Type} (c d : String) (f : α → α) (r : DRow α) :
    rowGet (r.map (fun cv => if cv.1 = c then (cv.1, f cv.2) else cv)) d
      = if d = c then (rowGet r c).map f else rowGet r d := by
  by_cases hdc : d = c
  · subst hdc
    rw [if_pos rfl]
    induction r with
    | nil => rfl
    | cons hd t ih =>
      rw [List.map_cons]
      by_cases h1 : hd.1 = d
      · rw [if_pos h1]
        simp only [rowGet]
        rw [if_pos h1, if_pos h1]
        rfl
      · rw [if_neg h1]
        simp only [rowGet]
        rw [if_neg h1, if_neg h1]
        exact ih
  · rw [if_neg hdc]
    induction r with
    | nil => rfl
    | cons hd t ih =>
      rw [List.map_cons]
      by_cases h1 : hd.1 = c
      · have h2 : hd.1 ≠ d := by rw [h1]; exact fun he => hdc he.symm
        rw [if_pos h1]
        simp only [rowGet]
        rw [if_neg h2, if_neg h2]
        exact ih
      · rw [if_neg h1]
        simp only [rowGet]
        by_cases h2 : hd.1 = d
        · rw [if_pos h2, if_pos h2]
        · rw [if_neg h2, if_neg h2]
          exact ih

/-- The frame a successful `selectCols` produces. -/
theorem selectCols_ok {α : Type} {cs : List String} {df out : DF α}
    (h : selectCols cs df = Except.ok out) :
    out = ⟨cs, df.rows.map (fun r =>
      cs.filterMap (fun c => (rowGet r c).map (fun v => (c, v))))⟩ := by
  unfold selectCols at h
  by_cases hc : cs.all (fun c => c ∈ df.cols)
  · rw [if_pos hc] at h
    cases h
    rfl
  · rw [if_neg hc] at h
    cases h

/-- Map-injectivity on members: if the images are pairwise distinct, two
members with the same image are equal. -/
theorem map_nodup_inj_on {α β : Type} {f : α → β} {l : List α}
    (hnd : (l.map f).Nodup) {a b : α} (ha : a ∈ l) (hb : b ∈ l)
    (hfab : f a = f b) : a = b := by
  induction l with
  | nil => simp at ha
  | cons x t ih =>
    simp only [List.map_cons, List.nodup_cons] at hnd
    rcases List.mem_cons.mp ha with h1 | h1 <;>
      rcases List.mem_cons.mp hb with h2 | h2
    · rw [h1, h2]
    · exfalso
      refine hnd.1 ?_
      have hfx : f x = f b := by rw [← h1]; exact hfab
      rw [hfx]
      exact List.mem_map_of_mem f h2
    · exfalso
      refine hnd.1 ?_
      have hfx : f x = f a := by rw [← h2]; exact hfab.symm
      rw [hfx]
      exact List.mem_map_of_mem f h1
    · exact ih hnd.2 h1 h2

/-! ## Concrete fixtures used by the claim witnesses and counterexamples -/

/-! ## Concrete fixtures used by the claim witnesses and counterexamples -/

/-! ## Claim theorems -/

/-- C3: a directive whose primary relation key is absent from the relation
map (or falsy, or mapping to a zero-row frame) is skipped by the directive
loop of `process_and_merge_data`: the subject table comes out of that
iteration unchanged (hence unchanged with respect to the directive's
field), exactly one warning is recorded, and the result is still a
success value, so no exception is raised. -/
theorem claim_C3_skip_directive (dfs : RelMap) (pdf : DF Value)
    (ws : List String) (cfg : MergeConfig)
    (h : cfg.primary_df_key = none ∨
      ∃ pk, cfg.primary_df_key = some pk ∧
        (lookupRel dfs pk = none ∨
         ∃ prim, lookupRel dfs pk = some prim ∧ prim.rows = [])) :
    stepConfig dfs (Except.ok pdf, ws) cfg
      = (Except.ok pdf, ws ++ [skipWarning cfg]) := by
  refine stepConfig_skip dfs pdf ws cfg ?_
  unfold skipCond
  rcases h with h | ⟨pk, hpk, h⟩
  · rw [h]
    trivial
  · rw [hpk]
    dsimp only
    rcases h with h | ⟨prim, hp, he⟩
    · rw [h]
      trivial
    · rw [hp]
      exact he

/-- Witness for C3 at a concrete skipped directive (the Practices
directive, whose primary relation is absent from `dfsW`). -/
theorem claim_C3_skip_directive_witness :
    stepConfig dfsW (Except.ok (dfPrimToValue physW), [])
      { name := "Practices", primary_df_key := some "PhysicianPractice",
        mtype := "group_and_list", group_by := some "PhysicianId",
        agg_col := some "PracticeId" }
      = (Except.ok (dfPrimToValue physW),
         [] ++ [skipWarning
           { name := "Practices",
             primary_df_key := some "PhysicianPractice",
             mtype := "group_and_list", group_by := some "PhysicianId",
             agg_col := some "PracticeId" }]) :=
  claim_C3_skip_directive dfsW (dfPrimToValue physW) []
    { name := "Practices", primary_df_key := some "PhysicianPractice",
      mtype := "group_and_list", group_by := some "PhysicianId",
      agg_col := some "PracticeId" }
    (Or.inr ⟨"PhysicianPractice", rfl, Or.inl (by decide)⟩)

/-- C5: assuming the subject identifier is unique within the subject
relation (and the directive output columns do not collide with existing
subject columns), a successful `process_and_merge_data` run returns
exactly one row per original subject row: every merge directive preserves
the subject table's row count. -/
theorem claim_C5_row_count (dfs : RelMap) (phys : DF Prim)
    (hphys : lookupRel dfs "Physician" = some phys)
    (huniq : (phys.rows.map (fun r => rowGet r "PhysicianId")).Nodup)
    (hfresh : ∀ cfg ∈ getMergeConfig, outNameOf cfg ∉ phys.cols)
    (out : DF Value)
    (hok : (processAndMergeData dfs).1 = Except.ok out) :
    out.rows.length = phys.rows.length := by
  rw [processAndMergeData_eq hphys] at hok
  dsimp only at hok
  cases hres : getMergeConfig.foldl (stepConfig (eraseRel dfs "Physician"))
      (Except.ok (dfPrimToValue phys), []) with
  | mk o ws' =>
    rw [hres] at hok
    obtain ⟨hext, -⟩ := fold_extends (eraseRel dfs "Physician")
      getMergeConfig (dfPrimToValue phys) [] (by decide) (by decide)
      (fun cfg hc => by rw [dfPrimToValue_cols]; exact hfresh cfg hc)
      o ws' hres out hok
    rw [hext.1, dfPrimToValue_length]

/-- Witness for C5 on the worked example (two subject rows, one child
relation covering only the first). -/
theorem claim_C5_row_count_witness :
    ∃ out, (processAndMergeData dfsW).1 = Except.ok out ∧
      out.rows.length = physW.rows.length := by
  have hok : (processAndMergeData dfsW).1
      = Except.ok ⟨["PhysicianId", "FirstName", "languages"],
        [[("PhysicianId", Value.pv (PV.p (Prim.int 1))),
          ("FirstName", Value.pv (PV.p (Prim.str "A"))),
          ("languages", Value.pv (PV.plist [Prim.str "en", Prim.str "es"]))],
         [("PhysicianId", Value.pv (PV.p (Prim.int 2))),
          ("FirstName", Value.pv (PV.p (Prim.str "B"))),
          ("languages", Value.pv (PV.p Prim.null))]]⟩ := by decide
  exact ⟨_, hok, claim_C5_row_count dfsW physW (by decide) (by decide)
    (by decide) _ hok⟩

/-- C10: `process_and_merge_data` mutates the caller's relation map: it
pops the Physician entry before iterating, so afterwards the map no
longer contains the subject relation (all other entries are untouched),
and calling the function again on the resulting map raises the
primary-entity-missing ValueError. -/
theorem claim_C10_map_mutation (dfs : RelMap) (phys : DF Prim)
    (hnd : (dfs.map Prod.fst).Nodup)
    (hphys : lookupRel dfs "Physician" = some phys) :
    (processAndMergeData dfs).2.1 = eraseRel dfs "Physician" ∧
    lookupRel (processAndMergeData dfs).2.1 "Physician" = none ∧
    (∀ k, k ≠ "Physician" →
      lookupRel (processAndMergeData dfs).2.1 k = lookupRel dfs k) ∧
    (processAndMergeData (processAndMergeData dfs).2.1).1
      = Except.error (PyError.valueError primaryMissingMsg) := by
  rw [processAndMergeData_eq hphys]
  dsimp only
  refine ⟨rfl, lookupRel_eraseRel_self hnd,
    fun k hk => lookupRel_eraseRel_ne dfs hk, ?_⟩
  rw [processAndMergeData_missing (lookupRel_eraseRel_self hnd)]

/-- Witness for C10 on the worked example. -/
theorem claim_C10_map_mutation_witness :
    (processAndMergeData dfsW).2.1 = eraseRel dfsW "Physician" ∧
    lookupRel (processAndMergeData dfsW).2.1 "Physician" = none ∧
    (∀ k, k ≠ "Physician" →
      lookupRel (processAndMergeData dfsW).2.1 k = lookupRel dfsW k) ∧
    (processAndMergeData (processAndMergeData dfsW).2.1).1
      = Except.error (PyError.valueError primaryMissingMsg) :=
  claim_C10_map_mutation dfsW physW (by decide) (by decide)

/-! ## An empty subject relation that loads with its schema does not
make the pipeline fail: every non-skipped directive still executes -/

theorem bind_ok {α β : Type} (a : α) (f : α → Except PyError β) :
    (Except.ok a >>= f) = f a := rfl

theorem getKey_some {β : Type} (v : β) (k : String) :
    getKey (some v) k = Except.ok v := rfl

theorem rowGet_append_right {α : Type} {a b : DRow α} {c : String}
    (h : rowGet a c = none) : rowGet (a ++ b) c = rowGet b c := by
  rw [rowGet_append, h]

theorem mapE_ok_of_forall {α β : Type} {f : α → Except PyError β}
    {l : List α} (h : ∀ a ∈ l, ∃ b, f a = Except.ok b) :
    ∃ out, mapE f l = Except.ok out := by
  induction l with
  | nil => exact ⟨[], rfl⟩
  | cons a t ih =>
    obtain ⟨b, hb⟩ := h a (List.mem_cons_self _ _)
    obtain ⟨bs, hbs⟩ := ih (fun x hx => h x (List.mem_cons_of_mem _ hx))
    refine ⟨b :: bs, ?_⟩
    unfold mapE
    rw [hb, hbs]

theorem projectRow_ok_of_cells {α : Type} {cs : List String} {r : DRow α}
    (h : ∀ c ∈ cs, ∃ v, rowGet r c = some v) :
    ∃ rec, projectRow cs r = Except.ok rec := by
  unfold projectRow
  refine mapE_ok_of_forall ?_
  intro c hc
  obtain ⟨v, hv⟩ := h c hc
  exact ⟨(c, v), by rw [hv]⟩

/-- The left merge in full generality (duplicate right keys allowed) when
no suffixing is active. -/
theorem mergeLeft_noOv_eq {α : Type} [DecidableEq α] [NullVal α]
    (l r : DF α) (key : String) (h1 : key ∈ l.cols) (h2 : key ∈ r.cols)
    (hov : noColOverlap l r key) :
    mergeLeft l r key = Except.ok
      ⟨l.cols ++ r.cols.filter (fun c => c ≠ key),
       l.rows.flatMap (fun lrow =>
         if (r.rows.filter (fun rr =>
             rowGet rr key = rowGet lrow key)).isEmpty then
           [lrow ++ (r.cols.filter (fun c => c ≠ key)).map
             (fun c => (c, (NullVal.nullv : α)))]
         else (r.rows.filter (fun rr =>
             rowGet rr key = rowGet lrow key)).map
           (fun m => lrow ++ dropKey key m))⟩ := by
  unfold mergeLeft
  rw [if_pos ⟨h1, h2⟩]
  have hovnil : l.cols.filter (fun c => c ≠ key ∧ c ∈ r.cols) = [] := by
    rw [List.filter_eq_nil_iff]
    intro c hc
    simp only [decide_eq_true_eq, not_and]
    intro hck
    rcases hov c hc with h | h
    · exact absurd h hck
    · exact h
  rw [hovnil]
  refine congrArg Except.ok ?_
  dsimp only
  rw [DF.mk.injEq]
  refine ⟨by simp, ?_⟩
  refine congrArg l.rows.flatMap ?_
  funext lrow
  rw [suffixRow_nil]
  simp [suffixRow_nil]

theorem mergeLeft_cols_noOv {α : Type} [DecidableEq α] [NullVal α]
    {l r : DF α} {key : String} {out : DF α}
    (h : mergeLeft l r key = Except.ok out)
    (hov : noColOverlap l r key) :
    out.cols = l.cols ++ r.cols.filter (fun c => c ≠ key) := by
  obtain ⟨h1, h2⟩ := mergeLeft_ok_inv h
  rw [mergeLeft_noOv_eq l r key h1 h2 hov] at h
  rw [← Except.ok.inj h]

/-- Every row a suffix-free left merge produces carries a (possibly null)
cell for every column of either side. -/
theorem mergeLeft_row_cells {α : Type} [DecidableEq α] [NullVal α]
    {l r : DF α} {key : String} {out : DF α}
    (h : mergeLeft l r key = Except.ok out)
    (hov : noColOverlap l r key) (hwl : WF l) (hwr : WF r) :
    ∀ rr0 ∈ out.rows, ∀ c, (c ∈ l.cols ∨ c ∈ r.cols) →
      ∃ v, rowGet rr0 c = some v := by
  obtain ⟨h1, h2⟩ := mergeLeft_ok_inv h
  rw [mergeLeft_noOv_eq l r key h1 h2 hov] at h
  have hout := (Except.ok.inj h).symm
  subst hout
  intro rr0 hrr c hc
  have hrr2 : rr0 ∈ l.rows.flatMap (fun lrow =>
      if (r.rows.filter (fun rr =>
          rowGet rr key = rowGet lrow key)).isEmpty then
        [lrow ++ (r.cols.filter (fun c => c ≠ key)).map
          (fun c => (c, (NullVal.nullv : α)))]
      else (r.rows.filter (fun rr =>
          rowGet rr key = rowGet lrow key)).map
        (fun m => lrow ++ dropKey key m)) := hrr
  rw [List.mem_flatMap] at hrr2
  obtain ⟨lrow, hlrow, hrrF⟩ := hrr2
  have hlwf := hwl lrow hlrow
  by_cases hcl : c ∈ l.cols
  · obtain ⟨v, hv⟩ := rowGet_isSome_of_mem
      (show c ∈ lrow.map Prod.fst by rw [hlwf]; exact hcl)
    by_cases hms : (r.rows.filter (fun rr =>
        rowGet rr key = rowGet lrow key)).isEmpty = true
    · rw [if_pos hms, List.mem_singleton] at hrrF
      refine ⟨v, ?_⟩
      rw [hrrF]
      exact rowGet_append_left _ hv
    · rw [if_neg hms, List.mem_map] at hrrF
      obtain ⟨m, hm, heq⟩ := hrrF
      refine ⟨v, ?_⟩
      rw [← heq]
      exact rowGet_append_left _ hv
  · have hcr : c ∈ r.cols := hc.resolve_left hcl
    have hck : c ≠ key := fun he => hcl (by rw [he]; exact h1)
    have hnone : rowGet lrow c = none :=
      rowGet_eq_none_of_not_mem (by rw [hlwf]; exact hcl)
    by_cases hms : (r.rows.filter (fun rr =>
        rowGet rr key = rowGet lrow key)).isEmpty = true
    · rw [if_pos hms, List.mem_singleton] at hrrF
      refine ⟨NullVal.nullv, ?_⟩
      rw [hrrF, rowGet_append_right hnone, rowGet_constRow]
      rw [if_pos (by rw [List.mem_filter]
                     exact ⟨hcr, by simpa using hck⟩)]
    · rw [if_neg hms, List.mem_map] at hrrF
      obtain ⟨m, hm, heq⟩ := hrrF
      have hmmem : m ∈ r.rows := List.mem_of_mem_filter hm
      obtain ⟨v, hv⟩ := rowGet_isSome_of_mem
        (show c ∈ m.map Prod.fst by rw [hwr m hmmem]; exact hcr)
      refine ⟨v, ?_⟩
      rw [← heq]
      show rowGet (lrow ++ dropKey key m) c = some v
      rw [rowGet_append_right hnone, rowGet_dropKey _ hck, hv]

/-- A group-and-dict aggregation succeeds whenever its key column exists
and every row carries every projected column. -/
theorem groupRecsPV_ok_of_cells {df : DF PV} {key : String}
    {cs : List String} (outn : String) (hkey : key ∈ df.cols)
    (hcov : ∀ rr ∈ df.rows, ∀ c ∈ cs, ∃ v, rowGet rr c = some v) :
    ∃ g, groupRecsPV df key cs outn = Except.ok g ∧
      g.cols = [key, outn] := by
  unfold groupRecsPV
  rw [if_pos hkey]
  have hall : ∀ gg ∈ sortedGroups PV.leB df.rows key, ∃ b,
      (mapE (projectRow cs) gg.2).map (fun recs =>
        [(key, Value.pv gg.1), (outn, Value.recs recs)])
      = Except.ok b := by
    intro gg hgg
    obtain ⟨-, hmr, -⟩ := mem_sortedGroups_eq
      (show (gg.1, gg.2) ∈ sortedGroups PV.leB df.rows key by
        rw [show (gg.1, gg.2) = gg from rfl]; exact hgg)
    have hproj : ∀ rr ∈ gg.2, ∃ rec, projectRow cs rr = Except.ok rec := by
      intro rr hrr
      refine projectRow_ok_of_cells ?_
      rw [hmr] at hrr
      exact hcov rr (List.mem_of_mem_filter hrr)
    obtain ⟨recs, hrecs⟩ := mapE_ok_of_forall hproj
    exact ⟨_, by rw [hrecs]; rfl⟩
  obtain ⟨rows, hrows⟩ := mapE_ok_of_forall hall
  rw [hrows]
  exact ⟨_, rfl, rfl⟩

theorem mergeGroupAndListGrouped_ok {prim : DF Prim} {cfg : MergeConfig}
    {gb agg : String} (hgb : cfg.group_by = some gb)
    (hagg : cfg.agg_col = some agg) (hgbp : gb ∈ prim.cols)
    (haggp : agg ∈ prim.cols) (hne : agg ≠ gb) :
    ∃ g, mergeGroupAndListGrouped prim cfg = Except.ok g ∧
      gb ∈ g.cols := by
  have hgl : groupListPrim prim gb agg agg = Except.ok ⟨[gb, agg],
      (sortedGroups Prim.leB prim.rows gb).map (fun g =>
        [(gb, PV.p g.1), (agg, PV.plist (colVals agg g.2))])⟩ := by
    unfold groupListPrim
    rw [if_pos hgbp, if_pos haggp]
  cases hrn : cfg.rename_to with
  | none =>
    refine ⟨⟨[gb, agg], (sortedGroups Prim.leB prim.rows gb).map (fun g =>
      [(gb, PV.p g.1), (agg, PV.plist (colVals agg g.2))])⟩, ?_, ?_⟩
    · unfold mergeGroupAndListGrouped
      rw [hgb, hagg]
      simp only [getKey_some, bind_ok]
      rw [hgl, hrn]
      rfl
    · exact List.mem_cons_self _ _
  | some rn =>
    refine ⟨renameCols [(agg, rn)]
      ⟨[gb, agg], (sortedGroups Prim.leB prim.rows gb).map (fun g =>
        [(gb, PV.p g.1), (agg, PV.plist (colVals agg g.2))])⟩, ?_, ?_⟩
    · unfold mergeGroupAndListGrouped
      rw [hgb, hagg]
      simp only [getKey_some, bind_ok]
      rw [hgl, hrn]
      rfl
    · have hb : (gb == agg) = false := by simp [hne.symm]
      simp [renameCols, List.lookup, hb]

theorem mergeGroupAndDictGrouped_ok {prim : DF Prim} {dfs : RelMap}
    {cfg : MergeConfig} {gb rn : String}
    (hgb : cfg.group_by = some gb) (hrn : cfg.rename_to = some rn)
    (hwf : WF prim)
    (hbr : (cfg.secondary_df_key.bind (fun s => lookupRel dfs s) = none ∧
        ∃ dc, cfg.dict_cols = some dc ∧ ∀ c ∈ dc, c ∈ prim.cols) ∨
      (∃ s sec lo ro, cfg.secondary_df_key = some s ∧
        lookupRel dfs s = some sec ∧ WF sec ∧
        cfg.left_on = some lo ∧ cfg.right_on = some ro ∧
        lo ∈ prim.cols ∧ lo ∈ (renameCols [(ro, lo)] sec).cols ∧
        noColOverlap prim (renameCols [(ro, lo)] sec) lo))
    (hgbp : gb ∈ prim.cols) :
    ∃ g, mergeGroupAndDictGrouped prim dfs cfg = Except.ok g ∧
      g.cols = [gb, rn] := by
  rcases hbr with ⟨hnone, dc, hdc, hdcp⟩ |
    ⟨s, sec, lo, ro, hs, hsec, hwsec, hlo, hro, hlop, hlor, hov⟩
  · have hstep1 : mergeGroupAndDictGrouped prim dfs cfg
        = groupRecsPV (dfPrimToPV prim) gb dc rn := by
      unfold mergeGroupAndDictGrouped
      rw [hnone]
      dsimp only
      rw [hdc, hgb, hrn]
      rfl
    have hcov : ∀ rr ∈ (dfPrimToPV prim).rows, ∀ c ∈ dc,
        ∃ v, rowGet rr c = some v := by
      intro rr hrr c hc
      obtain ⟨r0, hr0, hre⟩ := List.mem_map.mp
        (show rr ∈ prim.rows.map
          (List.map (fun cv => (cv.1, PV.p cv.2))) from hrr)
      obtain ⟨v, hv⟩ := rowGet_isSome_of_mem
        (show c ∈ r0.map Prod.fst by rw [hwf r0 hr0]; exact hdcp c hc)
      refine ⟨PV.p v, ?_⟩
      rw [← hre]
      show rowGet (r0.map (fun cv => (cv.1, PV.p cv.2))) c = _
      rw [rowGet_map_snd, hv]
      rfl
    obtain ⟨g, hg, hgc⟩ := groupRecsPV_ok_of_cells rn
      (show gb ∈ (dfPrimToPV prim).cols from hgbp) hcov
    exact ⟨g, hstep1.trans hg, hgc⟩
  · have hml : ∃ m, mergeLeft prim (renameCols [(ro, lo)] sec) lo
        = Except.ok m := by
      unfold mergeLeft
      rw [if_pos ⟨hlop, hlor⟩]
      exact ⟨_, rfl⟩
    obtain ⟨merged, hm⟩ := hml
    have hstep1 : mergeGroupAndDictGrouped prim dfs cfg
        = groupRecsPV (dfPrimToPV merged) gb
            (renameCols [(ro, lo)] sec).cols rn := by
      unfold mergeGroupAndDictGrouped
      rw [show cfg.secondary_df_key.bind (fun x => lookupRel dfs x)
        = some sec from by rw [hs]; exact hsec]
      dsimp only
      rw [hlo, hro]
      simp only [getKey_some, bind_ok]
      rw [hm]
      simp only [bind_ok]
      rw [hgb, hrn]
      rfl
    have hmcols := mergeLeft_cols_noOv hm hov
    have hcov : ∀ rr ∈ (dfPrimToPV merged).rows,
        ∀ c ∈ (renameCols [(ro, lo)] sec).cols,
        ∃ v, rowGet rr c = some v := by
      intro rr hrr c hc
      obtain ⟨r0, hr0, hre⟩ := List.mem_map.mp
        (show rr ∈ merged.rows.map
          (List.map (fun cv => (cv.1, PV.p cv.2))) from hrr)
      obtain ⟨v, hv⟩ := mergeLeft_row_cells hm hov hwf
        (renameCols_WF _ hwsec) r0 hr0 c (Or.inr hc)
      refine ⟨PV.p v, ?_⟩
      rw [← hre]
      show rowGet (r0.map (fun cv => (cv.1, PV.p cv.2))) c = _
      rw [rowGet_map_snd, hv]
      rfl
    obtain ⟨g, hg, hgc⟩ := groupRecsPV_ok_of_cells rn
      (show gb ∈ (dfPrimToPV merged).cols from by
        show gb ∈ merged.cols
        rw [hmcols]
        exact List.mem_append.mpr (Or.inl hgbp)) hcov
    exact ⟨g, hstep1.trans hg, hgc⟩

/-- One directive iteration never raises when the directive is skipped or
runnable (note: nothing here requires the subject table to be empty; the
merge itself cannot fail on the subject side beyond its group key). -/
theorem stepConfig_runnable_ok (dfs : RelMap) (cur : DF Value)
    (ws : List String) (cfg : MergeConfig) (physCols : List String)
    (hcols : ∀ c ∈ physCols, c ∈ cur.cols)
    (h : skipCond dfs cfg ∨ RunnableEmpty dfs physCols cfg) :
    ∃ mid ws', stepConfig dfs (Except.ok cur, ws) cfg
      = (Except.ok mid, ws') := by
  rcases h with hsk | hrun
  · exact ⟨cur, ws ++ [skipWarning cfg],
      stepConfig_skip dfs cur ws cfg hsk⟩
  · obtain ⟨pk, prim, hpk, hlk, hwf, hbr⟩ := hrun
    unfold stepConfig
    dsimp only
    rw [hpk]
    dsimp only
    rw [hlk]
    dsimp only
    by_cases hemp : prim.rows.isEmpty = true
    · rw [if_pos hemp]
      exact ⟨cur, ws ++ [skipWarning cfg], rfl⟩
    · rw [if_neg hemp]
      rcases hbr with ⟨hml, gb, agg, hgb, hagg, hgbp, haggp, hne, hgbc⟩ |
        ⟨hmd, gb, rn, hgb, hrn, hgbc, hgbp, hsub⟩ |
        ⟨hms, ⟨ps, hps⟩, hspno⟩
      · rw [if_pos hml]
        obtain ⟨g1, hg1, hg1c⟩ :=
          mergeGroupAndListGrouped_ok hgb hagg hgbp haggp hne
        have hml2 : ∃ m, mergeLeft cur (dfPVToValue g1) gb
            = Except.ok m := by
          unfold mergeLeft
          rw [if_pos ⟨hcols gb hgbc,
            (show gb ∈ (dfPVToValue g1).cols from hg1c)⟩]
          exact ⟨_, rfl⟩
        obtain ⟨m2, hm2⟩ := hml2
        have hfull : mergeGroupAndList cur prim cfg = Except.ok m2 := by
          unfold mergeGroupAndList
          rw [hgb]
          simp only [getKey_some, bind_ok]
          rw [hg1]
          simp only [bind_ok]
          exact hm2
        exact ⟨m2, ws, by rw [hfull]⟩
      · rw [if_neg (by rw [hmd]; decide), if_pos hmd]
        obtain ⟨g1, hg1, hg1c⟩ :=
          mergeGroupAndDictGrouped_ok hgb hrn hwf hsub hgbp
        have hml2 : ∃ m, mergeLeft cur g1 gb = Except.ok m := by
          unfold mergeLeft
          rw [if_pos ⟨hcols gb hgbc,
            by rw [hg1c]; exact List.mem_cons_self _ _⟩]
          exact ⟨_, rfl⟩
        obtain ⟨m2, hm2⟩ := hml2
        have hfull : mergeGroupAndDict cur prim dfs cfg
            = Except.ok m2 := by
          unfold mergeGroupAndDict
          rw [hg1]
          simp only [bind_ok]
          rw [hgb]
          simp only [getKey_some, bind_ok]
          exact hm2
        exact ⟨m2, ws, by rw [hfull]⟩
      · rw [if_neg (by rw [hms]; decide), if_neg (by rw [hms]; decide),
          if_pos hms]
        have hfull : mergeSpecialties cur dfs = Except.ok cur := by
          unfold mergeSpecialties
          rw [hps]
          simp only [getKey_some, bind_ok]
          rw [hspno]
        exact ⟨cur, ws, by rw [hfull]⟩

/-- The whole directive fold succeeds and preserves the subject row count
when every directive is skipped or runnable. -/
theorem foldl_runnable_ok (dfs : RelMap) (physCols : List String)
    (configs : List MergeConfig) :
    ∀ (cur : DF Value) (ws : List String),
      (∀ cfg ∈ configs, CfgSpec cfg) →
      (configs.map outNameOf).Nodup →
      (∀ cfg ∈ configs, outNameOf cfg ∉ cur.cols) →
      (∀ c ∈ physCols, c ∈ cur.cols) →
      (∀ cfg ∈ configs,
        skipCond dfs cfg ∨ RunnableEmpty dfs physCols cfg) →
      ∃ mid ws', configs.foldl (stepConfig dfs) (Except.ok cur, ws)
          = (Except.ok mid, ws') ∧
        mid.rows.length = cur.rows.length := by
  induction configs with
  | nil =>
    intro cur ws _ _ _ _ _
    exact ⟨cur, ws, rfl, rfl⟩
  | cons cfg rest ih =>
    intro cur ws hcs hnd hfr hpc hrun
    obtain ⟨mid1, ws1, hstep⟩ := stepConfig_runnable_ok dfs cur ws cfg
      physCols hpc (hrun cfg (List.mem_cons_self _ _))
    obtain ⟨hext, hcols⟩ := stepConfig_ok_extends dfs cur ws cfg
      (hcs cfg (List.mem_cons_self _ _))
      (hfr cfg (List.mem_cons_self _ _)) hstep
    simp only [List.map_cons, List.nodup_cons] at hnd
    have hfr' : ∀ c ∈ rest, outNameOf c ∉ mid1.cols := by
      intro c hc hmem
      rcases hcols with h1 | h1 <;> rw [h1] at hmem
      · exact hfr c (List.mem_cons_of_mem _ hc) hmem
      · rcases List.mem_append.mp hmem with hm | hm
        · exact hfr c (List.mem_cons_of_mem _ hc) hm
        · rw [List.mem_singleton] at hm
          exact hnd.1 (hm ▸ List.mem_map_of_mem outNameOf hc)
    have hpc' : ∀ c ∈ physCols, c ∈ mid1.cols := by
      intro c hc
      rcases hcols with h1 | h1 <;> rw [h1]
      · exact hpc c hc
      · exact List.mem_append.mpr (Or.inl (hpc c hc))
    obtain ⟨mid, ws2, hres, hlen⟩ := ih mid1 ws1
      (fun c hc => hcs c (List.mem_cons_of_mem _ hc)) hnd.2 hfr' hpc'
      (fun c hc => hrun c (List.mem_cons_of_mem _ hc))
    refine ⟨mid, ws2, ?_, ?_⟩
    · rw [List.foldl_cons, hstep, hres]
    · rw [hlen, hext.1]

/-- C4 counterexample: the original claim's "a present-but-empty subject
relation never makes the pipeline error" is false.  A schema-less empty
subject relation (exactly what `pd.read_json` yields for an empty `[]`
extract) next to a populated language relation makes the Languages left
merge raise KeyError "PhysicianId": the subject relation is present and
empty, yet the run errors instead of producing an empty stream. -/
theorem claim_C4_counterexample :
    lookupRel dfsNoSchemaW "Physician" = some ⟨[], []⟩ ∧
    (⟨[], []⟩ : DF Prim).rows = [] ∧
    (processAndMergeData dfsNoSchemaW).1
      = Except.error (PyError.keyError "PhysicianId") := by
  refine ⟨rfl, rfl, ?_⟩
  decide

/-- C4 amended: (a) when the subject relation is absent from the relation
map, the pipeline raises the distinct primary-entity-missing ValueError
before any merging, so no output is produced; (b) when the subject
relation is present with zero rows, any successful run produces zero
output rows and the serialized stream is the well-formed empty stream
(the empty string, zero JSON lines); (c) a present subject relation with
zero rows that still carries its schema columns makes the run succeed —
with that empty stream — whenever each directive is either skipped or
runnable (its relations loaded and well formed with the configured
columns, the group key a subject column; for the specialty directive the
Specialty dimension absent, in which case the code leaves the table
unchanged).  In particular the run succeeds with populated child
relations whose directives do execute, so emptiness is not an error;
but (by the counterexample) a schema-less empty subject does error, so
the original unconditional claim had to be weakened. -/
theorem claim_C4_amended :
    (∀ dfs : RelMap, lookupRel dfs "Physician" = none →
      (processAndMergeData dfs).1
        = Except.error (PyError.valueError primaryMissingMsg)) ∧
    (∀ (dfs : RelMap) (phys : DF Prim),
      lookupRel dfs "Physician" = some phys → phys.rows = [] →
      (∀ cfg ∈ getMergeConfig, outNameOf cfg ∉ phys.cols) →
      ∀ out, (processAndMergeData dfs).1 = Except.ok out →
        out.rows = [] ∧ saveAndFinalize out = "") ∧
    (∀ (dfs : RelMap) (physCols : List String),
      lookupRel dfs "Physician" = some ⟨physCols, []⟩ →
      (∀ cfg ∈ getMergeConfig, outNameOf cfg ∉ physCols) →
      (∀ cfg ∈ getMergeConfig,
        skipCond (eraseRel dfs "Physician") cfg ∨
        RunnableEmpty (eraseRel dfs "Physician") physCols cfg) →
      ∃ out, (processAndMergeData dfs).1 = Except.ok out ∧
        out.rows = [] ∧ saveAndFinalize out = "") := by
  refine ⟨?_, ?_, ?_⟩
  · intro dfs h
    rw [processAndMergeData_missing h]
  · intro dfs phys hphys hemp hfresh out hok
    have hlen : out.rows.length = phys.rows.length := by
      rw [processAndMergeData_eq hphys] at hok
      dsimp only at hok
      cases hres : getMergeConfig.foldl
          (stepConfig (eraseRel dfs "Physician"))
          (Except.ok (dfPrimToValue phys), []) with
      | mk o ws' =>
        rw [hres] at hok
        obtain ⟨hext, -⟩ := fold_extends (eraseRel dfs "Physician")
          getMergeConfig (dfPrimToValue phys) [] (by decide) (by decide)
          (fun cfg hc => by rw [dfPrimToValue_cols]; exact hfresh cfg hc)
          o ws' hres out hok
        rw [hext.1, dfPrimToValue_length]
    have hrows : out.rows = [] := by
      rw [hemp] at hlen
      exact List.length_eq_zero.mp hlen
    exact ⟨hrows, saveAndFinalize_empty hrows⟩
  · intro dfs physCols hphys hfresh hrun
    obtain ⟨mid, ws2, hres, hlen⟩ := foldl_runnable_ok
      (eraseRel dfs "Physician") physCols getMergeConfig
      (dfPrimToValue ⟨physCols, []⟩) [] (by decide) (by decide)
      (fun cfg hc => by rw [dfPrimToValue_cols]; exact hfresh cfg hc)
      (fun c hc => by rw [dfPrimToValue_cols]; exact hc) hrun
    have hrows : mid.rows = [] := by
      refine List.length_eq_zero.mp ?_
      rw [hlen, dfPrimToValue_length]
      rfl
    refine ⟨mid, ?_, hrows, saveAndFinalize_empty hrows⟩
    rw [processAndMergeData_eq hphys]
    dsimp only
    rw [hres]

/-- Witness for the amended C4: the missing-subject error on the empty
map, and — on a map holding an empty-but-schema'd subject relation next
to populated Languages, Education and Insurance (with dimension)
relations, all three strategies executing — a successful run with the
empty serialized stream. -/
theorem claim_C4_amended_witness :
    (processAndMergeData []).1
      = Except.error (PyError.valueError primaryMissingMsg) ∧
    (∃ out, (processAndMergeData dfsEmptyW).1 = Except.ok out ∧
      out.rows = [] ∧ saveAndFinalize out = "") := by
  refine ⟨claim_C4_amended.1 [] rfl, ?_⟩
  refine claim_C4_amended.2.2 dfsEmptyW ["PhysicianId", "FirstName"]
    rfl (by decide) ?_
  intro cfg hc
  simp only [getMergeConfig, List.mem_cons, List.not_mem_nil, or_false]
    at hc
  rcases hc with rfl | rfl | rfl | rfl | rfl | rfl | rfl | rfl | rfl | rfl
  · exact Or.inr ⟨"PhysicianLanguage", langW, rfl, by decide, by decide,
      Or.inl ⟨rfl, "PhysicianId", "Language", rfl, rfl, by decide,
        by decide, by decide, by decide⟩⟩
  · exact Or.inl (by decide)
  · exact Or.inl (by decide)
  · exact Or.inl (by decide)
  · exact Or.inr ⟨"PhysicianInsurance", physInsW, rfl, by decide,
      by decide, Or.inr (Or.inl ⟨rfl, "PhysicianId", "insurance", rfl,
        rfl, by decide, by decide, Or.inr ⟨"Insurance", insW,
          "InsuranceId", "Id", rfl, by decide, by decide, rfl, rfl,
          by decide, by decide, by unfold noColOverlap; decide⟩⟩)⟩
  · exact Or.inl (by decide)
  · exact Or.inl (by decide)
  · exact Or.inr ⟨"PhysicianEducation", eduW, rfl, by decide, by decide,
      Or.inr (Or.inl ⟨rfl, "PhysicianId", "education", rfl, rfl,
        by decide, by decide, Or.inl ⟨rfl,
          ["School", "SchoolType", "Degree", "AreaOfStudy"], rfl,
          by decide⟩⟩)⟩
  · exact Or.inl (by decide)
  · exact Or.inl (by decide)

/-- `_merge_group_and_dict` raises KeyError "dict_cols" whenever a
secondary relation is configured but absent from the map and the config
carries no dict_cols entry (the else-branch executes
`config["dict_cols"]`). -/
theorem mergeGroupAndDict_dict_cols_error (pdf : DF Value)
    (rel : DF Prim) (dfs : RelMap) (cfg : MergeConfig) (s : String)
    (hsk : cfg.secondary_df_key = some s)
    (hsec : lookupRel dfs s = none) (hdc : cfg.dict_cols = none) :
    mergeGroupAndDict pdf rel dfs cfg
      = Except.error (PyError.keyError "dict_cols") := by
  unfold mergeGroupAndDict mergeGroupAndDictGrouped
  rw [show cfg.secondary_df_key.bind (fun x => lookupRel dfs x) = none
    from by rw [hsk]; exact hsec]
  dsimp only
  rw [hdc]
  rfl

/-- The directive-loop iteration on such a directive turns the success
state into that KeyError. -/
theorem stepConfig_dict_cols_error (dfs : RelMap) (pdf : DF Value)
    (ws : List String) (cfg : MergeConfig) (pk s : String)
    (rel : DF Prim) (hpk : cfg.primary_df_key = some pk)
    (hrel : lookupRel dfs pk = some rel) (hne : rel.rows ≠ [])
    (hmt : cfg.mtype = "group_and_dict")
    (hsk : cfg.secondary_df_key = some s)
    (hsec : lookupRel dfs s = none) (hdc : cfg.dict_cols = none) :
    stepConfig dfs (Except.ok pdf, ws) cfg
      = (Except.error (PyError.keyError "dict_cols"), ws) := by
  unfold stepConfig
  dsimp only
  rw [hpk]
  dsimp only
  rw [hrel]
  dsimp only
  rw [if_neg (by intro hc; exact hne (List.isEmpty_iff.mp hc)),
    if_neg (by rw [hmt]; decide), if_pos hmt,
    mergeGroupAndDict_dict_cols_error pdf rel dfs cfg s hsk hsec hdc]

/-- Whole-pipeline propagation: if the directives before position `n` are
skipped and the directive at position `n` is a group-and-dict directive
with a present non-empty primary, a configured-but-absent secondary and
no dict_cols, the run raises KeyError "dict_cols". -/
theorem pipeline_dict_cols_error (dfs : RelMap) (phys rel : DF Prim)
    (n : Nat) (cfg : MergeConfig) (tail : List MergeConfig)
    (pk s : String)
    (hphys : lookupRel dfs "Physician" = some phys)
    (hdropeq : getMergeConfig.drop n = cfg :: tail)
    (hskips : ∀ c ∈ getMergeConfig.take n,
      skipCond (eraseRel dfs "Physician") c)
    (hpk : cfg.primary_df_key = some pk)
    (hrel : lookupRel (eraseRel dfs "Physician") pk = some rel)
    (hne : rel.rows ≠ [])
    (hmt : cfg.mtype = "group_and_dict")
    (hsk : cfg.secondary_df_key = some s)
    (hsec : lookupRel (eraseRel dfs "Physician") s = none)
    (hdc : cfg.dict_cols = none) :
    (processAndMergeData dfs).1
      = Except.error (PyError.keyError "dict_cols") := by
  rw [processAndMergeData_eq hphys]
  dsimp only
  have hfold : getMergeConfig.foldl
      (stepConfig (eraseRel dfs "Physician"))
      (Except.ok (dfPrimToValue phys), [])
      = (getMergeConfig.drop n).foldl
          (stepConfig (eraseRel dfs "Physician"))
          ((getMergeConfig.take n).foldl
            (stepConfig (eraseRel dfs "Physician"))
            (Except.ok (dfPrimToValue phys), [])) := by
    conv_lhs => rw [← List.take_append_drop n getMergeConfig]
    rw [List.foldl_append]
  rw [hfold,
    foldl_skip (eraseRel dfs "Physician") (getMergeConfig.take n)
      (dfPrimToValue phys) [] hskips,
    hdropeq, List.foldl_cons,
    stepConfig_dict_cols_error (eraseRel dfs "Physician")
      (dfPrimToValue phys) ([] ++ (getMergeConfig.take n).map skipWarning)
      cfg pk s rel hpk hrel hne hmt hsk hsec hdc,
    foldl_stepConfig_error]

/-- C9: reading `config["dict_cols"]` raises KeyError "dict_cols" for
every group-and-dict directive whose secondary relation is configured
but absent and which carries no dict_cols entry — the directive is not
skipped.  The directives of `get_merge_config()` with a secondary key
and no dict_cols are exactly Locations and Area of Expertise, and for
each of the two the error propagates out of `process_and_merge_data`
whenever its primary relation is present and non-empty, its secondary
relation is absent, and the earlier directives are skipped (their
primaries absent or empty). -/
theorem claim_C9_dict_cols_keyerror :
    (∀ (pdf : DF Value) (rel : DF Prim) (dfs : RelMap)
      (cfg : MergeConfig) (s : String),
      cfg.secondary_df_key = some s → lookupRel dfs s = none →
      cfg.dict_cols = none →
      mergeGroupAndDict pdf rel dfs cfg
        = Except.error (PyError.keyError "dict_cols")) ∧
    (getMergeConfig.filter (fun c =>
        c.secondary_df_key.isSome && c.dict_cols.isNone)
      = [{ name := "Locations",
           primary_df_key := some "PhysicianLocation",
           secondary_df_key := some "Location",
           mtype := "group_and_dict", left_on := some "LocationId",
           right_on := some "Id", group_by := some "PhysicianId",
           rename_to := some "location" },
         { name := "Area of Expertise",
           primary_df_key := some "PhysicianAreaOfExpertise",
           secondary_df_key := some "AreaOfExpertise",
           mtype := "group_and_dict",
           left_on := some "AreaOfExpertiseId", right_on := some "Id",
           group_by := some "PhysicianId",
           rename_to := some "area_of_expertise" }]) ∧
    (∀ (dfs : RelMap) (phys locRel : DF Prim),
      lookupRel dfs "Physician" = some phys →
      (∀ cfg ∈ getMergeConfig.take 5,
        skipCond (eraseRel dfs "Physician") cfg) →
      lookupRel (eraseRel dfs "Physician") "PhysicianLocation"
        = some locRel →
      locRel.rows ≠ [] →
      lookupRel (eraseRel dfs "Physician") "Location" = none →
      (processAndMergeData dfs).1
        = Except.error (PyError.keyError "dict_cols")) ∧
    (∀ (dfs : RelMap) (phys aoeRel : DF Prim),
      lookupRel dfs "Physician" = some phys →
      (∀ cfg ∈ getMergeConfig.take 6,
        skipCond (eraseRel dfs "Physician") cfg) →
      lookupRel (eraseRel dfs "Physician") "PhysicianAreaOfExpertise"
        = some aoeRel →
      aoeRel.rows ≠ [] →
      lookupRel (eraseRel dfs "Physician") "AreaOfExpertise" = none →
      (processAndMergeData dfs).1
        = Except.error (PyError.keyError "dict_cols")) := by
  refine ⟨?_, rfl, ?_, ?_⟩
  · intro pdf rel dfs cfg s hsk hsec hdc
    exact mergeGroupAndDict_dict_cols_error pdf rel dfs cfg s hsk hsec hdc
  · intro dfs phys locRel hphys hskips hrel hne hsec
    exact pipeline_dict_cols_error dfs phys locRel 5 _ _ _ _
      hphys rfl hskips rfl hrel hne rfl rfl hsec rfl
  · intro dfs phys aoeRel hphys hskips hrel hne hsec
    exact pipeline_dict_cols_error dfs phys aoeRel 6 _ _ _ _
      hphys rfl hskips rfl hrel hne rfl rfl hsec rfl

/-- Witness for C9: the directive-level KeyError on a concrete call, and
the whole-pipeline KeyError for both the Locations and the Area of
Expertise directives on concrete maps holding only the subject relation
and the respective non-empty primary relation. -/
theorem claim_C9_dict_cols_keyerror_witness :
    mergeGroupAndDict (dfPrimToValue physW) locW []
      { name := "Locations", primary_df_key := some "PhysicianLocation",
        secondary_df_key := some "Location", mtype := "group_and_dict",
        left_on := some "LocationId", right_on := some "Id",
        group_by := some "PhysicianId", rename_to := some "location" }
      = Except.error (PyError.keyError "dict_cols") ∧
    (processAndMergeData [("Physician", physW),
      ("PhysicianLocation", locW)]).1
      = Except.error (PyError.keyError "dict_cols") ∧
    (processAndMergeData [("Physician", physW),
      ("PhysicianAreaOfExpertise", aoeRelW)]).1
      = Except.error (PyError.keyError "dict_cols") :=
  ⟨claim_C9_dict_cols_keyerror.1 (dfPrimToValue physW) locW []
      { name := "Locations", primary_df_key := some "PhysicianLocation",
        secondary_df_key := some "Location", mtype := "group_and_dict",
        left_on := some "LocationId", right_on := some "Id",
        group_by := some "PhysicianId", rename_to := some "location" }
      "Location" rfl rfl rfl,
   claim_C9_dict_cols_keyerror.2.2.1
     [("Physician", physW), ("PhysicianLocation", locW)] physW locW
     (by decide) (by decide) (by decide) (by decide) (by decide),
   claim_C9_dict_cols_keyerror.2.2.2
     [("Physician", physW), ("PhysicianAreaOfExpertise", aoeRelW)]
     physW aoeRelW
     (by decide) (by decide) (by decide) (by decide) (by decide)⟩

/-- A key of a (sorted) group comes from some row of the grouped frame. -/
theorem sortedGroups_key_source {α : Type} [DecidableEq α] [NullVal α]
    {le : α → α → Bool} {rows : List (DRow α)} {key : String} {k : α}
    {rs : List (DRow α)} (h : (k, rs) ∈ sortedGroups le rows key) :
    ∃ rr ∈ rows, rowGet rr key = some k := by
  obtain ⟨-, hmr, hne⟩ := mem_sortedGroups_eq h
  cases hrs : rs with
  | nil => exact absurd hrs hne
  | cons m t =>
    have hm : m ∈ matchRows rows key k := by
      rw [← hmr, hrs]; exact List.mem_cons_self _ _
    unfold matchRows at hm
    rw [List.mem_filter] at hm
    exact ⟨m, hm.1, by simpa using hm.2⟩

/-- Every row of the grouped frame built by `_merge_group_and_list`
carries as key a value taken from the primary relation's group column. -/
theorem mergeGroupAndListGrouped_key_source {df : DF Prim}
    {cfg : MergeConfig} {g : DF PV} {gb agg : String}
    (h : mergeGroupAndListGrouped df cfg = Except.ok g)
    (hgb : cfg.group_by = some gb) (hagg : cfg.agg_col = some agg)
    (hne : agg ≠ gb) :
    ∀ rr ∈ g.rows, ∃ k, rowGet rr gb = some (PV.p k) ∧
      ∃ pr ∈ df.rows, rowGet pr gb = some k := by
  unfold mergeGroupAndListGrouped at h
  obtain ⟨gb0, h1, h⟩ := bind_ok_inv h
  have hgb0 : gb = gb0 := by
    have := getKey_some_inv h1
    rw [hgb] at this
    exact Option.some.inj this
  subst hgb0
  obtain ⟨agg0, h2, h⟩ := bind_ok_inv h
  have hagg0 : agg = agg0 := by
    have := getKey_some_inv h2
    rw [hagg] at this
    exact Option.some.inj this
  subst hagg0
  obtain ⟨g0, hgl, h⟩ := bind_ok_inv h
  obtain ⟨-, hrows0⟩ := groupListPrim_ok_parts hgl
  have hsrc : ∀ rr ∈ g0.rows, ∃ k, rowGet rr gb = some (PV.p k) ∧
      ∃ pr ∈ df.rows, rowGet pr gb = some k := by
    intro rr hrr
    rw [hrows0] at hrr
    obtain ⟨gg, hgg, hroweq⟩ := List.mem_map.mp hrr
    obtain ⟨pr, hpr, hprk⟩ :=
      sortedGroups_key_source
        (show (gg.1, gg.2) ∈ sortedGroups Prim.leB df.rows gb by
          rw [show (gg.1, gg.2) = gg from rfl]; exact hgg)
    exact ⟨gg.1, by rw [← hroweq]; simp [rowGet], pr, hpr, hprk⟩
  cases hrn : cfg.rename_to with
  | none =>
    rw [hrn] at h
    cases h
    exact hsrc
  | some rn =>
    rw [hrn] at h
    cases h
    intro rr hrr
    show ∃ k, rowGet rr gb = some (PV.p k) ∧ _
    obtain ⟨r0, hr0, hreq⟩ := List.mem_map.mp hrr
    obtain ⟨k, hk, pr, hpr, hprk⟩ := hsrc r0 hr0
    refine ⟨k, ?_, pr, hpr, hprk⟩
    rw [← hreq]
    rw [hrows0] at hr0
    obtain ⟨gg, -, hroweq⟩ := List.mem_map.mp hr0
    rw [← hroweq] at hk ⊢
    have hbeq : (gb == agg) = false := by
      simp [hne.symm]
    have hgk : gg.1 = k := by simpa [rowGet] using hk
    simp [List.lookup, rowGet, hbeq, hgk]

/-- The content of every group-and-dict record list: for each output row
of a `groupby(key).apply(lambda x: x[cs].to_dict(records))` aggregation,
the record list is exactly the per-column projection of the source rows
matching the group key, in the source relation's original row order
(`matchRows` is an order-preserving filter). -/
theorem groupRecsPV_content {df : DF PV} {key : String} {cs : List String}
    {outn : String} {g : DF Value}
    (h : groupRecsPV df key cs outn = Except.ok g) (hne : key ≠ outn) :
    ∀ row ∈ g.rows, ∃ k recs, rowGet row key = some (Value.pv k) ∧
      rowGet row outn = some (Value.recs recs) ∧
      mapE (projectRow cs) (matchRows df.rows key k) = Except.ok recs := by
  obtain ⟨-, h2⟩ := groupRecsPV_ok_parts h
  intro row hrow
  obtain ⟨gg, hgg, recs, hinner, hroweq⟩ := forall₂_mem_right h2 hrow
  obtain ⟨-, hmr, -⟩ := mem_sortedGroups_eq
    (show (gg.1, gg.2) ∈ sortedGroups PV.leB df.rows key by
      rw [show (gg.1, gg.2) = gg from rfl]; exact hgg)
  subst hroweq
  refine ⟨gg.1, recs, by simp [rowGet], by simp [rowGet, hne], ?_⟩
  rw [← hmr]
  exact hinner

/-- C7: order preservation.  First part: for a successful
`process_and_merge_data` run, the output has one row per subject row at
the same index (so the relative order of output documents equals the
subject relation's original row order), and every original subject cell
survives unchanged at its row index.  Second part: each aggregated list
of a group-and-list aggregation (this covers the group_and_list
directives and also the rollup's symptom and synonym text lists, which
are produced by the same groupby-apply-list operation) holds exactly the
aggregated-column values of the source rows matching the group key, in
the source relation's original row order (`matchRows` is an
order-preserving filter).  Third part: each record list of a
group-and-dict aggregation holds exactly the projections of the source
rows matching the group key, again in the source relation's original
row order.  All parts are statements about pure functions of the input,
so the pipeline is deterministic by construction. -/
theorem claim_C7_order_preservation :
    (∀ (dfs : RelMap) (phys : DF Prim),
      lookupRel dfs "Physician" = some phys →
      (∀ cfg ∈ getMergeConfig, outNameOf cfg ∉ phys.cols) →
      ∀ out, (processAndMergeData dfs).1 = Except.ok out →
        out.rows.length = phys.rows.length ∧
        ∀ i c v, (phys.rows.get? i).bind (fun r => rowGet r c) = some v →
          (out.rows.get? i).bind (fun r => rowGet r c)
            = some (Value.pv (PV.p v))) ∧
    (∀ (df : DF Prim) (key agg outn : String) (g : DF PV), key ≠ outn →
      groupListPrim df key agg outn = Except.ok g →
      ∀ row ∈ g.rows, ∃ k, rowGet row key = some (PV.p k) ∧
        rowGet row outn = some (PV.plist (colVals agg
          (matchRows df.rows key k)))) ∧
    (∀ (df : DF PV) (key : String) (cs : List String) (outn : String)
      (g : DF Value), key ≠ outn →
      groupRecsPV df key cs outn = Except.ok g →
      ∀ row ∈ g.rows, ∃ k recs, rowGet row key = some (Value.pv k) ∧
        rowGet row outn = some (Value.recs recs) ∧
        mapE (projectRow cs) (matchRows df.rows key k)
          = Except.ok recs) := by
  refine ⟨?_, ?_, ?_⟩
  · intro dfs phys hphys hfresh out hok
    rw [processAndMergeData_eq hphys] at hok
    dsimp only at hok
    cases hres : getMergeConfig.foldl (stepConfig (eraseRel dfs "Physician"))
        (Except.ok (dfPrimToValue phys), []) with
    | mk o ws' =>
      rw [hres] at hok
      obtain ⟨hext, -⟩ := fold_extends (eraseRel dfs "Physician")
        getMergeConfig (dfPrimToValue phys) [] (by decide) (by decide)
        (fun cfg hc => by rw [dfPrimToValue_cols]; exact hfresh cfg hc)
        o ws' hres out hok
      refine ⟨by rw [hext.1, dfPrimToValue_length], ?_⟩
      intro i c v hv
      refine hext.2 i c (Value.pv (PV.p v)) ?_
      rw [dfPrimToValue_cell, hv]
      rfl
  · intro df key agg outn g hne h
    exact groupListPrim_content h hne
  · intro df key cs outn g hne h
    exact groupRecsPV_content h hne

/-- Witness for C7 on the worked examples: document order and cells are
preserved, the aggregated language list of group key 1 is the
row-ordered filter of the language relation, and the insurance record
list of group key 1 is the row-ordered projection of the flat insurance
relation. -/
theorem claim_C7_order_preservation_witness :
    (outW0.rows.length = physW.rows.length ∧
      (outW0.rows.get? 1).bind (fun r => rowGet r "FirstName")
        = some (Value.pv (PV.p (Prim.str "B")))) ∧
    (∃ k, rowGet [("PhysicianId", PV.p (Prim.int 1)),
        ("Language", PV.plist [Prim.str "en", Prim.str "es"])]
        "PhysicianId" = some (PV.p k) ∧
      rowGet [("PhysicianId", PV.p (Prim.int 1)),
        ("Language", PV.plist [Prim.str "en", Prim.str "es"])]
        "Language" = some (PV.plist (colVals "Language"
          (matchRows langW.rows "PhysicianId" k)))) ∧
    (∃ k recs, rowGet
        [("PhysicianId", Value.pv (PV.p (Prim.int 1))),
         ("insurance", Value.recs
           [[("InsuranceId", PV.p (Prim.int 7)),
             ("Name", PV.p (Prim.str "Aetna"))],
            [("InsuranceId", PV.p (Prim.int 8)),
             ("Name", PV.p (Prim.str "Cigna"))]])]
        "PhysicianId" = some (Value.pv k) ∧
      rowGet
        [("PhysicianId", Value.pv (PV.p (Prim.int 1))),
         ("insurance", Value.recs
           [[("InsuranceId", PV.p (Prim.int 7)),
             ("Name", PV.p (Prim.str "Aetna"))],
            [("InsuranceId", PV.p (Prim.int 8)),
             ("Name", PV.p (Prim.str "Cigna"))]])]
        "insurance" = some (Value.recs recs) ∧
      mapE (projectRow ["InsuranceId", "Name"])
        (matchRows (dfPrimToPV insFlatW).rows "PhysicianId" k)
        = Except.ok recs) := by
  have hok : (processAndMergeData dfsW).1 = Except.ok outW0 := by decide
  have h1 := claim_C7_order_preservation.1 dfsW physW (by decide)
    (by decide) outW0 hok
  have h2 := claim_C7_order_preservation.2.1 langW "PhysicianId"
    "Language" "Language" ⟨["PhysicianId", "Language"],
      [[("PhysicianId", PV.p (Prim.int 1)),
        ("Language", PV.plist [Prim.str "en", Prim.str "es"])]]⟩
    (by decide) (by decide)
    [("PhysicianId", PV.p (Prim.int 1)),
     ("Language", PV.plist [Prim.str "en", Prim.str "es"])]
    (by decide)
  have h3 := claim_C7_order_preservation.2.2 (dfPrimToPV insFlatW)
    "PhysicianId" ["InsuranceId", "Name"] "insurance"
    ⟨["PhysicianId", "insurance"],
     [[("PhysicianId", Value.pv (PV.p (Prim.int 1))),
       ("insurance", Value.recs
         [[("InsuranceId", PV.p (Prim.int 7)),
           ("Name", PV.p (Prim.str "Aetna"))],
          [("InsuranceId", PV.p (Prim.int 8)),
           ("Name", PV.p (Prim.str "Cigna"))]])]]⟩
    (by decide) (by decide)
    [("PhysicianId", Value.pv (PV.p (Prim.int 1))),
     ("insurance", Value.recs
       [[("InsuranceId", PV.p (Prim.int 7)),
         ("Name", PV.p (Prim.str "Aetna"))],
        [("InsuranceId", PV.p (Prim.int 8)),
         ("Name", PV.p (Prim.str "Cigna"))]])]
    (by decide)
  exact ⟨⟨h1.1, h1.2 1 "FirstName" (Prim.str "B") (by decide)⟩, h2, h3⟩

/-- C1 counterexample: on a subject relation with two rows and a language
relation matching only the first, the second output document's
aggregated field is an explicit null (pandas NaN serialized as null),
not the empty list the claim asserts: the claim as stated is false. -/
theorem claim_C1_counterexample :
    (processAndMergeData dfsW).1 = Except.ok outW0 ∧
    (outW0.rows.get? 1).bind (fun r => rowGet r "languages")
      = some (Value.pv (PV.p Prim.null)) ∧
    ¬ ((outW0.rows.get? 1).bind (fun r => rowGet r "languages")
      = some (Value.pv (PV.plist []))) ∧
    saveAndFinalize outW0 =
      "\x7b\"PhysicianId\":1,\"FirstName\":\"A\",\"languages\":[\"en\",\"es\"]\x7d\n\x7b\"PhysicianId\":2,\"FirstName\":\"B\",\"languages\":null\x7d" := by
  refine ⟨by decide, by decide, by decide, ?_⟩
  rfl

/-- C1 amended: for every subject row with no matching rows in a
group-and-list directive's primary relation (the primary relation being
present and non-empty), the aggregated field of the output document is
present but null (the pandas left merge fills non-matching rows with
NaN, which serializes as null) — it is never absent, and never the empty
list. -/
theorem claim_C1_amended (physDf : DF Value) (prim : DF Prim)
    (cfg : MergeConfig) (gb agg outn : String) (out : DF Value)
    (hgb : cfg.group_by = some gb)
    (hagg : cfg.agg_col = some agg)
    (hne : agg ≠ gb)
    (houtn : outn = cfg.rename_to.getD agg)
    (hfreshn : outn ∉ physDf.cols)
    (hngb : outn ≠ gb)
    (hmtype : cfg.mtype = "group_and_list")
    (hout : mergeGroupAndList physDf prim cfg = Except.ok out)
    (i : Nat) (lrow : DRow Value)
    (hrow : physDf.rows.get? i = some lrow)
    (hwf : lrow.map Prod.fst = physDf.cols)
    (hnomatch : ∀ rr ∈ prim.rows, ∀ p : Prim, rowGet rr gb = some p →
      rowGet lrow gb ≠ some (Value.pv (PV.p p))) :
    (out.rows.get? i).bind (fun r => rowGet r outn)
      = some (Value.pv (PV.p Prim.null)) := by
  unfold mergeGroupAndList at hout
  obtain ⟨gb0, h1, hout⟩ := bind_ok_inv hout
  have hgb0 : gb = gb0 := by
    have := getKey_some_inv h1
    rw [hgb] at this
    exact Option.some.inj this
  subst hgb0
  obtain ⟨grouped, hgr, hout⟩ := bind_ok_inv hout
  obtain ⟨hgc, hgnd⟩ := mergeGroupAndListGrouped_facts hgr hgb hmtype
    (by rw [hgb, hagg]; intro hc; exact hne (Option.some.inj hc).symm)
  have houtn2 : outNameOf cfg = outn := by
    unfold outNameOf
    rw [if_pos hmtype, houtn, hagg]
    rfl
  rw [houtn2] at hgc
  have hsrc := mergeGroupAndListGrouped_key_source hgr hgb hagg hne
  obtain ⟨hk1, hk2⟩ := mergeLeft_ok_inv hout
  have hov : noColOverlap physDf (dfPVToValue grouped) gb := by
    intro c hc
    by_cases hck : c = gb
    · exact Or.inl hck
    · right
      rw [dfPVToValue_cols, hgc]
      intro hmem
      rcases List.mem_cons.mp hmem with hh | hh
      · exact hck hh
      · rw [List.mem_singleton] at hh
        rw [hh] at hc
        exact hfreshn hc
  rw [mergeLeft_eq_of_noOverlap physDf (dfPVToValue grouped) gb hk1 hk2
    hov (rKeys_dfPVToValue_nodup hgnd)] at hout
  have hmid : out = ⟨physDf.cols
        ++ (dfPVToValue grouped).cols.filter (fun c => c ≠ gb),
      physDf.rows.map (mergeRowNoOv (dfPVToValue grouped) gb)⟩ := by
    cases hout; rfl
  subst hmid
  dsimp only
  rw [List.get?_map, hrow]
  show rowGet (mergeRowNoOv (dfPVToValue grouped) gb lrow) outn
    = some (Value.pv (PV.p Prim.null))
  have hms : (dfPVToValue grouped).rows.filter
      (fun rr => rowGet rr gb = rowGet lrow gb) = [] := by
    rw [List.filter_eq_nil_iff]
    intro rr hrr
    simp only [decide_eq_true_eq]
    intro hceq
    unfold dfPVToValue at hrr
    simp only [List.mem_map] at hrr
    obtain ⟨rr0, hrr0, hrreq⟩ := hrr
    obtain ⟨k, hkval, pr, hpr, hprk⟩ := hsrc rr0 hrr0
    have : rowGet rr gb = some (Value.pv (PV.p k)) := by
      rw [← hrreq, rowGet_map_snd, hkval]
      rfl
    rw [this] at hceq
    exact hnomatch pr hpr k hprk hceq.symm
  have hlnone : rowGet lrow outn = none := by
    refine rowGet_eq_none_of_not_mem ?_
    rw [hwf]
    exact hfreshn
  refine mergeRowNoOv_nomatch (dfPVToValue grouped) gb hms hlnone ?_ hngb
  rw [dfPVToValue_cols, hgc]
  exact List.mem_cons_of_mem _ (List.mem_singleton.mpr rfl)

/-- Witness for the amended C1 on the worked example (subject row 2 has
no language rows). -/
theorem claim_C1_amended_witness :
    ((⟨["PhysicianId", "FirstName", "languages"],
      [[("PhysicianId", Value.pv (PV.p (Prim.int 1))),
        ("FirstName", Value.pv (PV.p (Prim.str "A"))),
        ("languages",
         Value.pv (PV.plist [Prim.str "en", Prim.str "es"]))],
       [("PhysicianId", Value.pv (PV.p (Prim.int 2))),
        ("FirstName", Value.pv (PV.p (Prim.str "B"))),
        ("languages", Value.pv (PV.p Prim.null))]]⟩ :
        DF Value).rows.get? 1).bind (fun r => rowGet r "languages")
      = some (Value.pv (PV.p Prim.null)) :=
  claim_C1_amended (dfPrimToValue physW) langW
    { name := "Languages", primary_df_key := some "PhysicianLanguage",
      mtype := "group_and_list", group_by := some "PhysicianId",
      agg_col := some "Language", rename_to := some "languages" }
    "PhysicianId" "Language" "languages"
    ⟨["PhysicianId", "FirstName", "languages"],
     [[("PhysicianId", Value.pv (PV.p (Prim.int 1))),
       ("FirstName", Value.pv (PV.p (Prim.str "A"))),
       ("languages", Value.pv (PV.plist [Prim.str "en", Prim.str "es"]))],
      [("PhysicianId", Value.pv (PV.p (Prim.int 2))),
       ("FirstName", Value.pv (PV.p (Prim.str "B"))),
       ("languages", Value.pv (PV.p Prim.null))]]⟩
    rfl rfl (by decide) rfl
    (by decide) (by decide) rfl rfl 1
    [("PhysicianId", Value.pv (PV.p (Prim.int 2))),
     ("FirstName", Value.pv (PV.p (Prim.str "B")))]
    (by decide) (by decide) (by decide)

/-- C6: the shape of group-and-dict records.  With a configured and
present secondary relation, every record of every per-group record list
has as keys exactly the columns of the secondary relation after its key
column (`right_on`) has been renamed to the primary's foreign-key column
(`left_on`).  With no secondary relation configured, the record keys are
exactly the directive's configured `dict_cols`. -/
theorem claim_C6_record_keys :
    (∀ (df : DF Prim) (dfs : RelMap) (cfg : MergeConfig) (s : String)
      (sec : DF Prim) (lo ro : String) (g : DF Value),
      cfg.secondary_df_key = some s → lookupRel dfs s = some sec →
      cfg.left_on = some lo → cfg.right_on = some ro →
      mergeGroupAndDictGrouped df dfs cfg = Except.ok g →
      ∀ row ∈ g.rows, ∀ c lrecs,
        rowGet row c = some (Value.recs lrecs) →
        ∀ rec ∈ lrecs, rec.map Prod.fst
          = (renameCols [(ro, lo)] sec).cols) ∧
    (∀ (df : DF Prim) (dfs : RelMap) (cfg : MergeConfig)
      (cs : List String) (g : DF Value),
      cfg.secondary_df_key = none → cfg.dict_cols = some cs →
      mergeGroupAndDictGrouped df dfs cfg = Except.ok g →
      ∀ row ∈ g.rows, ∀ c lrecs,
        rowGet row c = some (Value.recs lrecs) →
        ∀ rec ∈ lrecs, rec.map Prod.fst = cs) := by
  constructor
  · intro df dfs cfg s sec lo ro g hs hlook hlo hro h
    unfold mergeGroupAndDictGrouped at h
    rw [show cfg.secondary_df_key.bind (fun s => lookupRel dfs s)
        = some sec from by rw [hs]; exact hlook] at h
    obtain ⟨lo0, h1, h⟩ := bind_ok_inv h
    have hlo0 : lo = lo0 := by
      have := getKey_some_inv h1
      rw [hlo] at this
      exact Option.some.inj this
    subst hlo0
    obtain ⟨ro0, h2, h⟩ := bind_ok_inv h
    have hro0 : ro = ro0 := by
      have := getKey_some_inv h2
      rw [hro] at this
      exact Option.some.inj this
    subst hro0
    obtain ⟨merged, hml, h⟩ := bind_ok_inv h
    obtain ⟨gb, h3, h⟩ := bind_ok_inv h
    obtain ⟨rn, h4, h⟩ := bind_ok_inv h
    exact groupRecsPV_rec_keys h
  · intro df dfs cfg cs g hs hdc h
    unfold mergeGroupAndDictGrouped at h
    rw [show cfg.secondary_df_key.bind (fun s => lookupRel dfs s)
        = none from by rw [hs]; rfl] at h
    obtain ⟨cs0, h1, h⟩ := bind_ok_inv h
    have hcs0 : cs = cs0 := by
      have := getKey_some_inv h1
      rw [hdc] at this
      exact Option.some.inj this
    subst hcs0
    obtain ⟨gb, h2, h⟩ := bind_ok_inv h
    obtain ⟨rn, h3, h⟩ := bind_ok_inv h
    exact groupRecsPV_rec_keys h

/-- Witness for C6: the Insurance record keys are the renamed secondary
schema, the Education record keys are the configured dict_cols. -/
theorem claim_C6_record_keys_witness :
    ([("InsuranceId", PV.p (Prim.int 7)),
      ("Name", PV.p (Prim.str "Acme"))].map Prod.fst
      = (renameCols [("Id", "InsuranceId")] insW).cols) ∧
    ([("School", PV.p (Prim.str "Yale")), ("SchoolType", PV.p (Prim.str "U")),
      ("Degree", PV.p (Prim.str "MD")),
      ("AreaOfStudy", PV.p (Prim.str "Medicine"))].map Prod.fst
      = ["School", "SchoolType", "Degree", "AreaOfStudy"]) := by
  constructor
  · refine claim_C6_record_keys.1 physInsW [("Insurance", insW)]
      { name := "Insurance", primary_df_key := some "PhysicianInsurance",
        secondary_df_key := some "Insurance", mtype := "group_and_dict",
        left_on := some "InsuranceId", right_on := some "Id",
        group_by := some "PhysicianId",
        dict_cols := some ["InsuranceId", "Name"],
        rename_to := some "insurance" }
      "Insurance" insW "InsuranceId" "Id"
      ⟨["PhysicianId", "insurance"],
       [[("PhysicianId", Value.pv (PV.p (Prim.int 1))),
         ("insurance", Value.recs
           [[("InsuranceId", PV.p (Prim.int 7)),
             ("Name", PV.p (Prim.str "Acme"))]])]]⟩
      rfl rfl rfl rfl (by decide)
      [("PhysicianId", Value.pv (PV.p (Prim.int 1))),
       ("insurance", Value.recs
         [[("InsuranceId", PV.p (Prim.int 7)),
           ("Name", PV.p (Prim.str "Acme"))]])]
      (by decide) "insurance"
      [[("InsuranceId", PV.p (Prim.int 7)),
        ("Name", PV.p (Prim.str "Acme"))]]
      (by decide)
      [("InsuranceId", PV.p (Prim.int 7)), ("Name", PV.p (Prim.str "Acme"))]
      (by decide)
  · refine claim_C6_record_keys.2 eduW []
      { name := "Education", primary_df_key := some "PhysicianEducation",
        mtype := "group_and_dict", group_by := some "PhysicianId",
        dict_cols := some ["School", "SchoolType", "Degree", "AreaOfStudy"],
        rename_to := some "education" }
      ["School", "SchoolType", "Degree", "AreaOfStudy"]
      ⟨["PhysicianId", "education"],
       [[("PhysicianId", Value.pv (PV.p (Prim.int 1))),
         ("education", Value.recs
           [[("School", PV.p (Prim.str "Yale")),
             ("SchoolType", PV.p (Prim.str "U")),
             ("Degree", PV.p (Prim.str "MD")),
             ("AreaOfStudy", PV.p (Prim.str "Medicine"))]])]]⟩
      rfl rfl (by decide)
      [("PhysicianId", Value.pv (PV.p (Prim.int 1))),
       ("education", Value.recs
         [[("School", PV.p (Prim.str "Yale")),
           ("SchoolType", PV.p (Prim.str "U")),
           ("Degree", PV.p (Prim.str "MD")),
           ("AreaOfStudy", PV.p (Prim.str "Medicine"))]])]
      (by decide) "education"
      [[("School", PV.p (Prim.str "Yale")),
        ("SchoolType", PV.p (Prim.str "U")),
        ("Degree", PV.p (Prim.str "MD")),
        ("AreaOfStudy", PV.p (Prim.str "Medicine"))]]
      (by decide)
      [("School", PV.p (Prim.str "Yale")), ("SchoolType", PV.p (Prim.str "U")),
       ("Degree", PV.p (Prim.str "MD")),
       ("AreaOfStudy", PV.p (Prim.str "Medicine"))]
      (by decide)

/-- A column a `mapCol` does not touch reads the same in the output as in
the input, row by row. -/
theorem bind_rowGet_mapCol {α : Type} {c : String} {f : α → α}
    {df out : DF α} (h : mapCol c f df = Except.ok out) {d : String}
    (hd : d ≠ c) (i : Nat) :
    (out.rows.get? i).bind (fun rr => rowGet rr d)
      = (df.rows.get? i).bind (fun rr => rowGet rr d) := by
  rw [mapCol_ok h]
  dsimp only
  rw [List.get?_map]
  cases df.rows.get? i with
  | none => rfl
  | some r =>
    dsimp only [Option.map, Option.bind]
    rw [rowGet_mapRow, if_neg hd]

/-- The data of `String.intercalate.go` extends the accumulator. -/
theorem interGo_data (s : String) : ∀ (l : List String) (acc : String),
    ∃ t, (String.intercalate.go acc s l).data = acc.data ++ t := by
  intro l
  induction l with
  | nil =>
    intro acc
    exact ⟨[], by simp [String.intercalate.go]⟩
  | cons a as ih =>
    intro acc
    obtain ⟨t, ht⟩ := ih (acc ++ s ++ a)
    refine ⟨s.data ++ a.data ++ t, ?_⟩
    rw [show String.intercalate.go acc s (a :: as)
      = String.intercalate.go (acc ++ s ++ a) s as from rfl, ht]
    simp [String.data_append]

/-- The data of a nonempty intercalation starts with the first piece. -/
theorem intercalate_data_cons (s m : String) (ms : List String) :
    ∃ t, (String.intercalate s (m :: ms)).data = m.data ++ t := by
  rw [show String.intercalate s (m :: ms)
    = String.intercalate.go m s ms from rfl]
  exact interGo_data s ms m

/-- Python repr of a nonempty dict starts with a brace and then a single
quote. -/
theorem pyReprRec_first_chars (k : String) (v : PV) (t : Rec) :
    ∃ rest, (pyReprRec ((k, v) :: t)).data
      = Char.ofNat 123 :: sq :: rest := by
  unfold pyReprRec
  rw [List.map_cons]
  obtain ⟨tl, htl⟩ := intercalate_data_cons ", "
    (String.singleton sq ++ k ++ String.singleton sq ++ ": " ++ pyReprPV v)
    (t.map (fun cv =>
      String.singleton sq ++ cv.1 ++ String.singleton sq ++ ": " ++
        pyReprPV cv.2))
  refine ⟨(k.data ++ [sq] ++ (": ").data ++ (pyReprPV v).data ++ tl)
    ++ [Char.ofNat 125], ?_⟩
  simp only [String.data_append, htl]
  simp [String.singleton, String.data_append]

/-- `json.dumps` of a nonempty dict starts with a brace and then a double
quote. -/
theorem jsonDumpsRec_first_chars (k : String) (v : PV) (t : Rec) :
    ∃ rest, (jsonDumpsRec ((k, v) :: t)).data
      = Char.ofNat 123 :: dq :: rest := by
  unfold jsonDumpsRec
  rw [List.map_cons]
  obtain ⟨tl, htl⟩ := intercalate_data_cons ", "
    (jsonStr k ++ ": " ++ jsonPV v)
    (t.map (fun cv => jsonStr cv.1 ++ ": " ++ jsonPV cv.2))
  refine ⟨((jsonEscape k).data ++ [dq] ++ (": ").data
    ++ (jsonPV v).data ++ tl) ++ [Char.ofNat 125], ?_⟩
  simp only [String.data_append, htl]
  simp [jsonStr, String.singleton, String.data_append]

/-- C2: parent-name resolution in the specialty rollup.  For every rollup
row whose ParentSpecialty key matches no Id of the rollup relation, the
ParentSpecialtyName field of the corresponding output row is exactly the
empty string (the left self-join leaves NaN, which the fillna replaces
with ""); for every row whose ParentSpecialty matches an existing rollup
row (rollup Ids being unique), the field equals that parent row's
Specialty display-name value exactly. -/
theorem claim_C2_parent_name
    (dfRollup dfSpecialties dfSymptoms dfSynonyms : DF Prim) (out : DF PV)
    (hwfR : WF dfRollup)
    (hwfS : WF dfSpecialties)
    (hcId : "Id" ∈ dfRollup.cols)
    (hcSp : "Specialty" ∈ dfRollup.cols)
    (hcPs : "ParentSpecialty" ∈ dfRollup.cols)
    (hndId : (dfRollup.rows.map (fun r => rowGet r "Id")).Nodup)
    (hndSpec : (rKeys (renameCols [("Id", "SpecialtyId"),
      ("Name", "CanonicalSpecialtyName")] dfSpecialties)
      "SpecialtyId").Nodup)
    (hov : noColOverlap dfRollup (renameCols [("Id", "SpecialtyId"),
      ("Name", "CanonicalSpecialtyName")] dfSpecialties) "SpecialtyId")
    (hPSNr : "ParentSpecialtyName" ∉ dfRollup.cols)
    (hPSNs : "ParentSpecialtyName" ∉ (renameCols [("Id", "SpecialtyId"),
      ("Name", "CanonicalSpecialtyName")] dfSpecialties).cols)
    (hSymR : "SymptomText" ∉ dfRollup.cols)
    (hSymS : "SymptomText" ∉ (renameCols [("Id", "SpecialtyId"),
      ("Name", "CanonicalSpecialtyName")] dfSpecialties).cols)
    (hSynR : "SynonymText" ∉ dfRollup.cols)
    (hSynS : "SynonymText" ∉ (renameCols [("Id", "SpecialtyId"),
      ("Name", "CanonicalSpecialtyName")] dfSpecialties).cols)
    (hok : rollupProcess dfRollup dfSpecialties dfSymptoms dfSynonyms
      = Except.ok out) :
    ∀ i r, dfRollup.rows.get? i = some r →
      ∀ p, rowGet r "ParentSpecialty" = some p →
      ((∀ r2 ∈ dfRollup.rows, rowGet r2 "Id" ≠ some p) →
        (out.rows.get? i).bind (fun rr => rowGet rr "ParentSpecialtyName")
          = some (PV.p (Prim.str ""))) ∧
      (∀ r2 ∈ dfRollup.rows, rowGet r2 "Id" = some p →
        ∀ s, rowGet r2 "Specialty" = some (Prim.str s) →
        (out.rows.get? i).bind (fun rr => rowGet rr "ParentSpecialtyName")
          = some (PV.p (Prim.str s))) := by
  unfold rollupProcess at hok
  dsimp only at hok
  obtain ⟨dfMerged, hm1, ho1⟩ := bind_ok_inv hok
  obtain ⟨parentSel, hps, ho2⟩ := bind_ok_inv ho1
  obtain ⟨dfRolledUp0, hm2, ho3⟩ := bind_ok_inv ho2
  obtain ⟨dfRolledUp, hfill, ho4⟩ := bind_ok_inv ho3
  obtain ⟨symAgg, hsym, ho5⟩ := bind_ok_inv ho4
  obtain ⟨synAgg, hsyn, ho6⟩ := bind_ok_inv ho5
  obtain ⟨dfFinal0, hm3, ho7⟩ := bind_ok_inv ho6
  obtain ⟨dfFinal1, hm4, ho8⟩ := bind_ok_inv ho7
  obtain ⟨dfFinal2, hfill2, hlast⟩ := bind_ok_inv ho8
  clear hok ho1 ho2 ho3 ho4 ho5 ho6 ho7 ho8
  -- stage 1: the canonical-name merge
  obtain ⟨hk1l, hk1r⟩ := mergeLeft_ok_inv hm1
  rw [mergeLeft_eq_of_noOverlap dfRollup _ "SpecialtyId" hk1l hk1r hov
    hndSpec] at hm1
  have hMergedEq := (Except.ok.inj hm1).symm
  subst hMergedEq
  -- stage 2 preparation: the parent-lookup frame
  have hselEq := selectCols_ok hps
  subst hselEq
  have hplRows : (renameCols [("Id", "ParentSpecialty"),
      ("Specialty", "ParentSpecialtyName")]
      (⟨["Id", "Specialty"], dfRollup.rows.map
        (fun r => ["Id", "Specialty"].filterMap
          (fun c => (rowGet r c).map (fun v => (c, v))))⟩ : DF Prim)).rows
      = dfRollup.rows.map (fun r =>
        (["Id", "Specialty"].filterMap
          (fun c => (rowGet r c).map (fun v => (c, v)))).map
          (fun cv => (((([("Id", "ParentSpecialty"),
            ("Specialty", "ParentSpecialtyName")] :
              List (String × String)).lookup cv.1).getD cv.1), cv.2))) := by
    dsimp only [renameCols]
    rw [List.map_map]
    rfl
  have hplRowForm : ∀ r2 ∈ dfRollup.rows, ∃ a b,
      rowGet r2 "Id" = some a ∧ rowGet r2 "Specialty" = some b ∧
      (["Id", "Specialty"].filterMap
        (fun c => (rowGet r2 c).map (fun v => (c, v)))).map
        (fun cv => (((([("Id", "ParentSpecialty"),
          ("Specialty", "ParentSpecialtyName")] :
            List (String × String)).lookup cv.1).getD cv.1), cv.2))
      = [("ParentSpecialty", a), ("ParentSpecialtyName", b)] := by
    intro r2 hr2
    obtain ⟨a, ha⟩ := rowGet_isSome_of_mem
      (show "Id" ∈ r2.map Prod.fst by rw [hwfR r2 hr2]; exact hcId)
    obtain ⟨b, hb⟩ := rowGet_isSome_of_mem
      (show "Specialty" ∈ r2.map Prod.fst by rw [hwfR r2 hr2]; exact hcSp)
    refine ⟨a, b, ha, hb, ?_⟩
    simp [ha, hb, List.lookup]
  obtain ⟨hk2l, hk2r⟩ := mergeLeft_ok_inv hm2
  have hplKeys : rKeys (renameCols [("Id", "ParentSpecialty"),
      ("Specialty", "ParentSpecialtyName")]
      (⟨["Id", "Specialty"], dfRollup.rows.map
        (fun r => ["Id", "Specialty"].filterMap
          (fun c => (rowGet r c).map (fun v => (c, v))))⟩ : DF Prim))
      "ParentSpecialty" = dfRollup.rows.map (fun r => rowGet r "Id") := by
    dsimp only [rKeys]
    rw [hplRows, List.map_map]
    refine List.map_congr_left ?_
    intro r2 hr2
    obtain ⟨a, b, ha, hb, heq⟩ := hplRowForm r2 hr2
    simp only [Function.comp_apply, heq]
    simp [rowGet, ha]
  have hplNd : (rKeys (renameCols [("Id", "ParentSpecialty"),
      ("Specialty", "ParentSpecialtyName")]
      (⟨["Id", "Specialty"], dfRollup.rows.map
        (fun r => ["Id", "Specialty"].filterMap
          (fun c => (rowGet r c).map (fun v => (c, v))))⟩ : DF Prim))
      "ParentSpecialty").Nodup := by
    rw [hplKeys]; exact hndId
  rw [mergeLeft_eq_of_noOverlap _ _ "ParentSpecialty" hk2l hk2r
    (by
      intro c hc
      by_cases hck : c = "ParentSpecialty"
      · exact Or.inl hck
      · right
        intro hmem
        have hmem2 : c ∈ ["ParentSpecialty", "ParentSpecialtyName"] := hmem
        rcases List.mem_cons.mp hmem2 with hh | hh
        · exact hck hh
        · rw [List.mem_singleton] at hh
          subst hh
          rcases List.mem_append.mp hc with hr | hr
          · exact hPSNr hr
          · exact hPSNs (List.mem_of_mem_filter hr))
    hplNd] at hm2
  have hRolled0Eq := (Except.ok.inj hm2).symm
  subst hRolled0Eq
  have hfillEq := mapCol_ok hfill
  subst hfillEq
  -- stage 3 and 4: symptom and synonym merges do not touch the field
  obtain ⟨hsymc, -⟩ := groupListPrim_ok_parts hsym
  obtain ⟨hsync, -⟩ := groupListPrim_ok_parts hsyn
  have hcols2mem : ∀ c, c ∈ (dfRollup.cols
      ++ (renameCols [("Id", "SpecialtyId"),
        ("Name", "CanonicalSpecialtyName")] dfSpecialties).cols.filter
          (fun d => d ≠ "SpecialtyId")) ++ ["ParentSpecialtyName"] →
      c ≠ "SymptomText" ∧ c ≠ "SynonymText" := by
    intro c hc
    rcases List.mem_append.mp hc with hr | hr
    · rcases List.mem_append.mp hr with h2 | h2
      · exact ⟨fun he => hSymR (he ▸ h2), fun he => hSynR (he ▸ h2)⟩
      · have h3 := List.mem_of_mem_filter h2
        exact ⟨fun he => hSymS (he ▸ h3), fun he => hSynS (he ▸ h3)⟩
    · rw [List.mem_singleton] at hr
      subst hr
      exact ⟨by decide, by decide⟩
  obtain ⟨hk3l, hk3r⟩ := mergeLeft_ok_inv hm3
  rw [mergeLeft_eq_of_noOverlap _ _ "SpecialtyId" hk3l hk3r
    (by
      intro c hc
      by_cases hck : c = "SpecialtyId"
      · exact Or.inl hck
      · right
        rw [hsymc]
        intro hmem
        rcases List.mem_cons.mp hmem with hh | hh
        · exact hck hh
        · rw [List.mem_singleton] at hh
          subst hh
          exact (hcols2mem _ hc).1 rfl)
    (groupListPrim_rKeys_nodup hsym)] at hm3
  have hFinal0Eq := (Except.ok.inj hm3).symm
  subst hFinal0Eq
  obtain ⟨hk4l, hk4r⟩ := mergeLeft_ok_inv hm4
  rw [mergeLeft_eq_of_noOverlap _ _ "SpecialtyId" hk4l hk4r
    (by
      intro c hc
      by_cases hck : c = "SpecialtyId"
      · exact Or.inl hck
      · right
        rw [hsync]
        intro hmem
        rcases List.mem_cons.mp hmem with hh | hh
        · exact hck hh
        · rw [List.mem_singleton] at hh
          subst hh
          rcases List.mem_append.mp hc with hr | hr
          · exact (hcols2mem _ hr).2 rfl
          · have h3 := List.mem_of_mem_filter hr
            rw [hsymc] at h3
            exact absurd h3 (by decide))
    (groupListPrim_rKeys_nodup hsyn)] at hm4
  have hFinal1Eq := (Except.ok.inj hm4).symm
  subst hFinal1Eq
  -- compute the field of output row i
  intro i r hri p hp
  have hrmem : r ∈ dfRollup.rows := List.get?_mem hri
  have hr1P : rowGet (mergeRowNoOv (renameCols [("Id", "SpecialtyId"),
      ("Name", "CanonicalSpecialtyName")] dfSpecialties) "SpecialtyId" r)
      "ParentSpecialty" = some p :=
    mergeRowNoOv_preserves _ _ hp
  have hr1PSN : rowGet (mergeRowNoOv (renameCols [("Id", "SpecialtyId"),
      ("Name", "CanonicalSpecialtyName")] dfSpecialties) "SpecialtyId" r)
      "ParentSpecialtyName" = none := by
    refine mergeRowNoOv_none _ _ ?_ hPSNs (by decide) ?_
    · exact rowGet_eq_none_of_not_mem (by rw [hwfR r hrmem]; exact hPSNr)
    · intro m hm
      exact rowGet_eq_none_of_not_mem
        (by rw [renameCols_WF _ hwfS m hm]; exact hPSNs)
  constructor
  · -- no matching parent: the field is filled to the empty string
    intro hnone
    have hms : (renameCols [("Id", "ParentSpecialty"),
        ("Specialty", "ParentSpecialtyName")]
        (⟨["Id", "Specialty"], dfRollup.rows.map
          (fun rr => ["Id", "Specialty"].filterMap
            (fun c => (rowGet rr c).map (fun v => (c, v))))⟩ :
              DF Prim)).rows.filter
        (fun rr => rowGet rr "ParentSpecialty" =
          rowGet (mergeRowNoOv (renameCols [("Id", "SpecialtyId"),
            ("Name", "CanonicalSpecialtyName")] dfSpecialties)
            "SpecialtyId" r) "ParentSpecialty") = [] := by
      rw [List.filter_eq_nil_iff]
      intro m hmem
      rw [hplRows] at hmem
      obtain ⟨r2, hr2, hmeq⟩ := List.mem_map.mp hmem
      obtain ⟨a, b, ha, hb, heq⟩ := hplRowForm r2 hr2
      rw [heq] at hmeq
      simp only [decide_eq_true_eq]
      rw [← hmeq, hr1P]
      rw [show rowGet [("ParentSpecialty", a), ("ParentSpecialtyName", b)]
        "ParentSpecialty" = some a by simp [rowGet]]
      intro hcon
      have haeq : a = p := Option.some.inj hcon
      subst haeq
      exact hnone r2 hr2 ha
    have hr2PSN : rowGet (mergeRowNoOv (renameCols
        [("Id", "ParentSpecialty"), ("Specialty", "ParentSpecialtyName")]
        (⟨["Id", "Specialty"], dfRollup.rows.map
          (fun rr => ["Id", "Specialty"].filterMap
            (fun c => (rowGet rr c).map (fun v => (c, v))))⟩ : DF Prim))
        "ParentSpecialty"
        (mergeRowNoOv (renameCols [("Id", "SpecialtyId"),
          ("Name", "CanonicalSpecialtyName")] dfSpecialties)
          "SpecialtyId" r)) "ParentSpecialtyName"
        = some Prim.null := by
      exact mergeRowNoOv_nomatch _ _ hms hr1PSN
        (by exact List.mem_cons_of_mem _ (List.mem_cons_self _ _))
        (by decide)
    rw [bind_rowGet_mapCol hlast (by decide),
      bind_rowGet_mapCol hfill2 (by decide)]
    dsimp only [dfPrimToPV]
    simp only [List.get?_map]
    rw [hri]
    dsimp only [Option.map, Option.bind]
    have h5 := mergeRowNoOv_preserves synAgg "SpecialtyId"
      (mergeRowNoOv_preserves symAgg "SpecialtyId"
        (show rowGet (List.map (fun cv => (cv.1, PV.p cv.2))
            (List.map (fun cv => if cv.1 = "ParentSpecialtyName" then
                (cv.1, if cv.2 = Prim.null then Prim.str "" else cv.2)
                else cv)
              (mergeRowNoOv (renameCols [("Id", "ParentSpecialty"),
                ("Specialty", "ParentSpecialtyName")]
                (⟨["Id", "Specialty"], dfRollup.rows.map
                  (fun rr => ["Id", "Specialty"].filterMap
                    (fun c => (rowGet rr c).map (fun v => (c, v))))⟩ :
                      DF Prim)) "ParentSpecialty"
                (mergeRowNoOv (renameCols [("Id", "SpecialtyId"),
                  ("Name", "CanonicalSpecialtyName")] dfSpecialties)
                  "SpecialtyId" r)))) "ParentSpecialtyName"
            = some (PV.p (Prim.str "")) by
          rw [rowGet_map_snd,
            rowGet_mapRow "ParentSpecialtyName" "ParentSpecialtyName"
              (fun v => if v = Prim.null then Prim.str "" else v),
            if_pos rfl, hr2PSN]
          rfl))
    exact h5
  · -- existing parent: the field is the parent's display name
    intro r2 hr2 hid s hsp
    obtain ⟨a2, b2, ha2, hb2, heq2⟩ := hplRowForm r2 hr2
    have ha2p : a2 = p := by
      rw [ha2] at hid
      exact Option.some.inj hid
    subst ha2p
    have hb2s : b2 = Prim.str s := by
      rw [hb2] at hsp
      exact Option.some.inj hsp
    subst hb2s
    have hplmem : ([("ParentSpecialty", a2), ("ParentSpecialtyName",
        Prim.str s)] : DRow Prim) ∈ (renameCols [("Id", "ParentSpecialty"),
        ("Specialty", "ParentSpecialtyName")]
        (⟨["Id", "Specialty"], dfRollup.rows.map
          (fun rr => ["Id", "Specialty"].filterMap
            (fun c => (rowGet rr c).map (fun v => (c, v))))⟩ :
              DF Prim)).rows := by
      rw [hplRows]
      rw [← heq2]
      exact List.mem_map_of_mem _ hr2
    have hmsne : ([("ParentSpecialty", a2), ("ParentSpecialtyName",
        Prim.str s)] : DRow Prim) ∈ (renameCols [("Id", "ParentSpecialty"),
        ("Specialty", "ParentSpecialtyName")]
        (⟨["Id", "Specialty"], dfRollup.rows.map
          (fun rr => ["Id", "Specialty"].filterMap
            (fun c => (rowGet rr c).map (fun v => (c, v))))⟩ :
              DF Prim)).rows.filter
        (fun rr => rowGet rr "ParentSpecialty" =
          rowGet (mergeRowNoOv (renameCols [("Id", "SpecialtyId"),
            ("Name", "CanonicalSpecialtyName")] dfSpecialties)
            "SpecialtyId" r) "ParentSpecialty") := by
      rw [List.mem_filter]
      refine ⟨hplmem, ?_⟩
      rw [hr1P]
      simp [rowGet]
    cases hms : (renameCols [("Id", "ParentSpecialty"),
        ("Specialty", "ParentSpecialtyName")]
        (⟨["Id", "Specialty"], dfRollup.rows.map
          (fun rr => ["Id", "Specialty"].filterMap
            (fun c => (rowGet rr c).map (fun v => (c, v))))⟩ :
              DF Prim)).rows.filter
        (fun rr => rowGet rr "ParentSpecialty" =
          rowGet (mergeRowNoOv (renameCols [("Id", "SpecialtyId"),
            ("Name", "CanonicalSpecialtyName")] dfSpecialties)
            "SpecialtyId" r) "ParentSpecialty") with
    | nil =>
      rw [hms] at hmsne
      cases hmsne
    | cons m rest =>
      have hmmem : m ∈ (renameCols [("Id", "ParentSpecialty"),
          ("Specialty", "ParentSpecialtyName")]
          (⟨["Id", "Specialty"], dfRollup.rows.map
            (fun rr => ["Id", "Specialty"].filterMap
              (fun c => (rowGet rr c).map (fun v => (c, v))))⟩ :
                DF Prim)).rows.filter
          (fun rr => rowGet rr "ParentSpecialty" =
            rowGet (mergeRowNoOv (renameCols [("Id", "SpecialtyId"),
              ("Name", "CanonicalSpecialtyName")] dfSpecialties)
              "SpecialtyId" r) "ParentSpecialty") := by
        rw [hms]
        exact List.mem_cons_self _ _
      rw [List.mem_filter] at hmmem
      obtain ⟨hmrows, hmkey⟩ := hmmem
      rw [hplRows] at hmrows
      obtain ⟨r3, hr3, hmeq3⟩ := List.mem_map.mp hmrows
      obtain ⟨a3, b3, ha3, hb3, heq3⟩ := hplRowForm r3 hr3
      rw [heq3] at hmeq3
      have ha3p : a3 = a2 := by
        rw [← hmeq3] at hmkey
        simp only [decide_eq_true_eq] at hmkey
        rw [hr1P] at hmkey
        rw [show rowGet [("ParentSpecialty", a3), ("ParentSpecialtyName",
          b3)] "ParentSpecialty" = some a3 by simp [rowGet]] at hmkey
        exact Option.some.inj hmkey
      subst ha3p
      have hr32 : r3 = r2 :=
        map_nodup_inj_on hndId hr3 hr2 (by rw [ha3, ha2])
      subst hr32
      have hb32 : b3 = Prim.str s := by
        rw [hb3] at hb2
        exact Option.some.inj hb2
      subst hb32
      have hr2PSN : rowGet (mergeRowNoOv (renameCols
          [("Id", "ParentSpecialty"), ("Specialty", "ParentSpecialtyName")]
          (⟨["Id", "Specialty"], dfRollup.rows.map
            (fun rr => ["Id", "Specialty"].filterMap
              (fun c => (rowGet rr c).map (fun v => (c, v))))⟩ : DF Prim))
          "ParentSpecialty"
          (mergeRowNoOv (renameCols [("Id", "SpecialtyId"),
            ("Name", "CanonicalSpecialtyName")] dfSpecialties)
            "SpecialtyId" r)) "ParentSpecialtyName"
          = some (Prim.str s) := by
        rw [mergeRowNoOv_match _ _ hms hr1PSN (by decide), ← hmeq3]
        simp [rowGet]
      rw [bind_rowGet_mapCol hlast (by decide),
        bind_rowGet_mapCol hfill2 (by decide)]
      dsimp only [dfPrimToPV]
      simp only [List.get?_map]
      rw [hri]
      dsimp only [Option.map, Option.bind]
      have h5 := mergeRowNoOv_preserves synAgg "SpecialtyId"
        (mergeRowNoOv_preserves symAgg "SpecialtyId"
          (show rowGet (List.map (fun cv => (cv.1, PV.p cv.2))
              (List.map (fun cv => if cv.1 = "ParentSpecialtyName" then
                  (cv.1, if cv.2 = Prim.null then Prim.str "" else cv.2)
                  else cv)
                (mergeRowNoOv (renameCols [("Id", "ParentSpecialty"),
                  ("Specialty", "ParentSpecialtyName")]
                  (⟨["Id", "Specialty"], dfRollup.rows.map
                    (fun rr => ["Id", "Specialty"].filterMap
                      (fun c => (rowGet rr c).map (fun v => (c, v))))⟩ :
                        DF Prim)) "ParentSpecialty"
                  (mergeRowNoOv (renameCols [("Id", "SpecialtyId"),
                    ("Name", "CanonicalSpecialtyName")] dfSpecialties)
                    "SpecialtyId" r)))) "ParentSpecialtyName"
              = some (PV.p (Prim.str s)) by
            rw [rowGet_map_snd,
              rowGet_mapRow "ParentSpecialtyName" "ParentSpecialtyName"
                (fun v => if v = Prim.null then Prim.str "" else v),
              if_pos rfl, hr2PSN]
            rfl))
      exact h5

theorem claim_C2_parent_name_witness :
    (outC.rows.get? 0).bind (fun rr => rowGet rr "ParentSpecialtyName")
      = some (PV.p (Prim.str "")) ∧
    (outC.rows.get? 1).bind (fun rr => rowGet rr "ParentSpecialtyName")
      = some (PV.p (Prim.str "Cardiology")) := by
  have h := claim_C2_parent_name rollupC specC sympC synC outC
    (by decide) (by decide) (by decide) (by decide) (by decide)
    (by decide) (by decide) (by unfold noColOverlap; decide) (by decide)
    (by decide) (by decide) (by decide) (by decide) (by decide) rfl
  constructor
  · exact (h 0 [("Id", Prim.int 10), ("Specialty", Prim.str "Cardiology"),
      ("ParentSpecialty", Prim.null), ("SpecialtyId", Prim.int 100)]
      rfl Prim.null rfl).1 (by decide)
  · exact (h 1 [("Id", Prim.int 11),
      ("Specialty", Prim.str "Interventional Cardiology"),
      ("ParentSpecialty", Prim.int 10), ("SpecialtyId", Prim.int 101)]
      rfl (Prim.int 10) rfl).2
      [("Id", Prim.int 10), ("Specialty", Prim.str "Cardiology"),
       ("ParentSpecialty", Prim.null), ("SpecialtyId", Prim.int 100)]
      (by decide) rfl "Cardiology" rfl

/-- C8: the document assembler of app.py does not emit one valid JSON
object per line.  The assembler crashes before serializing anything:
with all five relations present and the rollup block succeeding,
transform_data_to_jsonl raises the pandas ValueError of
`df.fillna(None)`.  And the serialization loop it would have run appends
`str(rec)` per line, which for every nonempty record is Python repr —
single-quoted, failing the JSON object grammar — whereas every
`json.dumps` line (the rollup cloud function's serializer) passes it. -/
theorem claim_C8_lines_not_json :
    (∀ (rawData : RelMap) (ids : List String)
      (dfR dfSp dfSy dfSn dfA : DF Prim) (dfFinal : DF PV),
      lookupRel rawData "PhysicianRollupSpecialties" = some dfR →
      lookupRel rawData "Specialty" = some dfSp →
      lookupRel rawData "Symptom" = some dfSy →
      lookupRel rawData "Synonym" = some dfSn →
      lookupRel rawData "AreaOfExpertise" = some dfA →
      rollupProcess dfR dfSp dfSy dfSn = Except.ok dfFinal →
      transformDataToJsonl rawData ids = Except.error fillnaNoneError) ∧
    (∀ (k : String) (v : PV) (t : Rec),
      looksLikeJsonObject (pyReprRec ((k, v) :: t)) = false) ∧
    (∀ r : Rec, looksLikeJsonObject (jsonDumpsRec r) = true) := by
  refine ⟨?_, ?_, ?_⟩
  · intro rawData ids dfR dfSp dfSy dfSn dfA dfFinal h1 h2 h3 h4 h5 hrp
    unfold transformDataToJsonl
    rw [h1, h2, h3, h4, h5]
    show (rollupProcess dfR dfSp dfSy dfSn >>= _) = _
    rw [hrp]
    rfl
  · intro k v t
    obtain ⟨rest, hdata⟩ := pyReprRec_first_chars k v t
    unfold looksLikeJsonObject
    rw [hdata]
    rfl
  · intro r
    cases r with
    | nil => rfl
    | cons m t =>
      obtain ⟨rest, hdata⟩ := jsonDumpsRec_first_chars m.1 m.2 t
      unfold looksLikeJsonObject
      rw [show ((m.1, m.2) :: t : Rec) = m :: t by rfl] at hdata
      rw [hdata]
      rfl

theorem claim_C8_lines_not_json_witness :
    transformDataToJsonl
        [("PhysicianRollupSpecialties", rollupC), ("Specialty", specC),
         ("Symptom", sympC), ("Synonym", synC),
         ("AreaOfExpertise", (⟨["Id", "Name"], []⟩ : DF Prim))]
        ["id0", "id1"]
      = Except.error fillnaNoneError ∧
    looksLikeJsonObject
      (pyReprRec [("Id", PV.p (Prim.int 10))]) = false ∧
    looksLikeJsonObject
      (jsonDumpsRec [("Id", PV.p (Prim.int 10))]) = true := by
  refine ⟨?_, ?_, ?_⟩
  · exact claim_C8_lines_not_json.1 _ ["id0", "id1"] rollupC specC sympC
      synC ⟨["Id", "Name"], []⟩ outC rfl rfl rfl rfl rfl rfl
  · exact claim_C8_lines_not_json.2.1 "Id" (PV.p (Prim.int 10)) []
  · exact claim_C8_lines_not_json.2.2 [("Id", PV.p (Prim.int 10))]

end HHC
